import Mathlib

/-!
# sqlist: a chainable SQL query builder

A shallow embedding of the Go package `sqlist` (`sqlbuilder.go`, `method.go`,
`build.go`) and of the part of `github.com/Masterminds/squirrel` that those
files call, followed by theorems about the builder.

Conventions of the embedding

* A Go method `func (b *SQLBuilder) M(args) *SQLBuilder` mutates its receiver
  and returns the same pointer.  It is embedded as the pure transition
  `SQLBuilder.M : SQLBuilder → args → SQLBuilder` on what the pointed-to struct
  shows; `Mem` below puts the structs behind addresses again, with their
  slices and maps as references into a store, for the statements that speak
  about two builders at once.
* `interface{}` values are `Value`; the nil interface is `Value.nil`.
* `uint64` is `Nat`, reduced modulo `2 ^ 64` where the Go arithmetic can wrap.
* Go maps are association lists (`GoMap`), behind an `Option` because a Go map
  may be nil; reading a nil map finds nothing.
* In `SQLBuilder` a slice is the list of its elements; in `Mem` it is a slice
  value over a backing array, and `append` is Go's.
* A Go result `(string, []any, error)` is `String × List Value × Option String`,
  the error being its message.
-/

/-! ## Values and conditions -/

/-- A Go `interface{}` value as far as the builder and the renderer look at it:
the nil interface, scalars, and slices (what `isListType` accepts). -/
inductive Value where
  | nil
  | bool (b : Bool)
  | int (i : Int)
  | str (s : String)
  | list (xs : List Value)
deriving Repr

/-- Go `value == nil` on an interface value. -/
instance Value.decEqNil (v : Value) : Decidable (v = Value.nil) :=
  match v with
  | .nil => isTrue rfl
  | .bool _ => isFalse (fun h => by cases h)
  | .int _ => isFalse (fun h => by cases h)
  | .str _ => isFalse (fun h => by cases h)
  | .list _ => isFalse (fun h => by cases h)

/-- squirrel `PlaceholderFormat`: `Question` (`?`), `Dollar` (`$1`),
`Colon` (`:1`), `AtP` (`@p1`). -/
inductive PlaceholderFormat where
  | Question
  | Dollar
  | Colon
  | AtP
deriving DecidableEq, Repr

/-- The squirrel `Sqlizer` values the package builds or is handed:
the one-key maps `Eq{col: v}`, `NotEq`, `Like`, `ILike`, `Gt`, `Lt`, `GtOrEq`,
`LtOrEq`, the raw `Expr(sql, args...)`, and the groups `And(cs)`, `Or(cs)`. -/
inductive Sqlizer where
  | Eq (col : String) (v : Value)
  | NotEq (col : String) (v : Value)
  | Like (col : String) (v : Value)
  | ILike (col : String) (v : Value)
  | Gt (col : String) (v : Value)
  | Lt (col : String) (v : Value)
  | GtOrEq (col : String) (v : Value)
  | LtOrEq (col : String) (v : Value)
  | Expr (sql : String) (args : List Value)
  | And (cs : List Sqlizer)
  | Or (cs : List Sqlizer)
deriving Repr

/-- A Go result `(string, []any, error)`. -/
abbrev SqlResult := String × List Value × Option String

/-- The SQL text of a result. -/
def SqlResult.sql (r : SqlResult) : String := r.1

/-- The bind values of a result. -/
def SqlResult.args (r : SqlResult) : List Value := r.2.1

/-- The error of a result, `none` for Go `nil`. -/
def SqlResult.err (r : SqlResult) : Option String := r.2.2

/-! ## Go maps -/

/-- A Go `map[string]V` as an association list with unique keys. -/
abbrev GoMap (V : Type) := List (String × V)

/-- Go `v, ok := m[k]`. -/
def GoMap.get {V : Type} : GoMap V → String → Option V
  | [], _ => none
  | (k, v) :: m, a => if a = k then some v else GoMap.get m a

/-- The map without the key `a`. -/
def GoMap.delete {V : Type} : GoMap V → String → GoMap V
  | [], _ => []
  | (k, v) :: m, a => if k = a then GoMap.delete m a else (k, v) :: GoMap.delete m a

/-- Go `m[k] = v`: the entry replaces an older entry of the same key. -/
def GoMap.set {V : Type} (m : GoMap V) (k : String) (v : V) : GoMap V :=
  (k, v) :: GoMap.delete m k

/-- Reading a possibly nil Go map: a nil map has no entries. -/
def GoMap.read {V : Type} (m : Option (GoMap V)) (k : String) : Option V :=
  match m with
  | none => none
  | some m => GoMap.get m k

/-! ## The builder's data (`sqlbuilder.go`) -/

/-- Go `type Op string`; its constants live in the namespace `Op` (the bare
names `LT` and `EQ` are taken in Lean). -/
abbrev Op := String

/-- Operator `=`. -/
def Op.EQ : Op := "eq"
/-- Operator `!=`. -/
def Op.NOT_EQ : Op := "neq"
/-- Operator `like`. -/
def Op.LIKE : Op := "like"
/-- Operator `ilike`. -/
def Op.ILIKE : Op := "ilike"
/-- Operator `>`. -/
def Op.GT : Op := "gt"
/-- Operator `<`. -/
def Op.LT : Op := "lt"
/-- Operator `>=`. -/
def Op.GTE : Op := "gte"
/-- Operator `<=`. -/
def Op.LTE : Op := "lte"

/-- How a field is handled: the database column and the operator. -/
structure FieldConfig where
  DBField : String
  Operator : Op
deriving DecidableEq, Repr

/-- One join clause (Go field `Type` is `JoinType` here, `Type` being a Lean
keyword); `Args` is stored and never read. -/
structure joinConfig where
  JoinType : String
  Table : String
  Condition : String
  Args : List Value

/-- The sort column and direction. -/
structure SortConfig where
  Field : String
  Order : String
deriving DecidableEq, Repr

/-- The builder struct: configuration first, then state. -/
structure SQLBuilder where
  fromTable : String
  estimateTable : String
  fields : List String
  joins : List joinConfig
  sortMapping : Option (GoMap String)
  placeholder : PlaceholderFormat
  fieldConfigs : Option (GoMap FieldConfig)
  whereConditions : List Sqlizer
  sort : SortConfig
  limit : Nat
  offset : Nat

/-- `NewSQLBuilder`: empty slices and maps, the dollar style, limit 7. -/
def NewSQLBuilder : SQLBuilder :=
  { fromTable := ""
    estimateTable := ""
    fields := []
    joins := []
    sortMapping := some []
    placeholder := PlaceholderFormat.Dollar
    fieldConfigs := some []
    whereConditions := []
    sort := { Field := "", Order := "" }
    limit := 7
    offset := 0 }

/-! ## Configuration methods (`method.go`) -/

/-- `WithPlaceholder`. -/
def SQLBuilder.WithPlaceholder (b : SQLBuilder) (placeholder : PlaceholderFormat) : SQLBuilder :=
  { b with placeholder := placeholder }

/-- `WithFrom`. -/
def SQLBuilder.WithFrom (b : SQLBuilder) (table : String) : SQLBuilder :=
  { b with fromTable := table }

/-- `WithEstimate`. -/
def SQLBuilder.WithEstimate (b : SQLBuilder) (table : String) : SQLBuilder :=
  { b with estimateTable := table }

/-- `WithField`: `append(b.fields, field)`. -/
def SQLBuilder.WithField (b : SQLBuilder) (field : String) : SQLBuilder :=
  { b with fields := b.fields ++ [field] }

/-- `WithFields`: `append(b.fields, fields...)`. -/
def SQLBuilder.WithFields (b : SQLBuilder) (fields : List String) : SQLBuilder :=
  { b with fields := b.fields ++ fields }

/-- `WithJoin`. -/
def SQLBuilder.WithJoin (b : SQLBuilder) (joinType table condition : String)
    (args : List Value) : SQLBuilder :=
  { b with joins := b.joins ++
      [{ JoinType := joinType, Table := table, Condition := condition, Args := args }] }

/-- `WithLeftJoin`. -/
def SQLBuilder.WithLeftJoin (b : SQLBuilder) (table condition : String)
    (args : List Value) : SQLBuilder :=
  b.WithJoin "LEFT JOIN" table condition args

/-- `WithRightJoin`. -/
def SQLBuilder.WithRightJoin (b : SQLBuilder) (table condition : String)
    (args : List Value) : SQLBuilder :=
  b.WithJoin "RIGHT JOIN" table condition args

/-- `WithInnerJoin`. -/
def SQLBuilder.WithInnerJoin (b : SQLBuilder) (table condition : String)
    (args : List Value) : SQLBuilder :=
  b.WithJoin "JOIN" table condition args

/-- `WithFullJoin`. -/
def SQLBuilder.WithFullJoin (b : SQLBuilder) (table condition : String)
    (args : List Value) : SQLBuilder :=
  b.WithJoin "FULL JOIN" table condition args

/-- `mapField`: the database column of an alias, the alias itself when it has
no entry in `fieldConfigs`. -/
def SQLBuilder.mapField (b : SQLBuilder) (name : String) : String :=
  match GoMap.read b.fieldConfigs name with
  | some cfg => cfg.DBField
  | none => name

/-- `WithFieldConfig`: makes the map when it is nil, then writes the entry. -/
def SQLBuilder.WithFieldConfig (b : SQLBuilder) (field dbField : String) (op : Op) : SQLBuilder :=
  let m : GoMap FieldConfig :=
    match b.fieldConfigs with
    | none => []
    | some m => m
  { b with fieldConfigs := some (GoMap.set m field { DBField := dbField, Operator := op }) }

/-! ## Condition methods (`method.go`) -/

/-- `Where`. -/
def SQLBuilder.Where (b : SQLBuilder) (condition : Sqlizer) : SQLBuilder :=
  { b with whereConditions := b.whereConditions ++ [condition] }

/-- `WhereIf`. -/
def SQLBuilder.WhereIf (b : SQLBuilder) (cond : Bool) (condition : Sqlizer) : SQLBuilder :=
  if cond then { b with whereConditions := b.whereConditions ++ [condition] } else b

/-- `Eq`. -/
def SQLBuilder.Eq (b : SQLBuilder) (field : String) (value : Value) : SQLBuilder :=
  if value ≠ Value.nil then
    { b with whereConditions := b.whereConditions ++ [Sqlizer.Eq (b.mapField field) value] }
  else b

/-- `EqIf`. -/
def SQLBuilder.EqIf (b : SQLBuilder) (value : Value) (field : String) : SQLBuilder :=
  if value ≠ Value.nil then
    { b with whereConditions := b.whereConditions ++ [Sqlizer.Eq (b.mapField field) value] }
  else b

/-- `NotEq`. -/
def SQLBuilder.NotEq (b : SQLBuilder) (field : String) (value : Value) : SQLBuilder :=
  if value ≠ Value.nil then
    { b with whereConditions := b.whereConditions ++ [Sqlizer.NotEq (b.mapField field) value] }
  else b

/-- `Like`: the pattern is `value + "%"`. -/
def SQLBuilder.Like (b : SQLBuilder) (field : String) (value : String) : SQLBuilder :=
  if value ≠ "" then
    { b with whereConditions :=
        b.whereConditions ++ [Sqlizer.Like (b.mapField field) (Value.str (value ++ "%"))] }
  else b

/-- `ILike`: the pattern is `"%" + value + "%"`. -/
def SQLBuilder.ILike (b : SQLBuilder) (field : String) (value : String) : SQLBuilder :=
  if value ≠ "" then
    { b with whereConditions :=
        b.whereConditions ++ [Sqlizer.ILike (b.mapField field) (Value.str ("%" ++ value ++ "%"))] }
  else b

/-- `In`. -/
def SQLBuilder.In (b : SQLBuilder) (field : String) (values : Value) : SQLBuilder :=
  if values ≠ Value.nil then
    { b with whereConditions := b.whereConditions ++ [Sqlizer.Eq (b.mapField field) values] }
  else b

/-- `NotIn`. -/
def SQLBuilder.NotIn (b : SQLBuilder) (field : String) (values : Value) : SQLBuilder :=
  if values ≠ Value.nil then
    { b with whereConditions := b.whereConditions ++ [Sqlizer.NotEq (b.mapField field) values] }
  else b

/-- `Between`. -/
def SQLBuilder.Between (b : SQLBuilder) (field : String) (min max : Value) : SQLBuilder :=
  if min ≠ Value.nil ∧ max ≠ Value.nil then
    { b with whereConditions :=
        b.whereConditions ++ [Sqlizer.Expr (b.mapField field ++ " BETWEEN ? AND ?") [min, max]] }
  else b

/-- `Gt`. -/
def SQLBuilder.Gt (b : SQLBuilder) (field : String) (value : Value) : SQLBuilder :=
  if value ≠ Value.nil then
    { b with whereConditions := b.whereConditions ++ [Sqlizer.Gt (b.mapField field) value] }
  else b

/-- `Lt`. -/
def SQLBuilder.Lt (b : SQLBuilder) (field : String) (value : Value) : SQLBuilder :=
  if value ≠ Value.nil then
    { b with whereConditions := b.whereConditions ++ [Sqlizer.Lt (b.mapField field) value] }
  else b

/-- `Gte`. -/
def SQLBuilder.Gte (b : SQLBuilder) (field : String) (value : Value) : SQLBuilder :=
  if value ≠ Value.nil then
    { b with whereConditions := b.whereConditions ++ [Sqlizer.GtOrEq (b.mapField field) value] }
  else b

/-- `Lte`. -/
def SQLBuilder.Lte (b : SQLBuilder) (field : String) (value : Value) : SQLBuilder :=
  if value ≠ Value.nil then
    { b with whereConditions := b.whereConditions ++ [Sqlizer.LtOrEq (b.mapField field) value] }
  else b

/-- `IsNull`: `squirrel.Eq{col: nil}`. -/
def SQLBuilder.IsNull (b : SQLBuilder) (field : String) : SQLBuilder :=
  { b with whereConditions := b.whereConditions ++ [Sqlizer.Eq (b.mapField field) Value.nil] }

/-- `IsNotNull`: `squirrel.NotEq{col: nil}`. -/
def SQLBuilder.IsNotNull (b : SQLBuilder) (field : String) : SQLBuilder :=
  { b with whereConditions := b.whereConditions ++ [Sqlizer.NotEq (b.mapField field) Value.nil] }

/-- `Or`. -/
def SQLBuilder.Or (b : SQLBuilder) (conditions : List Sqlizer) : SQLBuilder :=
  if conditions.length > 0 then
    { b with whereConditions := b.whereConditions ++ [Sqlizer.Or conditions] }
  else b

/-- `And`. -/
def SQLBuilder.And (b : SQLBuilder) (conditions : List Sqlizer) : SQLBuilder :=
  if conditions.length > 0 then
    { b with whereConditions := b.whereConditions ++ [Sqlizer.And conditions] }
  else b

/-- `ExprEq`: both branches build `Expr(leftField + " = " + rightExpr, args...)`. -/
def SQLBuilder.ExprEq (b : SQLBuilder) (leftField rightExpr : String)
    (args : List Value) : SQLBuilder :=
  if args.length = 0 then
    { b with whereConditions :=
        b.whereConditions ++ [Sqlizer.Expr (leftField ++ " = " ++ rightExpr) []] }
  else
    { b with whereConditions :=
        b.whereConditions ++ [Sqlizer.Expr (leftField ++ " = " ++ rightExpr) args] }

/-! ## Sorting and pagination (`method.go`) -/

/-- `Sort`. -/
def SQLBuilder.Sort (b : SQLBuilder) (field order : String) : SQLBuilder :=
  { b with sort := { Field := b.mapField field, Order := order } }

/-- `SortIf`. -/
def SQLBuilder.SortIf (b : SQLBuilder) (field order : String) : SQLBuilder :=
  if field ≠ "" then { b with sort := { Field := b.mapField field, Order := order } } else b

/-- `Limit`: zero leaves the builder as it is. -/
def SQLBuilder.Limit (b : SQLBuilder) (limit : Nat) : SQLBuilder :=
  if limit = 0 then b else { b with limit := limit }

/-- `Offset`. -/
def SQLBuilder.Offset (b : SQLBuilder) (offset : Nat) : SQLBuilder :=
  { b with offset := offset }

/-- `Page`: `uint64` arithmetic, the product wraps modulo `2 ^ 64`. -/
def SQLBuilder.Page (b : SQLBuilder) (page pageSize : Nat) : SQLBuilder :=
  let page := if page < 1 then 1 else page
  { b with limit := pageSize, offset := ((page - 1) * pageSize) % 2 ^ 64 }

/-! ## Filters driven by the field configuration (`method.go`) -/

/-- `ApplyFilter`: nothing for an empty value or an unknown field, otherwise the
`switch` on the operator; an operator outside the eight cases adds nothing. -/
def SQLBuilder.ApplyFilter (b : SQLBuilder) (field : String) (value : String) : SQLBuilder :=
  if value = "" then b
  else
    match GoMap.read b.fieldConfigs field with
    | none => b
    | some cfg =>
      if cfg.Operator = Op.EQ then b.Eq cfg.DBField (Value.str value)
      else if cfg.Operator = Op.NOT_EQ then b.NotEq cfg.DBField (Value.str value)
      else if cfg.Operator = Op.LIKE then b.Like cfg.DBField value
      else if cfg.Operator = Op.ILIKE then b.ILike cfg.DBField value
      else if cfg.Operator = Op.GT then b.Gt cfg.DBField (Value.str value)
      else if cfg.Operator = Op.LT then b.Lt cfg.DBField (Value.str value)
      else if cfg.Operator = Op.GTE then b.Gte cfg.DBField (Value.str value)
      else if cfg.Operator = Op.LTE then b.Lte cfg.DBField (Value.str value)
      else b

/-- `ApplyExpr`.  The constant `EXPR_EQ` is used by `method.go` and declared in
none of the package's files, so it is a parameter here. -/
def SQLBuilder.ApplyExpr (EXPR_EQ : Op) (b : SQLBuilder) (field : String) (value : String)
    (args : List Value) : SQLBuilder :=
  if value = "" then b
  else
    match GoMap.read b.fieldConfigs field with
    | none => b
    | some cfg =>
      if cfg.Operator ≠ EXPR_EQ then b.ApplyFilter field value
      else b.ExprEq cfg.DBField value args

/-! ## Reset and Clone (`build.go`) -/

/-- `Reset`: clears the state, keeps the configuration. -/
def SQLBuilder.Reset (b : SQLBuilder) : SQLBuilder :=
  { b with whereConditions := [], sort := { Field := "", Order := "" }, limit := 0, offset := 0 }

/-- `Clone`: a new struct.  The composite literal names `fromTable`,
`estimateTable`, `fields`, `joins`, `sortMapping`, `placeholder` and the four
state fields; `fieldConfigs` is not named, so it is the zero value, a nil map. -/
def SQLBuilder.Clone (b : SQLBuilder) : SQLBuilder :=
  { fromTable := b.fromTable
    estimateTable := b.estimateTable
    fields := [] ++ b.fields
    joins := [] ++ b.joins
    sortMapping := b.sortMapping
    placeholder := b.placeholder
    fieldConfigs := none
    whereConditions := []
    sort := { Field := "", Order := "" }
    limit := 0
    offset := 0 }

/-! ## The statement renderer (`github.com/Masterminds/squirrel`)

`build.go` hands the accumulated state to squirrel's `SelectBuilder` and returns
what its `ToSql` returns.  The definitions below follow the squirrel functions
they are named after, restricted to what the package reaches: one-key
condition maps, plain string columns, joins and order-by parts, no prefixes,
options, group-by, having or suffixes. -/

/-- Go `strings.Join`. -/
def stringsJoin (sep : String) : List String → String
  | [] => ""
  | [a] => a
  | a :: b :: rest => a ++ sep ++ stringsJoin sep (b :: rest)

/-- squirrel `sqlTrue`. -/
def sqlTrue : String := "(1=1)"

/-- squirrel `sqlFalse`. -/
def sqlFalse : String := "(1=0)"

/-- squirrel `Placeholders(count)`: `count` question marks separated by commas. -/
def Placeholders (count : Nat) : String :=
  stringsJoin "," (List.replicate count "?")

/-- squirrel `Eq.toSQL` on a one-key map: `IS [NOT] NULL` for nil, `[NOT] IN`
for a slice (a constant for the empty slice), `=` or `<>` otherwise. -/
def eqToSQL (useNotOpr : Bool) (key : String) (val : Value) : SqlResult :=
  let equalOpr := if useNotOpr then "<>" else "="
  let inOpr := if useNotOpr then "NOT IN" else "IN"
  let nullOpr := if useNotOpr then "IS NOT" else "IS"
  let inEmptyExpr := if useNotOpr then sqlTrue else sqlFalse
  match val with
  | .nil => (key ++ " " ++ nullOpr ++ " NULL", [], none)
  | .list xs =>
    if xs.length = 0 then (inEmptyExpr, [], none)
    else (key ++ " " ++ inOpr ++ " (" ++ Placeholders xs.length ++ ")", xs, none)
  | v => (key ++ " " ++ equalOpr ++ " ?", [v], none)

/-- squirrel `Lt.toSql(opposite, orEq)` on a one-key map. -/
def ltToSql (opposite orEq : Bool) (key : String) (val : Value) : SqlResult :=
  let opr := if opposite then ">" else "<"
  let opr := if orEq then opr ++ "=" else opr
  match val with
  | .nil => ("", [], some "cannot use null with less than or greater than operators")
  | .list _ => ("", [], some "cannot use array or slice with less than or greater than operators")
  | v => (key ++ " " ++ opr ++ " ?", [v], none)

/-- squirrel `Like.toSql(opr)` on a one-key map. -/
def likeToSql (opr : String) (key : String) (val : Value) : SqlResult :=
  match val with
  | .nil => ("", [], some "cannot use null with like operators")
  | .list _ => ("", [], some "cannot use array or slice with like operators")
  | v => (key ++ " " ++ opr ++ " ?", [v], none)

/-- The end of squirrel `conj.join`: the parts in parentheses, joined by `sep`;
the empty group is `defaultExpr`, a group whose parts are all empty is empty. -/
def conjFinish (sep defaultExpr : String) (n : Nat)
    (r : List String × List Value × Option String) : SqlResult :=
  if n = 0 then (defaultExpr, [], none)
  else
    match r with
    | (_, _, some e) => ("", [], some e)
    | (sqlParts, args, none) =>
      if sqlParts.length > 0 then ("(" ++ stringsJoin sep sqlParts ++ ")", args, none)
      else ("", args, none)

mutual
/-- squirrel `Sqlizer.ToSql` for each kind of condition. -/
def Sqlizer.ToSql : Sqlizer → SqlResult
  | .Eq col v => eqToSQL false col v
  | .NotEq col v => eqToSQL true col v
  | .Like col v => likeToSql "LIKE" col v
  | .ILike col v => likeToSql "ILIKE" col v
  | .Gt col v => ltToSql true false col v
  | .Lt col v => ltToSql false false col v
  | .GtOrEq col v => ltToSql true true col v
  | .LtOrEq col v => ltToSql false true col v
  | .Expr sql args => (sql, args, none)
  | .And cs => conjFinish " AND " sqlTrue cs.length (conjParts cs)
  | .Or cs => conjFinish " OR " sqlFalse cs.length (conjParts cs)
/-- The loop of squirrel `conj.join`: renders each member, stops at the first
error, keeps the non-empty texts and their bind values. -/
def conjParts : List Sqlizer → List String × List Value × Option String
  | [] => ([], [], none)
  | c :: cs =>
    match Sqlizer.ToSql c with
    | (_, _, some e) => ([], [], some e)
    | (partSQL, partArgs, none) =>
      match conjParts cs with
      | (_, _, some e) => ([], [], some e)
      | (sqlParts, args, none) =>
        if partSQL ≠ "" then (partSQL :: sqlParts, partArgs ++ args, none)
        else (sqlParts, args, none)
end

/-- squirrel `replacePositionalPlaceholders(sql, prefix)` from the counter `i`:
`??` becomes `?`, every other `?` becomes the prefix and the next number. -/
def replacePositionalPlaceholders (pfx : String) : List Char → Nat → List Char
  | [], _ => []
  | [c], i => if c = '?' then pfx.data ++ (Nat.repr (i + 1)).data else [c]
  | c :: d :: rest, i =>
    if c = '?' then
      if d = '?' then '?' :: replacePositionalPlaceholders pfx rest i
      else pfx.data ++ (Nat.repr (i + 1)).data ++ replacePositionalPlaceholders pfx (d :: rest) (i + 1)
    else c :: replacePositionalPlaceholders pfx (d :: rest) i

/-- squirrel `PlaceholderFormat.ReplacePlaceholders`. -/
def PlaceholderFormat.ReplacePlaceholders (f : PlaceholderFormat) (sql : String) : String :=
  match f with
  | .Question => sql
  | .Dollar => String.mk (replacePositionalPlaceholders "$" sql.data 0)
  | .Colon => String.mk (replacePositionalPlaceholders ":" sql.data 0)
  | .AtP => String.mk (replacePositionalPlaceholders "@p" sql.data 0)

/-- The loop of squirrel `appendToSql` from index `i`: an erroneous part ends
it, an empty part is skipped, the separator precedes every written part whose
index is not zero. -/
def appendToSqlFrom (sep : String) : Nat → List SqlResult → String → List Value →
    String × List Value × Option String
  | _, [], w, args => (w, args, none)
  | i, (partSql, partArgs, err) :: rest, w, args =>
    match err with
    | some e => (w, [], some e)
    | none =>
      if partSql = "" then appendToSqlFrom sep (i + 1) rest w args
      else
        appendToSqlFrom sep (i + 1) rest ((if i > 0 then w ++ sep else w) ++ partSql)
          (args ++ partArgs)

/-- squirrel `appendToSql(parts, w, sep, args)`, the parts already rendered. -/
def appendToSql (parts : List SqlResult) (w : String) (sep : String) (args : List Value) :
    String × List Value × Option String :=
  appendToSqlFrom sep 0 parts w args

/-- squirrel `part.ToSql` for a string part without arguments. -/
def partToSql (pred : String) : SqlResult := (pred, [], none)

mutual
/-- squirrel `selectData` as the package fills it: placeholder format, columns,
source, join clauses, where parts, order-by parts, limit and offset (the last
two as printed numbers, empty when unset). -/
inductive SelectBuilder where
  | mk (PlaceholderFormat : PlaceholderFormat) (Columns : List String) (From : FromPart)
      (Joins : List String) (WhereParts : List Sqlizer) (OrderByParts : List String)
      (Limit : String) (Offset : String)
/-- The `From` of a select: unset, a table (`From(table)`), or an aliased
select (`FromSelect(sel, name)`). -/
inductive FromPart where
  | unset
  | part (pred : String)
  | aliased (expr : SelectBuilder) (name : String)
end

/-- The placeholder format a select was given. -/
def SelectBuilder.format : SelectBuilder → PlaceholderFormat
  | .mk f _ _ _ _ _ _ _ => f

/-- squirrel `Select(columns...)`: the statement builder starts with the
`Question` format. -/
def Select (columns : List String) : SelectBuilder :=
  .mk PlaceholderFormat.Question columns FromPart.unset [] [] [] "" ""

/-- squirrel `SelectBuilder.From(from)`. -/
def SelectBuilder.From : SelectBuilder → String → SelectBuilder
  | .mk f cols _ joins wheres orderBys limit offset, table =>
    .mk f cols (FromPart.part table) joins wheres orderBys limit offset

/-- squirrel `SelectBuilder.JoinClause(pred)`. -/
def SelectBuilder.JoinClause : SelectBuilder → String → SelectBuilder
  | .mk f cols src joins wheres orderBys limit offset, pred =>
    .mk f cols src (joins ++ [pred]) wheres orderBys limit offset

/-- squirrel `SelectBuilder.Where(pred)` for a non-nil `Sqlizer`. -/
def SelectBuilder.Where : SelectBuilder → Sqlizer → SelectBuilder
  | .mk f cols src joins wheres orderBys limit offset, pred =>
    .mk f cols src joins (wheres ++ [pred]) orderBys limit offset

/-- squirrel `SelectBuilder.OrderBy(orderBy)`. -/
def SelectBuilder.OrderBy : SelectBuilder → String → SelectBuilder
  | .mk f cols src joins wheres orderBys limit offset, orderBy =>
    .mk f cols src joins wheres (orderBys ++ [orderBy]) limit offset

/-- squirrel `SelectBuilder.Limit(limit)`: stores the number printed with `%d`. -/
def SelectBuilder.Limit : SelectBuilder → Nat → SelectBuilder
  | .mk f cols src joins wheres orderBys _ offset, limit =>
    .mk f cols src joins wheres orderBys (Nat.repr limit) offset

/-- squirrel `SelectBuilder.Offset(offset)`: stores the number printed with `%d`. -/
def SelectBuilder.Offset : SelectBuilder → Nat → SelectBuilder
  | .mk f cols src joins wheres orderBys limit _, offset =>
    .mk f cols src joins wheres orderBys limit (Nat.repr offset)

/-- squirrel `SelectBuilder.PlaceholderFormat(f)`, named `SetPlaceholderFormat`
to keep the method apart from the type of its argument. -/
def SelectBuilder.SetPlaceholderFormat : SelectBuilder → PlaceholderFormat → SelectBuilder
  | .mk _ cols src joins wheres orderBys limit offset, f =>
    .mk f cols src joins wheres orderBys limit offset

/-- squirrel `SelectBuilder.FromSelect(from, alias)`: the inner select is set to
the `Question` format, so that only the outer statement numbers placeholders. -/
def SelectBuilder.FromSelect : SelectBuilder → SelectBuilder → String → SelectBuilder
  | .mk f cols _ joins wheres orderBys limit offset, sel, name =>
    .mk f cols (FromPart.aliased (sel.SetPlaceholderFormat PlaceholderFormat.Question) name)
      joins wheres orderBys limit offset

/-- The end of squirrel `selectData.ToSql`: an error of `toSqlRaw` is returned
as it is, otherwise the placeholder format rewrites the text. -/
def finishToSql (f : PlaceholderFormat) (raw : SqlResult) : SqlResult :=
  match raw with
  | (sql, args, some e) => (sql, args, some e)
  | (sql, args, none) => (f.ReplacePlaceholders sql, args, none)

mutual
/-- squirrel `selectData.toSqlRaw`: the statement text with `?` placeholders. -/
def SelectBuilder.toSqlRaw : SelectBuilder → SqlResult
  | .mk _ cols src joins wheres orderBys limit offset =>
    if cols.length = 0 then
      ("", [], some "select statements must have at least one result column")
    else
      match appendToSql (cols.map partToSql) "SELECT " ", " [] with
      | (_, _, some e) => ("", [], some e)
      | (sql, args, none) =>
        match FromPart.appendTo src sql args with
        | (_, _, some e) => ("", [], some e)
        | (sql, args, none) =>
          match (if joins.length > 0 then
                   appendToSql (joins.map partToSql) (sql ++ " ") " " args
                 else (sql, args, none)) with
          | (_, _, some e) => ("", [], some e)
          | (sql, args, none) =>
            match (if wheres.length > 0 then
                     appendToSql (wheres.map Sqlizer.ToSql) (sql ++ " WHERE ") " AND " args
                   else (sql, args, none)) with
            | (_, _, some e) => ("", [], some e)
            | (sql, args, none) =>
              match (if orderBys.length > 0 then
                       appendToSql (orderBys.map partToSql) (sql ++ " ORDER BY ") ", " args
                     else (sql, args, none)) with
              | (_, _, some e) => ("", [], some e)
              | (sql, args, none) =>
                let sql := if limit.length > 0 then sql ++ " LIMIT " ++ limit else sql
                let sql := if offset.length > 0 then sql ++ " OFFSET " ++ offset else sql
                (sql, args, none)
termination_by structural sb => sb
/-- The `From` step of `toSqlRaw`: nothing when unset, otherwise `" FROM "` and
the source; an aliased select is `(` its `ToSql` `) AS ` the alias, its `ToSql`
being its own `toSqlRaw` under its own placeholder format. -/
def FromPart.appendTo : FromPart → String → List Value → String × List Value × Option String
  | .unset, sql, args => (sql, args, none)
  | .part pred, sql, args => appendToSql [partToSql pred] (sql ++ " FROM ") "" args
  | .aliased expr name, sql, args =>
    match finishToSql expr.format (SelectBuilder.toSqlRaw expr) with
    | (_, _, some e) => (sql ++ " FROM ", [], some e)
    | (inner, innerArgs, none) =>
      appendToSql [("(" ++ inner ++ ") AS " ++ name, innerArgs, none)] (sql ++ " FROM ") "" args
termination_by structural src => src
end

/-- squirrel `selectData.ToSql`: `toSqlRaw`, then the placeholder format. -/
def SelectBuilder.ToSql (sb : SelectBuilder) : SqlResult :=
  finishToSql sb.format sb.toSqlRaw

/-! ## Building statements (`build.go`) -/

/-- The join clause text, `fmt.Sprintf("%s %s ON %s", ...)`. -/
def joinConfig.clause (join : joinConfig) : String :=
  join.JoinType ++ " " ++ join.Table ++ " ON " ++ join.Condition

/-- `buildBaseSelect`: columns and table, every join as a join clause, and the
conditions under one `And` when there are any. -/
def SQLBuilder.buildBaseSelect (b : SQLBuilder) : SelectBuilder :=
  let selectBuilder := (Select b.fields).From b.fromTable
  let selectBuilder :=
    b.joins.foldl (fun sb join => sb.JoinClause join.clause) selectBuilder
  if b.whereConditions.length > 0 then selectBuilder.Where (Sqlizer.And b.whereConditions)
  else selectBuilder

/-- The statement of the approximate count. -/
def estimateSQL : String :=
  "SELECT reltuples::bigint AS estimate FROM pg_class WHERE oid = $1::regclass"

/-- `BuildCount`. -/
def SQLBuilder.BuildCount (b : SQLBuilder) : SqlResult :=
  if b.whereConditions.length > 0 ∨ b.estimateTable = "" then
    let selectBuilder := b.buildBaseSelect
    let countBuilder := (Select ["COUNT(*)"]).FromSelect selectBuilder "subquery"
    (countBuilder.SetPlaceholderFormat b.placeholder).ToSql
  else
    (estimateSQL, [Value.str b.estimateTable], none)

/-- `BuildSelect`. -/
def SQLBuilder.BuildSelect (b : SQLBuilder) : SqlResult :=
  let selectBuilder := b.buildBaseSelect
  let selectBuilder :=
    if b.sort.Field ≠ "" then
      let sortField :=
        match GoMap.read b.sortMapping b.sort.Field with
        | some mapped => mapped
        | none => b.sort.Field
      selectBuilder.OrderBy (sortField ++ " " ++ b.sort.Order)
    else selectBuilder
  let selectBuilder := if b.limit > 0 then selectBuilder.Limit b.limit else selectBuilder
  let selectBuilder := if b.offset > 0 then selectBuilder.Offset b.offset else selectBuilder
  (selectBuilder.SetPlaceholderFormat b.placeholder).ToSql

/-! ## Builders behind pointers

Every method takes `b *SQLBuilder`, changes the struct `b` points to and
returns `b`; `Clone` alone allocates.  `Call` names one method call with its
arguments. -/

/-- One call of a chainable method, with its arguments. -/
inductive Call where
  | WithPlaceholder (placeholder : PlaceholderFormat)
  | WithFrom (table : String)
  | WithEstimate (table : String)
  | WithField (field : String)
  | WithFields (fields : List String)
  | WithJoin (joinType table condition : String) (args : List Value)
  | WithLeftJoin (table condition : String) (args : List Value)
  | WithRightJoin (table condition : String) (args : List Value)
  | WithInnerJoin (table condition : String) (args : List Value)
  | WithFullJoin (table condition : String) (args : List Value)
  | Where (condition : Sqlizer)
  | WhereIf (cond : Bool) (condition : Sqlizer)
  | Eq (field : String) (value : Value)
  | EqIf (value : Value) (field : String)
  | NotEq (field : String) (value : Value)
  | Like (field value : String)
  | ILike (field value : String)
  | In (field : String) (values : Value)
  | NotIn (field : String) (values : Value)
  | Between (field : String) (min max : Value)
  | Gt (field : String) (value : Value)
  | Lt (field : String) (value : Value)
  | Gte (field : String) (value : Value)
  | Lte (field : String) (value : Value)
  | IsNull (field : String)
  | IsNotNull (field : String)
  | Or (conditions : List Sqlizer)
  | And (conditions : List Sqlizer)
  | ExprEq (leftField rightExpr : String) (args : List Value)
  | Sort (field order : String)
  | SortIf (field order : String)
  | Limit (limit : Nat)
  | Offset (offset : Nat)
  | Page (page pageSize : Nat)
  | WithFieldConfig (field dbField : String) (op : Op)
  | ApplyFilter (field value : String)
  | ApplyExpr (field value : String) (args : List Value)
  | Reset

/-- The effect of a call on the struct of its receiver. -/
def Call.run (EXPR_EQ : Op) (c : Call) (b : SQLBuilder) : SQLBuilder :=
  match c with
  | .WithPlaceholder p => b.WithPlaceholder p
  | .WithFrom t => b.WithFrom t
  | .WithEstimate t => b.WithEstimate t
  | .WithField f => b.WithField f
  | .WithFields fs => b.WithFields fs
  | .WithJoin ty t cond args => b.WithJoin ty t cond args
  | .WithLeftJoin t cond args => b.WithLeftJoin t cond args
  | .WithRightJoin t cond args => b.WithRightJoin t cond args
  | .WithInnerJoin t cond args => b.WithInnerJoin t cond args
  | .WithFullJoin t cond args => b.WithFullJoin t cond args
  | .Where cond => b.Where cond
  | .WhereIf g cond => b.WhereIf g cond
  | .Eq f v => b.Eq f v
  | .EqIf v f => b.EqIf v f
  | .NotEq f v => b.NotEq f v
  | .Like f v => b.Like f v
  | .ILike f v => b.ILike f v
  | .In f v => b.In f v
  | .NotIn f v => b.NotIn f v
  | .Between f lo hi => b.Between f lo hi
  | .Gt f v => b.Gt f v
  | .Lt f v => b.Lt f v
  | .Gte f v => b.Gte f v
  | .Lte f v => b.Lte f v
  | .IsNull f => b.IsNull f
  | .IsNotNull f => b.IsNotNull f
  | .Or cs => b.Or cs
  | .And cs => b.And cs
  | .ExprEq l r args => b.ExprEq l r args
  | .Sort f o => b.Sort f o
  | .SortIf f o => b.SortIf f o
  | .Limit n => b.Limit n
  | .Offset n => b.Offset n
  | .Page p s => b.Page p s
  | .WithFieldConfig f d op => b.WithFieldConfig f d op
  | .ApplyFilter f v => b.ApplyFilter f v
  | .ApplyExpr f v args => b.ApplyExpr EXPR_EQ f v args
  | .Reset => b.Reset

/-- A chain of calls on one struct, first call first. -/
def Call.runAll (EXPR_EQ : Op) (cs : List Call) (b : SQLBuilder) : SQLBuilder :=
  cs.foldl (fun acc c => c.run EXPR_EQ acc) b

/-- The calls of a script that go through the pointer `p`. -/
def callsOn (p : Nat) (s : List (Nat × Call)) : List Call :=
  (s.filter (fun e => decide (e.1 = p))).map Prod.snd

/-! ## Memory: backing arrays, maps and structs behind pointers

In Go the builder's slices and maps are references.  A slice value points into
a backing array that other slice values may point into as well; `append`
writes in place while the capacity lasts and moves to a new array otherwise.
A map value refers to a map that other map values may refer to as well.  This
section keeps the struct as Go lays it out, with the arrays and the maps in a
store, and runs every method as the writes it makes. -/

/-- A Go slice value: the backing array it points into, its length and its
capacity. -/
structure Slice where
  arr : Nat
  len : Nat
  cap : Nat
deriving DecidableEq, Repr

/-- The empty literal `[]T{}`: length and capacity zero, no storage behind it. -/
def Slice.empty : Slice := { arr := 0, len := 0, cap := 0 }

/-- The elements a slice value shows: the first `len` cells of its array.  An
array is kept as the cells written so far; the cells from there up to the
capacity hold zero values that no slice value reaches. -/
def Slice.read {α : Type} (arrays : List (List α)) (s : Slice) : List α :=
  ((arrays[s.arr]?).getD []).take s.len

/-- Writing `xs` into an array from index `i` on; the other cells stay. -/
def writeAt {α : Type} (cells : List α) (i : Nat) (xs : List α) : List α :=
  cells.take i ++ xs ++ cells.drop (i + xs.length)

/-- Go `append(s, xs...)`.  When the elements fit into the capacity they are
written into the array of `s` behind its length, whatever else points there,
and the result is `s` with the new length.  Otherwise a new array is allocated
with the elements of `s` and `xs`, and the result points to it; `grow`, a
function of the old capacity and the needed length, is the spare capacity the
runtime adds. -/
def Slice.append {α : Type} (grow : Nat → Nat → Nat) (arrays : List (List α)) (s : Slice)
    (xs : List α) : List (List α) × Slice :=
  if s.len + xs.length ≤ s.cap then
    (arrays.set s.arr (writeAt ((arrays[s.arr]?).getD []) s.len xs),
      { arr := s.arr, len := s.len + xs.length, cap := s.cap })
  else
    (arrays ++ [s.read arrays ++ xs],
      { arr := arrays.length, len := s.len + xs.length,
        cap := s.len + xs.length + grow s.cap (s.len + xs.length) })

/-- The store: the backing arrays of `[]string`, `[]joinConfig` and
`[]squirrel.Sqlizer`, the maps `map[string]string` and
`map[string]FieldConfig`; an address is an index. -/
structure Store where
  strings : List (List String)
  joins : List (List joinConfig)
  conds : List (List Sqlizer)
  sortMaps : List (GoMap String)
  configMaps : List (GoMap FieldConfig)

/-- The struct `SQLBuilder` as it lies in memory: slice values and map
references where `SQLBuilder` above has lists and maps. -/
structure SQLBuilderRaw where
  fromTable : String
  estimateTable : String
  fields : Slice
  joins : Slice
  sortMapping : Option Nat
  placeholder : PlaceholderFormat
  fieldConfigs : Option Nat
  whereConditions : Slice
  sort : SortConfig
  limit : Nat
  offset : Nat

/-- What a struct in memory shows: every slice read from its array, every map
read through its reference. -/
def SQLBuilderRaw.value (r : SQLBuilderRaw) (st : Store) : SQLBuilder :=
  { fromTable := r.fromTable
    estimateTable := r.estimateTable
    fields := r.fields.read st.strings
    joins := r.joins.read st.joins
    sortMapping := r.sortMapping.map (fun a => (st.sortMaps[a]?).getD [])
    placeholder := r.placeholder
    fieldConfigs := r.fieldConfigs.map (fun a => (st.configMaps[a]?).getD [])
    whereConditions := r.whereConditions.read st.conds
    sort := r.sort
    limit := r.limit
    offset := r.offset }

/-- One write of a method to its receiver `b`:
`b.placeholder = f`, `b.fromTable = t`, `b.estimateTable = t`,
`b.fields = append(b.fields, xs...)`, `b.joins = append(b.joins, js...)`,
`b.whereConditions = append(b.whereConditions, cs...)`,
`b.whereConditions = []squirrel.Sqlizer{}`, `b.sort = s`, `b.limit = n`,
`b.offset = n`, `b.fieldConfigs = make(map[string]FieldConfig)`,
`b.fieldConfigs[k] = v`. -/
inductive Write where
  | placeholder (f : PlaceholderFormat)
  | fromTable (t : String)
  | estimateTable (t : String)
  | appendFields (xs : List String)
  | appendJoins (js : List joinConfig)
  | appendWhere (cs : List Sqlizer)
  | clearWhere
  | sort (s : SortConfig)
  | limit (n : Nat)
  | offset (n : Nat)
  | makeFieldConfigs
  | putFieldConfig (k : String) (v : FieldConfig)

/-- A write on the struct and the store.  The appends go through
`Slice.append`; a map write changes the map the struct refers to. -/
def Write.exec (grow : Nat → Nat → Nat) (w : Write) (r : SQLBuilderRaw) (st : Store) :
    SQLBuilderRaw × Store :=
  match w with
  | .placeholder f => ({ r with placeholder := f }, st)
  | .fromTable t => ({ r with fromTable := t }, st)
  | .estimateTable t => ({ r with estimateTable := t }, st)
  | .appendFields xs =>
    ({ r with fields := (Slice.append grow st.strings r.fields xs).2 },
      { st with strings := (Slice.append grow st.strings r.fields xs).1 })
  | .appendJoins js =>
    ({ r with joins := (Slice.append grow st.joins r.joins js).2 },
      { st with joins := (Slice.append grow st.joins r.joins js).1 })
  | .appendWhere cs =>
    ({ r with whereConditions := (Slice.append grow st.conds r.whereConditions cs).2 },
      { st with conds := (Slice.append grow st.conds r.whereConditions cs).1 })
  | .clearWhere => ({ r with whereConditions := Slice.empty }, st)
  | .sort s => ({ r with sort := s }, st)
  | .limit n => ({ r with limit := n }, st)
  | .offset n => ({ r with offset := n }, st)
  | .makeFieldConfigs =>
    ({ r with fieldConfigs := some st.configMaps.length },
      { st with configMaps := st.configMaps ++ [[]] })
  | .putFieldConfig k v =>
    match r.fieldConfigs with
    | none => (r, st)
    | some a =>
      (r, { st with configMaps :=
        st.configMaps.set a (GoMap.set ((st.configMaps[a]?).getD []) k v) })

/-- The writes of a method in program order. -/
def Write.execAll (grow : Nat → Nat → Nat) : List Write → SQLBuilderRaw → Store →
    SQLBuilderRaw × Store
  | [], r, st => (r, st)
  | w :: ws, r, st => Write.execAll grow ws (w.exec grow r st).1 (w.exec grow r st).2

/-- A write on the builder taken by value. -/
def Write.apply (w : Write) (b : SQLBuilder) : SQLBuilder :=
  match w with
  | .placeholder f => { b with placeholder := f }
  | .fromTable t => { b with fromTable := t }
  | .estimateTable t => { b with estimateTable := t }
  | .appendFields xs => { b with fields := b.fields ++ xs }
  | .appendJoins js => { b with joins := b.joins ++ js }
  | .appendWhere cs => { b with whereConditions := b.whereConditions ++ cs }
  | .clearWhere => { b with whereConditions := [] }
  | .sort s => { b with sort := s }
  | .limit n => { b with limit := n }
  | .offset n => { b with offset := n }
  | .makeFieldConfigs => { b with fieldConfigs := some [] }
  | .putFieldConfig k v => { b with fieldConfigs := b.fieldConfigs.map (fun m => GoMap.set m k v) }

/-- The call `ApplyFilter(field, value)` hands on: none for an empty value, an
alias without a rule or an operator outside the `switch`, otherwise the
predicate method of the rule's operator on the rule's column. -/
def filterCall (b : SQLBuilder) (field value : String) : Option Call :=
  if value = "" then none
  else
    match GoMap.read b.fieldConfigs field with
    | none => none
    | some cfg =>
      if cfg.Operator = Op.EQ then some (Call.Eq cfg.DBField (Value.str value))
      else if cfg.Operator = Op.NOT_EQ then some (Call.NotEq cfg.DBField (Value.str value))
      else if cfg.Operator = Op.LIKE then some (Call.Like cfg.DBField value)
      else if cfg.Operator = Op.ILIKE then some (Call.ILike cfg.DBField value)
      else if cfg.Operator = Op.GT then some (Call.Gt cfg.DBField (Value.str value))
      else if cfg.Operator = Op.LT then some (Call.Lt cfg.DBField (Value.str value))
      else if cfg.Operator = Op.GTE then some (Call.Gte cfg.DBField (Value.str value))
      else if cfg.Operator = Op.LTE then some (Call.Lte cfg.DBField (Value.str value))
      else none

/-- The writes of every method but `ApplyFilter` and `ApplyExpr`, which hand
on to another method; `b` is what the receiver shows when the method starts,
and the methods read it through `mapField` and the nil test of
`WithFieldConfig` only. -/
def Call.ownWrites (c : Call) (b : SQLBuilder) : List Write :=
  match c with
  | .WithPlaceholder f => [.placeholder f]
  | .WithFrom t => [.fromTable t]
  | .WithEstimate t => [.estimateTable t]
  | .WithField f => [.appendFields [f]]
  | .WithFields fs => [.appendFields fs]
  | .WithJoin ty t cond args =>
    [.appendJoins [{ JoinType := ty, Table := t, Condition := cond, Args := args }]]
  | .WithLeftJoin t cond args =>
    [.appendJoins [{ JoinType := "LEFT JOIN", Table := t, Condition := cond, Args := args }]]
  | .WithRightJoin t cond args =>
    [.appendJoins [{ JoinType := "RIGHT JOIN", Table := t, Condition := cond, Args := args }]]
  | .WithInnerJoin t cond args =>
    [.appendJoins [{ JoinType := "JOIN", Table := t, Condition := cond, Args := args }]]
  | .WithFullJoin t cond args =>
    [.appendJoins [{ JoinType := "FULL JOIN", Table := t, Condition := cond, Args := args }]]
  | .Where cond => [.appendWhere [cond]]
  | .WhereIf g cond => if g then [.appendWhere [cond]] else []
  | .Eq f v => if v ≠ Value.nil then [.appendWhere [Sqlizer.Eq (b.mapField f) v]] else []
  | .EqIf v f => if v ≠ Value.nil then [.appendWhere [Sqlizer.Eq (b.mapField f) v]] else []
  | .NotEq f v => if v ≠ Value.nil then [.appendWhere [Sqlizer.NotEq (b.mapField f) v]] else []
  | .Like f v =>
    if v ≠ "" then [.appendWhere [Sqlizer.Like (b.mapField f) (Value.str (v ++ "%"))]] else []
  | .ILike f v =>
    if v ≠ "" then [.appendWhere [Sqlizer.ILike (b.mapField f) (Value.str ("%" ++ v ++ "%"))]]
    else []
  | .In f v => if v ≠ Value.nil then [.appendWhere [Sqlizer.Eq (b.mapField f) v]] else []
  | .NotIn f v => if v ≠ Value.nil then [.appendWhere [Sqlizer.NotEq (b.mapField f) v]] else []
  | .Between f lo hi =>
    if lo ≠ Value.nil ∧ hi ≠ Value.nil then
      [.appendWhere [Sqlizer.Expr (b.mapField f ++ " BETWEEN ? AND ?") [lo, hi]]]
    else []
  | .Gt f v => if v ≠ Value.nil then [.appendWhere [Sqlizer.Gt (b.mapField f) v]] else []
  | .Lt f v => if v ≠ Value.nil then [.appendWhere [Sqlizer.Lt (b.mapField f) v]] else []
  | .Gte f v => if v ≠ Value.nil then [.appendWhere [Sqlizer.GtOrEq (b.mapField f) v]] else []
  | .Lte f v => if v ≠ Value.nil then [.appendWhere [Sqlizer.LtOrEq (b.mapField f) v]] else []
  | .IsNull f => [.appendWhere [Sqlizer.Eq (b.mapField f) Value.nil]]
  | .IsNotNull f => [.appendWhere [Sqlizer.NotEq (b.mapField f) Value.nil]]
  | .Or cs => if cs.length > 0 then [.appendWhere [Sqlizer.Or cs]] else []
  | .And cs => if cs.length > 0 then [.appendWhere [Sqlizer.And cs]] else []
  | .ExprEq l r args =>
    if args.length = 0 then [.appendWhere [Sqlizer.Expr (l ++ " = " ++ r) []]]
    else [.appendWhere [Sqlizer.Expr (l ++ " = " ++ r) args]]
  | .Sort f o => [.sort { Field := b.mapField f, Order := o }]
  | .SortIf f o => if f ≠ "" then [.sort { Field := b.mapField f, Order := o }] else []
  | .Limit n => if n = 0 then [] else [.limit n]
  | .Offset n => [.offset n]
  | .Page page pageSize =>
    [.limit pageSize, .offset ((((if page < 1 then 1 else page) - 1) * pageSize) % 2 ^ 64)]
  | .WithFieldConfig f d op =>
    match b.fieldConfigs with
    | none => [.makeFieldConfigs, .putFieldConfig f { DBField := d, Operator := op }]
    | some _ => [.putFieldConfig f { DBField := d, Operator := op }]
  | .ApplyFilter _ _ => []
  | .ApplyExpr _ _ _ => []
  | .Reset => [.clearWhere, .sort { Field := "", Order := "" }, .limit 0, .offset 0]

/-- The writes of a call.  `ApplyFilter` makes the writes of the method it
hands on to; `ApplyExpr` those of `ApplyFilter` under an operator other than
`EXPR_EQ`, and those of `ExprEq` on the rule's column otherwise. -/
def Call.writes (EXPR_EQ : Op) (c : Call) (b : SQLBuilder) : List Write :=
  match c with
  | .ApplyFilter f v =>
    match filterCall b f v with
    | none => []
    | some c1 => c1.ownWrites b
  | .ApplyExpr f v args =>
    if v = "" then []
    else
      match GoMap.read b.fieldConfigs f with
      | none => []
      | some cfg =>
        if cfg.Operator ≠ EXPR_EQ then
          match filterCall b f v with
          | none => []
          | some c1 => c1.ownWrites b
        else (Call.ExprEq cfg.DBField v args).ownWrites b
  | c => c.ownWrites b

/-- The memory: the struct at each address, and the store. -/
structure Mem where
  cells : List SQLBuilderRaw
  store : Store

/-- What the struct at `p` shows; `none` for a dangling pointer. -/
def Mem.value (m : Mem) (p : Nat) : Option SQLBuilder :=
  (m.cells[p]?).map (fun r => r.value m.store)

/-- `NewSQLBuilder` in memory: a new struct with empty slice literals and two
maps made for it; the address of the struct is returned. -/
def Mem.NewSQLBuilder (m : Mem) : Mem × Nat :=
  ({ cells := m.cells ++
      [{ fromTable := ""
         estimateTable := ""
         fields := Slice.empty
         joins := Slice.empty
         sortMapping := some m.store.sortMaps.length
         placeholder := PlaceholderFormat.Dollar
         fieldConfigs := some m.store.configMaps.length
         whereConditions := Slice.empty
         sort := { Field := "", Order := "" }
         limit := 7
         offset := 0 }]
     store :=
      { strings := m.store.strings
        joins := m.store.joins
        conds := m.store.conds
        sortMaps := m.store.sortMaps ++ [[]]
        configMaps := m.store.configMaps ++ [[]] } },
    m.cells.length)

/-- A method call through the pointer `p`: the method reads what its receiver
shows, makes its writes on the struct at `p` and on the store, and returns `p`
itself; `none` for a dangling pointer. -/
def Mem.call (EXPR_EQ : Op) (grow : Nat → Nat → Nat) (m : Mem) (p : Nat) (c : Call) :
    Option Mem :=
  match m.cells[p]? with
  | none => none
  | some r =>
    some
      { cells := m.cells.set p
          (Write.execAll grow (c.writes EXPR_EQ (r.value m.store)) r m.store).1
        store := (Write.execAll grow (c.writes EXPR_EQ (r.value m.store)) r m.store).2 }

/-- `Clone` through the pointer `p`.  The composite literal is evaluated field
by field: `append([]string{}, b.fields...)` and `append([]joinConfig{},
b.joins...)` through `Slice.append`, `sortMapping` the same map reference as in
`b`, `fieldConfigs` not named and so nil, `whereConditions` an empty literal.
The new struct gets a fresh address, which is returned. -/
def Mem.Clone (grow : Nat → Nat → Nat) (m : Mem) (p : Nat) : Option (Mem × Nat) :=
  match m.cells[p]? with
  | none => none
  | some r =>
    some
      ({ cells := m.cells ++
          [{ fromTable := r.fromTable
             estimateTable := r.estimateTable
             fields :=
              (Slice.append grow m.store.strings Slice.empty (r.fields.read m.store.strings)).2
             joins :=
              (Slice.append grow m.store.joins Slice.empty (r.joins.read m.store.joins)).2
             sortMapping := r.sortMapping
             placeholder := r.placeholder
             fieldConfigs := none
             whereConditions := Slice.empty
             sort := { Field := "", Order := "" }
             limit := 0
             offset := 0 }]
         store :=
          { strings :=
              (Slice.append grow m.store.strings Slice.empty (r.fields.read m.store.strings)).1
            joins :=
              (Slice.append grow m.store.joins Slice.empty (r.joins.read m.store.joins)).1
            conds := m.store.conds
            sortMaps := m.store.sortMaps
            configMaps := m.store.configMaps } },
        m.cells.length)

/-- A script of calls, each through its own pointer, in program order. -/
def Mem.script (EXPR_EQ : Op) (grow : Nat → Nat → Nat) : Mem → List (Nat × Call) → Option Mem
  | m, [] => some m
  | m, (p, c) :: rest =>
    match Mem.call EXPR_EQ grow m p c with
    | none => none
    | some m1 => Mem.script EXPR_EQ grow m1 rest

/-- A slice value in good standing: the length within the capacity, and, when
there is capacity, an allocated array with at least `len` cells written. -/
def Slice.Valid {α : Type} (arrays : List (List α)) (s : Slice) : Prop :=
  s.len ≤ s.cap ∧
    (0 < s.cap → s.arr < arrays.length ∧ s.len ≤ ((arrays[s.arr]?).getD []).length)

/-- Two slice values that cannot reach a common cell: one of them has no
capacity, or they point into different arrays. -/
def Slice.Apart (s t : Slice) : Prop :=
  s.cap = 0 ∨ t.cap = 0 ∨ s.arr ≠ t.arr

/-- A struct in good standing: its three slices are, and its `fieldConfigs`
refers to an allocated map when it is not nil. -/
def SQLBuilderRaw.Valid (r : SQLBuilderRaw) (st : Store) : Prop :=
  Slice.Valid st.strings r.fields ∧ Slice.Valid st.joins r.joins ∧
    Slice.Valid st.conds r.whereConditions ∧
    (∀ a, r.fieldConfigs = some a → a < st.configMaps.length)

/-- Two structs that share no backing array and no `fieldConfigs` map. -/
def SQLBuilderRaw.Apart (r1 r2 : SQLBuilderRaw) : Prop :=
  Slice.Apart r1.fields r2.fields ∧ Slice.Apart r1.joins r2.joins ∧
    Slice.Apart r1.whereConditions r2.whereConditions ∧
    (r1.fieldConfigs = none ∨ r2.fieldConfigs = none ∨ r1.fieldConfigs ≠ r2.fieldConfigs)


/-- The structs behind `p` and `q` are allocated, in good standing, and share
no backing array and no `fieldConfigs` map. -/
def Mem.Isolated (m : Mem) (p q : Nat) : Prop :=
  ∃ rp rq, m.cells[p]? = some rp ∧ m.cells[q]? = some rq ∧ rp.Valid m.store ∧
    rq.Valid m.store ∧ rp.Apart rq

/-! ## Vocabulary of the statements -/

/-- The column a call registers for the alias `a`: that of
`WithFieldConfig(a, c, op)`, nothing for every other call. -/
def Call.registered (a : String) : Call → Option String
  | .WithFieldConfig f d _ => if f = a then some d else none
  | _ => none

/-- The column registered for `a` by the most recent `WithFieldConfig(a, ...)`
among the calls `cs` (first call first), if there is one. -/
def lastRegistered (a : String) (cs : List Call) : Option String :=
  cs.reverse.findSome? (Call.registered a)

/-- The text holds no `?`, the character the placeholder formats rewrite. -/
def NoPlaceholder (s : String) : Prop := '?' ∉ s.data

instance NoPlaceholder.dec (s : String) : Decidable (NoPlaceholder s) :=
  inferInstanceAs (Decidable ('?' ∉ s.data))

/-- The column `BuildSelect` sorts by: the stored sort column, or its image in
`sortMapping` when that map has one. -/
def SQLBuilder.sortField (b : SQLBuilder) : String :=
  match GoMap.read b.sortMapping b.sort.Field with
  | some mapped => mapped
  | none => b.sort.Field

/-- The ORDER BY clause for a sort column `col`: present when the stored column
is not empty. -/
def SQLBuilder.orderByClause (b : SQLBuilder) (col : String) : String :=
  if b.sort.Field ≠ "" then " ORDER BY " ++ col ++ " " ++ b.sort.Order else ""

/-- The LIMIT clause: present when the stored limit is not zero. -/
def SQLBuilder.limitClause (b : SQLBuilder) : String :=
  if b.limit ≠ 0 then " LIMIT " ++ Nat.repr b.limit else ""

/-- The OFFSET clause: present when the stored offset is not zero. -/
def SQLBuilder.offsetClause (b : SQLBuilder) : String :=
  if b.offset ≠ 0 then " OFFSET " ++ Nat.repr b.offset else ""

/-- The base select of a builder rendered on its own, in the builder's
placeholder format. -/
def SQLBuilder.baseSelectSql (b : SQLBuilder) : SqlResult :=
  (b.buildBaseSelect.SetPlaceholderFormat b.placeholder).ToSql

/-- A value that is neither nil nor a slice. -/
def Value.isScalar : Value → Bool
  | .bool _ => true
  | .int _ => true
  | .str _ => true
  | _ => false

/-- The column of a one-key comparison. -/
def Sqlizer.column : Sqlizer → String
  | .Eq c _ | .NotEq c _ | .Like c _ | .ILike c _ => c
  | .Gt c _ | .Lt c _ | .GtOrEq c _ | .LtOrEq c _ => c
  | _ => ""

/-- The bind value of a one-key comparison. -/
def Sqlizer.value : Sqlizer → Value
  | .Eq _ v | .NotEq _ v | .Like _ v | .ILike _ v => v
  | .Gt _ v | .Lt _ v | .GtOrEq _ v | .LtOrEq _ v => v
  | _ => Value.nil

/-- The SQL operator of a one-key comparison. -/
def Sqlizer.operator : Sqlizer → String
  | .Eq _ _ => "="
  | .NotEq _ _ => "<>"
  | .Like _ _ => "LIKE"
  | .ILike _ _ => "ILIKE"
  | .Gt _ _ => ">"
  | .Lt _ _ => "<"
  | .GtOrEq _ _ => ">="
  | .LtOrEq _ _ => "<="
  | _ => ""

/-- A simple comparison: one of the eight one-key comparisons, on a column
without `?`, carrying one scalar bind value. -/
def Sqlizer.IsSimple : Sqlizer → Prop
  | .Eq c v | .NotEq c v | .Like c v | .ILike c v => NoPlaceholder c ∧ v.isScalar = true
  | .Gt c v | .Lt c v | .GtOrEq c v | .LtOrEq c v => NoPlaceholder c ∧ v.isScalar = true
  | _ => False

instance Sqlizer.IsSimple.dec (p : Sqlizer) : Decidable p.IsSimple := by
  cases p <;> simp only [Sqlizer.IsSimple] <;> infer_instance

/-- The texts of simple comparisons with their placeholders numbered from `k`
in the dollar style: `column operator $k`. -/
def numberedFrom : Nat → List Sqlizer → List String
  | _, [] => []
  | k, p :: ps => (p.column ++ " " ++ p.operator ++ " $" ++ Nat.repr k) :: numberedFrom (k + 1) ps

/-- The WHERE clause over simple comparisons: absent without predicates,
otherwise the numbered comparisons joined by AND inside one pair of
parentheses. -/
def whereClause (ps : List Sqlizer) : String :=
  match ps with
  | [] => ""
  | _ :: _ => " WHERE (" ++ stringsJoin " AND " (numberedFrom 1 ps) ++ ")"

/-- The column list as `toSqlRaw` writes it after `SELECT `: the fields through
squirrel `appendToSql` with the separator `, `. -/
def columnsText (fields : List String) : String :=
  (appendToSql (fields.map partToSql) "" ", " []).1

/-- The join clauses in registration order, each preceded by a blank. -/
def joinsText : List joinConfig → String
  | [] => ""
  | j :: js => " " ++ j.clause ++ joinsText js

/-- The eight operators `ApplyFilter` has a `case` for. -/
def comparisonOps : List Op :=
  [Op.EQ, Op.NOT_EQ, Op.LIKE, Op.ILIKE, Op.GT, Op.LT, Op.GTE, Op.LTE]

/-- The dispatch of a filter rule as a table: the predicate that the rule's
operator puts on the column `col` for the string value `v`, nothing for an
operator without a rule. -/
def filterPredicate (op : Op) (col v : String) : Option Sqlizer :=
  if op = Op.EQ then some (Sqlizer.Eq col (Value.str v))
  else if op = Op.NOT_EQ then some (Sqlizer.NotEq col (Value.str v))
  else if op = Op.LIKE then some (Sqlizer.Like col (Value.str (v ++ "%")))
  else if op = Op.ILIKE then some (Sqlizer.ILike col (Value.str ("%" ++ v ++ "%")))
  else if op = Op.GT then some (Sqlizer.Gt col (Value.str v))
  else if op = Op.LT then some (Sqlizer.Lt col (Value.str v))
  else if op = Op.GTE then some (Sqlizer.GtOrEq col (Value.str v))
  else if op = Op.LTE then some (Sqlizer.LtOrEq col (Value.str v))
  else none

/-- The text `x` occurs in the text `s`. -/
def containsText (s x : String) : Prop := ∃ pre post : String, s = pre ++ x ++ post

/-- A join without its stored bind arguments. -/
def joinConfig.withoutArgs (j : joinConfig) : joinConfig :=
  { JoinType := j.JoinType, Table := j.Table, Condition := j.Condition, Args := [] }

/-- The bind values of the predicates of a builder, as the `And` of all
predicates renders them; none without predicates. -/
def SQLBuilder.predicateArgs (b : SQLBuilder) : List Value :=
  if b.whereConditions.length > 0 then (Sqlizer.And b.whereConditions).ToSql.args else []

/-! ## Sample builders -/

/-- A builder with the alias `name` registered to `u.name` and one predicate. -/
def sampleBuilder : SQLBuilder :=
  (NewSQLBuilder.WithFieldConfig "name" "u.name" Op.ILIKE).Eq "id" (Value.int 1)

/-- The builder of the test `select with sort and pagination`. -/
def sortedPagedBuilder : SQLBuilder :=
  ((((NewSQLBuilder.WithFrom "users").WithFields ["id", "name"]).Sort "name" "ASC").Limit 10).Offset 5

/-- A builder sorted by a column whose name holds a `?`. -/
def questionSortBuilder : SQLBuilder :=
  ((NewSQLBuilder.WithFrom "t").WithField "id").Sort "a?" "ASC"

/-- The builder of the round trip: fields `id`, `name`, table `users`, one
equality predicate `active = true`, the default dollar style. -/
def activeUsersBuilder : SQLBuilder :=
  ((NewSQLBuilder.WithFrom "users").WithFields ["id", "name"]).Eq "active" (Value.bool true)

/-- A builder with a field whose name holds a `?`. -/
def questionFieldBuilder : SQLBuilder :=
  ((NewSQLBuilder.WithFrom "t").WithField "id?").Eq "active" (Value.bool true)

/-- A builder with an empty field name after the field `id`. -/
def emptyFieldBuilder : SQLBuilder :=
  ((NewSQLBuilder.WithFrom "t").WithFields ["id", ""]).Eq "active" (Value.bool true)

/-- A registry in which the column of one alias is itself an alias: `name` is
registered to the column `status`, `status` to the column `users.status`. -/
def aliasChainBuilder : SQLBuilder :=
  (NewSQLBuilder.WithFieldConfig "name" "status" Op.EQ).WithFieldConfig "status" "users.status"
    Op.EQ

/-- A registry whose rule for `age` has an operator outside the eight. -/
def unknownOpBuilder : SQLBuilder :=
  NewSQLBuilder.WithFieldConfig "age" "users.age" "between"

/-- The builder of the test `apply expression with no EXPR_EQ`, taken fresh:
`snils` registered to `toINT(snils)` with the operator `EQ`. -/
def snilsEqBuilder : SQLBuilder :=
  (NewSQLBuilder.WithFrom "users").WithFieldConfig "snils" "toINT(snils)" Op.EQ

/-- A builder with a nonzero limit and the field `id`. -/
def limitedBuilder : SQLBuilder :=
  ((NewSQLBuilder.WithFrom "t").WithField "id").Limit 10

/-- The builder of the sort-alias test before `Sort`: fields and table, the
alias `total_sort` not yet registered. -/
def ordersBuilder : SQLBuilder :=
  (NewSQLBuilder.WithFrom "orders o").WithFields ["o.id", "o.total"]

/-- The struct of the builder `original` of the test `TestResetAndClone`:
table `users`, two fields in an array with room for four, one predicate in a
full array, sort `name ASC`, limit 10. -/
def originalRaw : SQLBuilderRaw :=
  { fromTable := "users"
    estimateTable := ""
    fields := { arr := 0, len := 2, cap := 4 }
    joins := Slice.empty
    sortMapping := some 0
    placeholder := PlaceholderFormat.Dollar
    fieldConfigs := some 0
    whereConditions := { arr := 0, len := 1, cap := 1 }
    sort := { Field := "name", Order := "ASC" }
    limit := 10
    offset := 0 }

/-- A memory with `originalRaw` at address 0: the fields `id` and `name`, the
predicate `active = true`, two empty maps. -/
def originalMem : Mem :=
  { cells := [originalRaw]
    store :=
      { strings := [["id", "name"]]
        joins := []
        conds := [[Sqlizer.Eq "active" (Value.bool true)]]
        sortMaps := [[]]
        configMaps := [[]] } }

/-- A memory in which a second struct at address 1 holds the same slice
values as `originalRaw`, as a copy of the struct by assignment would. -/
def sharedMem : Mem :=
  { cells := [originalRaw, originalRaw]
    store := originalMem.store }

/-- The growth of a full array by doubling: as much spare capacity as the old
capacity. -/
def doubling (cap _needed : Nat) : Nat := cap

/-- The builder of the test `multiple joins`, with fields. -/
def twoJoinsBuilder : SQLBuilder :=
  (((NewSQLBuilder.WithFrom "users").WithFields ["users.id", "orders.total"]).WithInnerJoin
    "orders" "users.id = orders.user_id" []).WithLeftJoin "profiles"
    "users.id = profiles.user_id" []

/-- The builder of the test `inner join`: a table and a join, no field. -/
def joinNoFieldBuilder : SQLBuilder :=
  (NewSQLBuilder.WithFrom "users").WithInnerJoin "orders" "users.id = orders.user_id" []

/-- A builder whose join condition holds a placeholder, with the bind argument
meant for it. -/
def joinArgBuilder : SQLBuilder :=
  ((NewSQLBuilder.WithFrom "users u").WithField "u.id").WithJoin "JOIN" "orders o"
    "o.user_id = u.id AND o.kind = ?" [Value.int 5]

/-- A builder with an estimate table and no predicate. -/
def estimateBuilder : SQLBuilder :=
  ((NewSQLBuilder.WithFrom "users").WithField "id").WithEstimate "users"

/-! ## Theorems -/

/-! ### Helper lemmas: Go maps -/

theorem GoMap.get_set_self {V : Type} (m : GoMap V) (k : String) (v : V) :
    GoMap.get (GoMap.set m k v) k = some v := by
  simp [GoMap.set, GoMap.get]

theorem GoMap.get_delete_ne {V : Type} (m : GoMap V) (k a : String) (h : a ≠ k) :
    GoMap.get (GoMap.delete m k) a = GoMap.get m a := by
  induction m with
  | nil => rfl
  | cons e m ih =>
    obtain ⟨k1, v1⟩ := e
    by_cases hk : k1 = k
    · subst hk
      simp [GoMap.delete, GoMap.get, h, ih]
    · simp [GoMap.delete, GoMap.get, hk, ih]

theorem GoMap.get_set_other {V : Type} (m : GoMap V) (k a : String) (v : V) (h : a ≠ k) :
    GoMap.get (GoMap.set m k v) a = GoMap.get m a := by
  simp [GoMap.set, GoMap.get, h, GoMap.get_delete_ne m k a h]

theorem SQLBuilder.read_WithFieldConfig_self (b : SQLBuilder) (a c : String) (op : Op) :
    GoMap.read (b.WithFieldConfig a c op).fieldConfigs a = some { DBField := c, Operator := op } := by
  simp [SQLBuilder.WithFieldConfig, GoMap.read, GoMap.get_set_self]

theorem SQLBuilder.read_WithFieldConfig_other (b : SQLBuilder) (a a2 c : String) (op : Op)
    (h : a2 ≠ a) :
    GoMap.read (b.WithFieldConfig a c op).fieldConfigs a2 = GoMap.read b.fieldConfigs a2 := by
  cases hb : b.fieldConfigs with
  | none => simp [SQLBuilder.WithFieldConfig, GoMap.read, hb, GoMap.set, GoMap.delete, GoMap.get, h]
  | some m => simp [SQLBuilder.WithFieldConfig, GoMap.read, hb, GoMap.get_set_other _ _ _ _ h]

/-! ### C1 -/

/-- C1, the no-op law: a presence-gated predicate call given an absent value
returns the builder it was called on, every field unchanged: `Eq`, `EqIf`,
`NotEq`, `In`, `NotIn`, `Gt`, `Lt`, `Gte`, `Lte` with nil, `Like` and `ILike`
with the empty string, `Between` with a nil lower or a nil upper bound, `Or` and
`And` without conditions, `WhereIf` with a false gate. -/
theorem noop_law (b : SQLBuilder) (f : String) (v : Value) (c : Sqlizer) :
    b.Eq f Value.nil = b ∧ b.EqIf Value.nil f = b ∧ b.NotEq f Value.nil = b ∧
    b.In f Value.nil = b ∧ b.NotIn f Value.nil = b ∧
    b.Gt f Value.nil = b ∧ b.Lt f Value.nil = b ∧ b.Gte f Value.nil = b ∧ b.Lte f Value.nil = b ∧
    b.Like f "" = b ∧ b.ILike f "" = b ∧
    b.Between f Value.nil v = b ∧ b.Between f v Value.nil = b ∧
    b.Or [] = b ∧ b.And [] = b ∧ b.WhereIf false c = b := by
  refine ⟨rfl, rfl, rfl, rfl, rfl, rfl, rfl, rfl, rfl, rfl, rfl, ?_, ?_, rfl, rfl, rfl⟩
  · simp [SQLBuilder.Between]
  · simp [SQLBuilder.Between]

/-! ### C2 -/

/-- C2, the append law: with a present value (non-nil `v`, non-empty `s`, both
bounds non-nil) each of `Eq`, `EqIf`, `NotEq`, `In`, `NotIn`, `Gt`, `Lt`, `Gte`,
`Lte`, `Like`, `ILike`, `Between` returns the builder with exactly one new
predicate after the old ones, on the column `mapField f`, of the shape the
method stands for, and with every other field as it was. -/
theorem append_law (b : SQLBuilder) (f s : String) (v lo hi : Value)
    (hv : v ≠ Value.nil) (hs : s ≠ "") (hlo : lo ≠ Value.nil) (hhi : hi ≠ Value.nil) :
    b.Eq f v = { b with whereConditions := b.whereConditions ++ [Sqlizer.Eq (b.mapField f) v] } ∧
    b.EqIf v f = { b with whereConditions := b.whereConditions ++ [Sqlizer.Eq (b.mapField f) v] } ∧
    b.NotEq f v =
      { b with whereConditions := b.whereConditions ++ [Sqlizer.NotEq (b.mapField f) v] } ∧
    b.In f v = { b with whereConditions := b.whereConditions ++ [Sqlizer.Eq (b.mapField f) v] } ∧
    b.NotIn f v =
      { b with whereConditions := b.whereConditions ++ [Sqlizer.NotEq (b.mapField f) v] } ∧
    b.Gt f v = { b with whereConditions := b.whereConditions ++ [Sqlizer.Gt (b.mapField f) v] } ∧
    b.Lt f v = { b with whereConditions := b.whereConditions ++ [Sqlizer.Lt (b.mapField f) v] } ∧
    b.Gte f v =
      { b with whereConditions := b.whereConditions ++ [Sqlizer.GtOrEq (b.mapField f) v] } ∧
    b.Lte f v =
      { b with whereConditions := b.whereConditions ++ [Sqlizer.LtOrEq (b.mapField f) v] } ∧
    b.Like f s =
      { b with whereConditions :=
          b.whereConditions ++ [Sqlizer.Like (b.mapField f) (Value.str (s ++ "%"))] } ∧
    b.ILike f s =
      { b with whereConditions :=
          b.whereConditions ++ [Sqlizer.ILike (b.mapField f) (Value.str ("%" ++ s ++ "%"))] } ∧
    b.Between f lo hi =
      { b with whereConditions :=
          b.whereConditions ++ [Sqlizer.Expr (b.mapField f ++ " BETWEEN ? AND ?") [lo, hi]] } := by
  simp [SQLBuilder.Eq, SQLBuilder.EqIf, SQLBuilder.NotEq, SQLBuilder.In, SQLBuilder.NotIn,
    SQLBuilder.Gt, SQLBuilder.Lt, SQLBuilder.Gte, SQLBuilder.Lte, SQLBuilder.Like,
    SQLBuilder.ILike, SQLBuilder.Between, hv, hs, hlo, hhi]

/-- Witness of C2: alias `name` registered to `u.name`, on a builder that
already holds one predicate. -/
theorem append_law_witness :
    (sampleBuilder.ILike "name" "jo").whereConditions =
      [Sqlizer.Eq "id" (Value.int 1), Sqlizer.ILike "u.name" (Value.str "%jo%")] ∧
    (sampleBuilder.Between "name" (Value.int 18) (Value.int 65)).whereConditions =
      [Sqlizer.Eq "id" (Value.int 1),
        Sqlizer.Expr "u.name BETWEEN ? AND ?" [Value.int 18, Value.int 65]] := by
  have h := append_law sampleBuilder "name" "jo" (Value.int 1) (Value.int 18) (Value.int 65)
    (by decide) (by decide) (by decide) (by decide)
  refine ⟨?_, ?_⟩
  · rw [h.2.2.2.2.2.2.2.2.2.2.1]; rfl
  · rw [h.2.2.2.2.2.2.2.2.2.2.2]; rfl

/-! ### C3 -/

theorem SQLBuilder.mapField_WithFieldConfig_self (b : SQLBuilder) (a c : String) (op : Op) :
    (b.WithFieldConfig a c op).mapField a = c := by
  simp [SQLBuilder.mapField, SQLBuilder.read_WithFieldConfig_self]

theorem SQLBuilder.mapField_WithFieldConfig_other (b : SQLBuilder) (a a2 c : String) (op : Op)
    (h : a2 ≠ a) : (b.WithFieldConfig a c op).mapField a2 = b.mapField a2 := by
  simp [SQLBuilder.mapField, SQLBuilder.read_WithFieldConfig_other b a a2 c op h]

/-! ### Helper lemmas: what a call leaves alone -/

@[simp] theorem SQLBuilder.Eq_fieldConfigs (b : SQLBuilder) (f : String) (v : Value) :
    (b.Eq f v).fieldConfigs = b.fieldConfigs := by
  unfold SQLBuilder.Eq; split <;> rfl

@[simp] theorem SQLBuilder.EqIf_fieldConfigs (b : SQLBuilder) (v : Value) (f : String) :
    (b.EqIf v f).fieldConfigs = b.fieldConfigs := by
  unfold SQLBuilder.EqIf; split <;> rfl

@[simp] theorem SQLBuilder.NotEq_fieldConfigs (b : SQLBuilder) (f : String) (v : Value) :
    (b.NotEq f v).fieldConfigs = b.fieldConfigs := by
  unfold SQLBuilder.NotEq; split <;> rfl

@[simp] theorem SQLBuilder.Like_fieldConfigs (b : SQLBuilder) (f s : String) :
    (b.Like f s).fieldConfigs = b.fieldConfigs := by
  unfold SQLBuilder.Like; split <;> rfl

@[simp] theorem SQLBuilder.ILike_fieldConfigs (b : SQLBuilder) (f s : String) :
    (b.ILike f s).fieldConfigs = b.fieldConfigs := by
  unfold SQLBuilder.ILike; split <;> rfl

@[simp] theorem SQLBuilder.In_fieldConfigs (b : SQLBuilder) (f : String) (v : Value) :
    (b.In f v).fieldConfigs = b.fieldConfigs := by
  unfold SQLBuilder.In; split <;> rfl

@[simp] theorem SQLBuilder.NotIn_fieldConfigs (b : SQLBuilder) (f : String) (v : Value) :
    (b.NotIn f v).fieldConfigs = b.fieldConfigs := by
  unfold SQLBuilder.NotIn; split <;> rfl

@[simp] theorem SQLBuilder.Between_fieldConfigs (b : SQLBuilder) (f : String) (lo hi : Value) :
    (b.Between f lo hi).fieldConfigs = b.fieldConfigs := by
  unfold SQLBuilder.Between; split <;> rfl

@[simp] theorem SQLBuilder.Gt_fieldConfigs (b : SQLBuilder) (f : String) (v : Value) :
    (b.Gt f v).fieldConfigs = b.fieldConfigs := by
  unfold SQLBuilder.Gt; split <;> rfl

@[simp] theorem SQLBuilder.Lt_fieldConfigs (b : SQLBuilder) (f : String) (v : Value) :
    (b.Lt f v).fieldConfigs = b.fieldConfigs := by
  unfold SQLBuilder.Lt; split <;> rfl

@[simp] theorem SQLBuilder.Gte_fieldConfigs (b : SQLBuilder) (f : String) (v : Value) :
    (b.Gte f v).fieldConfigs = b.fieldConfigs := by
  unfold SQLBuilder.Gte; split <;> rfl

@[simp] theorem SQLBuilder.Lte_fieldConfigs (b : SQLBuilder) (f : String) (v : Value) :
    (b.Lte f v).fieldConfigs = b.fieldConfigs := by
  unfold SQLBuilder.Lte; split <;> rfl

@[simp] theorem SQLBuilder.Or_fieldConfigs (b : SQLBuilder) (cs : List Sqlizer) :
    (b.Or cs).fieldConfigs = b.fieldConfigs := by
  unfold SQLBuilder.Or; split <;> rfl

@[simp] theorem SQLBuilder.And_fieldConfigs (b : SQLBuilder) (cs : List Sqlizer) :
    (b.And cs).fieldConfigs = b.fieldConfigs := by
  unfold SQLBuilder.And; split <;> rfl

@[simp] theorem SQLBuilder.WhereIf_fieldConfigs (b : SQLBuilder) (g : Bool) (c : Sqlizer) :
    (b.WhereIf g c).fieldConfigs = b.fieldConfigs := by
  unfold SQLBuilder.WhereIf; split <;> rfl

@[simp] theorem SQLBuilder.ExprEq_fieldConfigs (b : SQLBuilder) (l r : String) (args : List Value) :
    (b.ExprEq l r args).fieldConfigs = b.fieldConfigs := by
  unfold SQLBuilder.ExprEq; split <;> rfl

@[simp] theorem SQLBuilder.SortIf_fieldConfigs (b : SQLBuilder) (f o : String) :
    (b.SortIf f o).fieldConfigs = b.fieldConfigs := by
  unfold SQLBuilder.SortIf; split <;> rfl

@[simp] theorem SQLBuilder.Limit_fieldConfigs (b : SQLBuilder) (n : Nat) :
    (b.Limit n).fieldConfigs = b.fieldConfigs := by
  unfold SQLBuilder.Limit; split <;> rfl

@[simp] theorem SQLBuilder.ApplyFilter_fieldConfigs (b : SQLBuilder) (f v : String) :
    (b.ApplyFilter f v).fieldConfigs = b.fieldConfigs := by
  unfold SQLBuilder.ApplyFilter
  repeat' split
  all_goals simp

@[simp] theorem SQLBuilder.ApplyExpr_fieldConfigs (EXPR_EQ : Op) (b : SQLBuilder) (f v : String)
    (args : List Value) : (b.ApplyExpr EXPR_EQ f v args).fieldConfigs = b.fieldConfigs := by
  unfold SQLBuilder.ApplyExpr
  repeat' split
  all_goals simp

/-- Every call other than `WithFieldConfig` leaves the field configuration as
it is. -/
theorem Call.run_fieldConfigs (EXPR_EQ : Op) (c : Call) (b : SQLBuilder)
    (h : ∀ f d op, c ≠ Call.WithFieldConfig f d op) :
    (c.run EXPR_EQ b).fieldConfigs = b.fieldConfigs := by
  cases c <;> first
    | (exfalso; exact h _ _ _ rfl)
    | (simp [Call.run]; done)
    | rfl

/-- C3, alias resolution: `mapField` is total, with identity fallback and
last write wins.  An alias without an entry resolves to itself, an alias with
an entry to the entry's column; `WithFieldConfig(a, c, op)` makes the entry of
`a` equal to `(c, op)` whatever was there and leaves every other alias as it
resolved; and after any chain of calls an alias resolves to the column of the
most recent `WithFieldConfig` for it in the chain, and as before the chain when
there is none (to itself on a new builder). -/
theorem alias_resolution (EXPR_EQ : Op) (b : SQLBuilder) (a c : String) (op : Op) :
    (GoMap.read b.fieldConfigs a = none → b.mapField a = a) ∧
    (∀ cfg, GoMap.read b.fieldConfigs a = some cfg → b.mapField a = cfg.DBField) ∧
    GoMap.read (b.WithFieldConfig a c op).fieldConfigs a = some { DBField := c, Operator := op } ∧
    (b.WithFieldConfig a c op).mapField a = c ∧
    (∀ a2, a2 ≠ a →
      GoMap.read (b.WithFieldConfig a c op).fieldConfigs a2 = GoMap.read b.fieldConfigs a2 ∧
      (b.WithFieldConfig a c op).mapField a2 = b.mapField a2) ∧
    (∀ cs : List Call,
      (Call.runAll EXPR_EQ cs b).mapField a = (lastRegistered a cs).getD (b.mapField a)) ∧
    NewSQLBuilder.mapField a = a := by
  refine ⟨?_, ?_, b.read_WithFieldConfig_self a c op, b.mapField_WithFieldConfig_self a c op,
    ?_, ?_, rfl⟩
  · intro h
    simp [SQLBuilder.mapField, h]
  · intro cfg h
    simp [SQLBuilder.mapField, h]
  · intro a2 h
    exact ⟨b.read_WithFieldConfig_other a a2 c op h, b.mapField_WithFieldConfig_other a a2 c op h⟩
  · intro cs
    induction cs using List.reverseRecOn with
    | nil => rfl
    | append_singleton cs x ih =>
      have hrun : Call.runAll EXPR_EQ (cs ++ [x]) b = x.run EXPR_EQ (Call.runAll EXPR_EQ cs b) := by
        simp [Call.runAll, List.foldl_append]
      rw [hrun]
      by_cases hx : ∃ f d o, x = Call.WithFieldConfig f d o
      · obtain ⟨f, d, o, rfl⟩ := hx
        by_cases hf : f = a
        · subst hf
          simp [Call.run, SQLBuilder.mapField_WithFieldConfig_self, lastRegistered,
            Call.registered]
        · have hne : a ≠ f := fun h => hf h.symm
          simp [Call.run, SQLBuilder.mapField_WithFieldConfig_other _ _ _ _ _ hne, lastRegistered,
            Call.registered, hf, ih]
      · have hx2 : ∀ f d o, x ≠ Call.WithFieldConfig f d o := fun f d o h => hx ⟨f, d, o, h⟩
        have hfc := Call.run_fieldConfigs EXPR_EQ x (Call.runAll EXPR_EQ cs b) hx2
        have hreg : Call.registered a x = none := by
          cases x <;> first | rfl | (exfalso; exact hx2 _ _ _ rfl)
        have : (x.run EXPR_EQ (Call.runAll EXPR_EQ cs b)).mapField a
            = (Call.runAll EXPR_EQ cs b).mapField a := by
          simp [SQLBuilder.mapField, hfc]
        rw [this, ih]
        simp [lastRegistered, hreg]

/-- Witness of C3: two registrations of `name`, with other calls between and
after them, resolve `name` to the later column and leave `age` to itself. -/
theorem alias_resolution_witness :
    (Call.runAll "expr_eq"
      [Call.WithFieldConfig "name" "u.name" Op.EQ, Call.Limit 3,
        Call.WithFieldConfig "name" "p.name" Op.LIKE, Call.Eq "id" (Value.int 1)]
      NewSQLBuilder).mapField "name" = "p.name" ∧
    (NewSQLBuilder.WithFieldConfig "name" "u.name" Op.EQ).mapField "age" = "age" := by
  have h := alias_resolution "expr_eq" NewSQLBuilder "name" "u.name" Op.EQ
  refine ⟨?_, ?_⟩
  · rw [h.2.2.2.2.2.1]; rfl
  · rw [(h.2.2.2.2.1 "age" (by decide)).2]; rfl

/-! ### Helper lemmas: the calls of a script through one pointer -/

theorem callsOn_nil (p : Nat) : callsOn p [] = [] := rfl

theorem callsOn_cons_self (p : Nat) (c : Call) (s : List (Nat × Call)) :
    callsOn p ((p, c) :: s) = c :: callsOn p s := by
  simp [callsOn]

theorem callsOn_cons_other (p q : Nat) (c : Call) (s : List (Nat × Call)) (h : q ≠ p) :
    callsOn p ((q, c) :: s) = callsOn p s := by
  simp [callsOn, h]

theorem callsOn_eq_nil (p q : Nat) (s : List (Nat × Call)) (h : q ≠ p)
    (hs : ∀ e ∈ s, e.1 = q) : callsOn p s = [] := by
  induction s with
  | nil => rfl
  | cons e s ih =>
    obtain ⟨t, c⟩ := e
    have ht : t = q := hs (t, c) (List.mem_cons_self _ _)
    subst ht
    rw [callsOn_cons_other p t c s h]
    exact ih (fun e he => hs e (List.mem_cons_of_mem _ he))


/-! ### Helper lemmas: slices over backing arrays -/

theorem writeAt_length {α : Type} (cells : List α) (i : Nat) (xs : List α)
    (h : i ≤ cells.length) : i + xs.length ≤ (writeAt cells i xs).length := by
  simp only [writeAt, List.length_append, List.length_take, List.length_drop]
  omega

theorem writeAt_take {α : Type} (cells : List α) (i : Nat) (xs : List α)
    (h : i ≤ cells.length) : (writeAt cells i xs).take (i + xs.length) = cells.take i ++ xs := by
  have hl : (cells.take i ++ xs).length = i + xs.length := by
    simp only [List.length_append, List.length_take]
    omega
  unfold writeAt
  rw [← hl, List.take_left]

theorem writeAt_nil {α : Type} (cells : List α) (i : Nat) : writeAt cells i [] = cells := by
  simp [writeAt]

/-- Reading the array at `j` after the array at `i` was set. -/
theorem getD_set {α : Type} (arrays : List (List α)) (i j : Nat) (v : List α) :
    ((arrays.set i v)[j]?).getD [] =
      if i = j ∧ i < arrays.length then v else (arrays[j]?).getD [] := by
  rw [List.getElem?_set]
  by_cases hij : i = j
  · subst hij
    by_cases hi : i < arrays.length
    · simp [hi]
    · have hn : arrays[i]? = none := List.getElem?_eq_none (Nat.le_of_not_lt hi)
      simp [hi, hn]
  · simp [hij]

/-- The elements a slice shows after `append`: the old ones, then the new. -/
theorem Slice.append_read {α : Type} (grow : Nat → Nat → Nat) (arrays : List (List α))
    (s : Slice) (xs : List α) (hs : Slice.Valid arrays s) :
    (Slice.append grow arrays s xs).2.read (Slice.append grow arrays s xs).1 =
      s.read arrays ++ xs := by
  obtain ⟨hlen, hcap⟩ := hs
  unfold Slice.append
  split
  · rename_i hfit
    by_cases hc : 0 < s.cap
    · obtain ⟨harr, hcells⟩ := hcap hc
      simp only [Slice.read, getD_set, harr, and_self, if_true]
      exact writeAt_take _ _ _ hcells
    · have hx : xs = [] := List.eq_nil_of_length_eq_zero (by omega)
      have hl : s.len = 0 := by omega
      subst hx
      simp [Slice.read, hl]
  · simp only [Slice.read]
    have hget : ((arrays ++ [List.take s.len ((arrays[s.arr]?).getD []) ++ xs])[arrays.length]?) =
        some (List.take s.len ((arrays[s.arr]?).getD []) ++ xs) := by
      simp
    rw [hget]
    simp only [Option.getD_some]
    apply List.take_of_length_le
    simp only [List.length_append, List.length_take]
    omega

/-- The slice that `append` returns is in good standing. -/
theorem Slice.append_valid {α : Type} (grow : Nat → Nat → Nat) (arrays : List (List α))
    (s : Slice) (xs : List α) (hs : Slice.Valid arrays s) :
    Slice.Valid (Slice.append grow arrays s xs).1 (Slice.append grow arrays s xs).2 := by
  obtain ⟨hlen, hcap⟩ := hs
  unfold Slice.append
  split
  · rename_i hfit
    refine ⟨hfit, fun hc => ?_⟩
    obtain ⟨harr, hcells⟩ := hcap hc
    refine ⟨by simpa using harr, ?_⟩
    simp only [getD_set, harr, and_self, if_true]
    exact writeAt_length _ _ _ hcells
  · refine ⟨by simp, fun _ => ⟨by simp, ?_⟩⟩
    simp only [Slice.read]
    have hget : ((arrays ++ [List.take s.len ((arrays[s.arr]?).getD []) ++ xs])[arrays.length]?) =
        some (List.take s.len ((arrays[s.arr]?).getD []) ++ xs) := by
      simp
    rw [hget]
    simp only [Option.getD_some, List.length_append, List.length_take]
    by_cases hc : 0 < s.cap
    · obtain ⟨_, hcells⟩ := hcap hc
      omega
    · omega

/-- Another slice, apart from the one appended to, shows what it showed. -/
theorem Slice.append_read_other {α : Type} (grow : Nat → Nat → Nat) (arrays : List (List α))
    (s t : Slice) (xs : List α) (ht : Slice.Valid arrays t) (hst : Slice.Apart s t) :
    t.read (Slice.append grow arrays s xs).1 = t.read arrays := by
  obtain ⟨hlen, hcap⟩ := ht
  by_cases htc : t.cap = 0
  · have hl : t.len = 0 := by omega
    simp [Slice.read, hl]
  · obtain ⟨harr, _⟩ := hcap (by omega)
    unfold Slice.append
    split
    · rename_i hfit
      simp only [Slice.read, getD_set]
      rcases hst with h0 | h0 | hne
      · have hx : xs = [] := List.eq_nil_of_length_eq_zero (by omega)
        have hl : s.len = 0 := by omega
        subst hx
        simp only [writeAt_nil]
        split
        · rename_i hij
          rw [hij.1]
        · rfl
      · exact absurd h0 htc
      · simp [hne]
    · simp only [Slice.read]
      rw [List.getElem?_append_left harr]

/-- Another slice, apart from the one appended to, stays in good standing. -/
theorem Slice.append_valid_other {α : Type} (grow : Nat → Nat → Nat) (arrays : List (List α))
    (s t : Slice) (xs : List α) (ht : Slice.Valid arrays t) (hst : Slice.Apart s t) :
    Slice.Valid (Slice.append grow arrays s xs).1 t := by
  have hread := Slice.append_read_other grow arrays s t xs ht hst
  obtain ⟨hlen, hcap⟩ := ht
  refine ⟨hlen, fun hc => ?_⟩
  obtain ⟨harr, hcells⟩ := hcap hc
  have hlen1 : arrays.length ≤ (Slice.append grow arrays s xs).1.length := by
    unfold Slice.append
    split <;> simp
  refine ⟨by omega, ?_⟩
  have h1 : (t.read (Slice.append grow arrays s xs).1).length = (t.read arrays).length := by
    rw [hread]
  simp only [Slice.read, List.length_take] at h1
  omega

/-- The slice that `append` returns is apart from what its argument was apart
from. -/
theorem Slice.append_apart {α : Type} (grow : Nat → Nat → Nat) (arrays : List (List α))
    (s t : Slice) (xs : List α) (ht : Slice.Valid arrays t) (hst : Slice.Apart s t) :
    Slice.Apart (Slice.append grow arrays s xs).2 t := by
  unfold Slice.append
  split
  · exact hst
  · by_cases htc : t.cap = 0
    · exact Or.inr (Or.inl htc)
    · obtain ⟨harr, _⟩ := ht.2 (by omega)
      refine Or.inr (Or.inr ?_)
      simp only
      omega

theorem Slice.apart_symm {s t : Slice} (h : Slice.Apart s t) : Slice.Apart t s := by
  rcases h with h | h | h
  · exact Or.inr (Or.inl h)
  · exact Or.inl h
  · exact Or.inr (Or.inr (Ne.symm h))

theorem Slice.empty_valid {α : Type} (arrays : List (List α)) : Slice.Valid arrays Slice.empty :=
  ⟨Nat.le_refl _, fun h => absurd h (by decide)⟩

theorem Slice.empty_apart (t : Slice) : Slice.Apart Slice.empty t := Or.inl rfl

/-! ### Helper lemmas: the writes of a method on the memory -/

/-- A write on the struct and the store shows as the write on the value. -/
theorem Write.exec_value (grow : Nat → Nat → Nat) (w : Write) (r : SQLBuilderRaw) (st : Store)
    (hv : r.Valid st) :
    (w.exec grow r st).1.value (w.exec grow r st).2 = w.apply (r.value st) := by
  obtain ⟨hf, hj, hw, hm⟩ := hv
  cases w with
  | appendFields xs =>
    simp only [Write.exec, Write.apply, SQLBuilderRaw.value, Slice.append_read grow _ _ xs hf]
  | appendJoins js =>
    simp only [Write.exec, Write.apply, SQLBuilderRaw.value, Slice.append_read grow _ _ js hj]
  | appendWhere cs =>
    simp only [Write.exec, Write.apply, SQLBuilderRaw.value, Slice.append_read grow _ _ cs hw]
  | clearWhere =>
    simp [Write.exec, Write.apply, SQLBuilderRaw.value, Slice.read, Slice.empty]
  | makeFieldConfigs =>
    simp [Write.exec, Write.apply, SQLBuilderRaw.value]
  | putFieldConfig k v =>
    simp only [Write.exec, Write.apply, SQLBuilderRaw.value]
    cases hfc : r.fieldConfigs with
    | none => simp [hfc]
    | some a =>
      have ha := hm a hfc
      simp [hfc, getD_set, ha]
  | _ => rfl

/-- A write leaves its struct in good standing. -/
theorem Write.exec_valid (grow : Nat → Nat → Nat) (w : Write) (r : SQLBuilderRaw) (st : Store)
    (hv : r.Valid st) : (w.exec grow r st).1.Valid (w.exec grow r st).2 := by
  obtain ⟨hf, hj, hw, hm⟩ := hv
  cases w with
  | appendFields xs => exact ⟨Slice.append_valid grow _ _ xs hf, hj, hw, hm⟩
  | appendJoins js => exact ⟨hf, Slice.append_valid grow _ _ js hj, hw, hm⟩
  | appendWhere cs => exact ⟨hf, hj, Slice.append_valid grow _ _ cs hw, hm⟩
  | clearWhere => exact ⟨hf, hj, Slice.empty_valid _, hm⟩
  | makeFieldConfigs =>
    refine ⟨hf, hj, hw, ?_⟩
    intro a ha
    simp only [Write.exec, Option.some.injEq] at ha
    simp only [Write.exec, List.length_append, List.length_singleton]
    omega
  | putFieldConfig k v =>
    simp only [Write.exec]
    cases hfc : r.fieldConfigs with
    | none => exact ⟨hf, hj, hw, hm⟩
    | some a =>
      refine ⟨hf, hj, hw, ?_⟩
      intro a2 ha2
      simp only [List.length_set]
      exact hm a2 ha2
  | _ => exact ⟨hf, hj, hw, hm⟩

/-- A write through one struct and another struct apart from it: the other
shows what it showed, stays in good standing, and the two stay apart. -/
theorem Write.exec_other (grow : Nat → Nat → Nat) (w : Write) (r r2 : SQLBuilderRaw)
    (st : Store) (hv2 : r2.Valid st) (ha : r.Apart r2) :
    r2.value (w.exec grow r st).2 = r2.value st ∧ r2.Valid (w.exec grow r st).2 ∧
      (w.exec grow r st).1.Apart r2 := by
  obtain ⟨hf, hj, hw, hm⟩ := hv2
  obtain ⟨af, aj, aw, am⟩ := ha
  cases w with
  | appendFields xs =>
    refine ⟨?_, ⟨Slice.append_valid_other grow _ _ _ xs hf af, hj, hw, hm⟩,
      ⟨Slice.append_apart grow _ _ _ xs hf af, aj, aw, am⟩⟩
    simp only [Write.exec, SQLBuilderRaw.value, Slice.append_read_other grow _ _ _ xs hf af]
  | appendJoins js =>
    refine ⟨?_, ⟨hf, Slice.append_valid_other grow _ _ _ js hj aj, hw, hm⟩,
      ⟨af, Slice.append_apart grow _ _ _ js hj aj, aw, am⟩⟩
    simp only [Write.exec, SQLBuilderRaw.value, Slice.append_read_other grow _ _ _ js hj aj]
  | appendWhere cs =>
    refine ⟨?_, ⟨hf, hj, Slice.append_valid_other grow _ _ _ cs hw aw, hm⟩,
      ⟨af, aj, Slice.append_apart grow _ _ _ cs hw aw, am⟩⟩
    simp only [Write.exec, SQLBuilderRaw.value, Slice.append_read_other grow _ _ _ cs hw aw]
  | clearWhere => exact ⟨rfl, ⟨hf, hj, hw, hm⟩, ⟨af, aj, Slice.empty_apart _, am⟩⟩
  | makeFieldConfigs =>
    refine ⟨?_, ⟨hf, hj, hw, ?_⟩, ⟨af, aj, aw, ?_⟩⟩
    · simp only [Write.exec, SQLBuilderRaw.value]
      cases hfc : r2.fieldConfigs with
      | none => rfl
      | some a2 =>
        have h2 := hm a2 hfc
        simp [List.getElem?_append_left h2]
    · intro a2 ha2
      have h2 := hm a2 ha2
      simp only [Write.exec, List.length_append, List.length_singleton]
      omega
    · cases hfc : r2.fieldConfigs with
      | none => exact Or.inr (Or.inl rfl)
      | some a2 =>
        have h2 := hm a2 hfc
        refine Or.inr (Or.inr ?_)
        simp only [Write.exec, ne_eq, Option.some.injEq]
        omega
  | putFieldConfig k v =>
    simp only [Write.exec]
    cases hfc : r.fieldConfigs with
    | none => exact ⟨rfl, ⟨hf, hj, hw, hm⟩, ⟨af, aj, aw, am⟩⟩
    | some a =>
      refine ⟨?_, ⟨hf, hj, hw, ?_⟩, ⟨af, aj, aw, am⟩⟩
      · simp only [SQLBuilderRaw.value]
        cases hfc2 : r2.fieldConfigs with
        | none => rfl
        | some a2 =>
          have hne : a ≠ a2 := by
            rcases am with h | h | h
            · rw [hfc] at h
              cases h
            · rw [hfc2] at h
              cases h
            · intro he
              apply h
              rw [hfc, hfc2, he]
          simp [getD_set, hne]
      · intro a2 ha2
        simp only [List.length_set]
        exact hm a2 ha2
  | _ => exact ⟨rfl, ⟨hf, hj, hw, hm⟩, ⟨af, aj, aw, am⟩⟩

theorem SQLBuilderRaw.raw_apart_symm {r1 r2 : SQLBuilderRaw} (h : r1.Apart r2) : r2.Apart r1 := by
  obtain ⟨af, aj, aw, am⟩ := h
  refine ⟨Slice.apart_symm af, Slice.apart_symm aj, Slice.apart_symm aw, ?_⟩
  rcases am with h | h | h
  · exact Or.inr (Or.inl h)
  · exact Or.inl h
  · exact Or.inr (Or.inr (Ne.symm h))

/-- The writes of a method, one after the other: what the struct shows at the
end is the writes applied to what it showed, and another struct apart from it
shows what it showed; good standing and apartness last. -/
theorem Write.execAll_spec (grow : Nat → Nat → Nat) (ws : List Write) :
    ∀ (r r2 : SQLBuilderRaw) (st : Store), r.Valid st → r2.Valid st → r.Apart r2 →
      (Write.execAll grow ws r st).1.value (Write.execAll grow ws r st).2 =
        ws.foldl (fun acc w => w.apply acc) (r.value st) ∧
      r2.value (Write.execAll grow ws r st).2 = r2.value st ∧
      (Write.execAll grow ws r st).1.Valid (Write.execAll grow ws r st).2 ∧
      r2.Valid (Write.execAll grow ws r st).2 ∧
      (Write.execAll grow ws r st).1.Apart r2 := by
  induction ws with
  | nil =>
    intro r r2 st hv hv2 ha
    exact ⟨rfl, rfl, hv, hv2, ha⟩
  | cons w ws ih =>
    intro r r2 st hv hv2 ha
    obtain ⟨ho1, ho2, ho3⟩ := Write.exec_other grow w r r2 st hv2 ha
    obtain ⟨h1, h2, h3, h4, h5⟩ :=
      ih (w.exec grow r st).1 r2 (w.exec grow r st).2 (Write.exec_valid grow w r st hv) ho2 ho3
    simp only [Write.execAll, List.foldl_cons]
    refine ⟨?_, ?_, h3, h4, h5⟩
    · rw [h1, Write.exec_value grow w r st hv]
    · rw [h2, ho1]

/-- The writes of every method but `ApplyFilter` and `ApplyExpr`, applied to the
value, are the method on the value. -/
theorem Call.run_eq_ownWrites (EXPR_EQ : Op) (c : Call) (b : SQLBuilder)
    (hf : ∀ f v, c ≠ Call.ApplyFilter f v) (he : ∀ f v args, c ≠ Call.ApplyExpr f v args) :
    c.run EXPR_EQ b = (c.ownWrites b).foldl (fun acc w => w.apply acc) b := by
  cases c with
  | ApplyFilter f v => exact absurd rfl (hf f v)
  | ApplyExpr f v args => exact absurd rfl (he f v args)
  | WithFieldConfig f d op =>
    simp only [Call.run, Call.ownWrites, SQLBuilder.WithFieldConfig]
    cases hfc : b.fieldConfigs <;> simp [Write.apply, hfc]
  | WhereIf g cond =>
    cases g <;> rfl
  | Eq f v => simp only [Call.run, Call.ownWrites, SQLBuilder.Eq]; split <;> rfl
  | EqIf v f => simp only [Call.run, Call.ownWrites, SQLBuilder.EqIf]; split <;> rfl
  | NotEq f v => simp only [Call.run, Call.ownWrites, SQLBuilder.NotEq]; split <;> rfl
  | Like f v => simp only [Call.run, Call.ownWrites, SQLBuilder.Like]; split <;> rfl
  | ILike f v => simp only [Call.run, Call.ownWrites, SQLBuilder.ILike]; split <;> rfl
  | In f v => simp only [Call.run, Call.ownWrites, SQLBuilder.In]; split <;> rfl
  | NotIn f v => simp only [Call.run, Call.ownWrites, SQLBuilder.NotIn]; split <;> rfl
  | Between f lo hi => simp only [Call.run, Call.ownWrites, SQLBuilder.Between]; split <;> rfl
  | Gt f v => simp only [Call.run, Call.ownWrites, SQLBuilder.Gt]; split <;> rfl
  | Lt f v => simp only [Call.run, Call.ownWrites, SQLBuilder.Lt]; split <;> rfl
  | Gte f v => simp only [Call.run, Call.ownWrites, SQLBuilder.Gte]; split <;> rfl
  | Lte f v => simp only [Call.run, Call.ownWrites, SQLBuilder.Lte]; split <;> rfl
  | Or cs => simp only [Call.run, Call.ownWrites, SQLBuilder.Or]; split <;> rfl
  | And cs => simp only [Call.run, Call.ownWrites, SQLBuilder.And]; split <;> rfl
  | ExprEq l r args => simp only [Call.run, Call.ownWrites, SQLBuilder.ExprEq]; split <;> rfl
  | SortIf f o => simp only [Call.run, Call.ownWrites, SQLBuilder.SortIf]; split <;> rfl
  | Limit n => simp only [Call.run, Call.ownWrites, SQLBuilder.Limit]; split <;> rfl
  | _ => rfl

/-- The method `ApplyFilter` hands on to, on the value. -/
theorem SQLBuilder.ApplyFilter_filterCall (EXPR_EQ : Op) (b : SQLBuilder) (f v : String) :
    b.ApplyFilter f v =
      match filterCall b f v with
      | none => b
      | some c1 => c1.run EXPR_EQ b := by
  unfold SQLBuilder.ApplyFilter filterCall
  by_cases hv : v = ""
  · simp only [hv, if_true]
  · simp only [hv, if_false]
    cases hread : GoMap.read b.fieldConfigs f with
    | none => rfl
    | some cfg =>
      simp only []
      split_ifs <;> rfl

/-- `filterCall` names a predicate method, never `ApplyFilter` or `ApplyExpr`. -/
theorem filterCall_own (b : SQLBuilder) (f v : String) (c1 : Call)
    (h : filterCall b f v = some c1) :
    (∀ f2 v2, c1 ≠ Call.ApplyFilter f2 v2) ∧ (∀ f2 v2 args, c1 ≠ Call.ApplyExpr f2 v2 args) := by
  unfold filterCall at h
  by_cases hv : v = ""
  · simp only [hv, if_true] at h
    cases h
  · simp only [hv, if_false] at h
    cases hread : GoMap.read b.fieldConfigs f with
    | none =>
      rw [hread] at h
      cases h
    | some cfg =>
      rw [hread] at h
      simp only [] at h
      split_ifs at h
      all_goals
        cases h
        try exact ⟨fun _ _ hc => Call.noConfusion hc, fun _ _ _ hc => Call.noConfusion hc⟩

/-- The writes of a call, applied to the value, are the method on the value. -/
theorem Call.run_eq_writes (EXPR_EQ : Op) (c : Call) (b : SQLBuilder) :
    c.run EXPR_EQ b = (c.writes EXPR_EQ b).foldl (fun acc w => w.apply acc) b := by
  have hfilter : ∀ f v, b.ApplyFilter f v =
      (match filterCall b f v with
        | none => []
        | some c1 => c1.ownWrites b).foldl (fun (acc : SQLBuilder) (w : Write) => w.apply acc)
        b := by
    intro f v
    rw [SQLBuilder.ApplyFilter_filterCall EXPR_EQ]
    cases hfc : filterCall b f v with
    | none => rfl
    | some c1 =>
      obtain ⟨h1, h2⟩ := filterCall_own b f v c1 hfc
      exact Call.run_eq_ownWrites EXPR_EQ c1 b h1 h2
  by_cases hf : ∃ f v, c = Call.ApplyFilter f v
  · obtain ⟨f, v, rfl⟩ := hf
    exact hfilter f v
  · by_cases he : ∃ f v args, c = Call.ApplyExpr f v args
    · obtain ⟨f, v, args, rfl⟩ := he
      simp only [Call.run, Call.writes, SQLBuilder.ApplyExpr]
      split
      · rfl
      · split
        · rfl
        · split
          · exact hfilter f v
          · simp only [SQLBuilder.ExprEq, Call.ownWrites]
            split <;> rfl
    · have h1 : ∀ f v, c ≠ Call.ApplyFilter f v := fun f v hc => hf ⟨f, v, hc⟩
      have h2 : ∀ f v args, c ≠ Call.ApplyExpr f v args := fun f v args hc => he ⟨f, v, args, hc⟩
      rw [Call.run_eq_ownWrites EXPR_EQ c b h1 h2]
      cases c with
      | ApplyFilter f v => exact absurd rfl (h1 f v)
      | ApplyExpr f v args => exact absurd rfl (h2 f v args)
      | _ => rfl

/-! ### Helper lemmas: calls through two pointers -/

/-- A call through `p` while the structs behind `p` and `q` are isolated: the
struct behind `p` shows the method's result on what it showed, the struct
behind `q` shows what it showed, and the two stay isolated. -/
theorem Mem.call_two (EXPR_EQ : Op) (grow : Nat → Nat → Nat) (m : Mem) (p q : Nat)
    (hpq : p ≠ q) (c : Call) (x y : SQLBuilder) (hi : m.Isolated p q)
    (hx : m.value p = some x) (hy : m.value q = some y) :
    ∃ m1, Mem.call EXPR_EQ grow m p c = some m1 ∧ m1.Isolated p q ∧
      m1.value p = some (c.run EXPR_EQ x) ∧ m1.value q = some y := by
  obtain ⟨rp, rq, hp, hq, hvp, hvq, hap⟩ := hi
  have hx2 : rp.value m.store = x := by
    simpa [Mem.value, hp] using hx
  have hy2 : rq.value m.store = y := by
    simpa [Mem.value, hq] using hy
  obtain ⟨h1, h2, h3, h4, h5⟩ :=
    Write.execAll_spec grow (c.writes EXPR_EQ (rp.value m.store)) rp rq m.store hvp hvq hap
  have hpl : p < m.cells.length := (List.getElem?_eq_some_iff.mp hp).1
  simp only [Mem.call, hp]
  refine ⟨_, rfl, ⟨_, rq, ?_, ?_, h3, h4, h5⟩, ?_, ?_⟩
  · simp [List.getElem?_set, hpl]
  · simp [List.getElem?_set, hpq, hq]
  · simp only [Mem.value, List.getElem?_set, hpl, if_true, Option.map_some', h1]
    rw [Call.run_eq_writes, hx2]
  · simp only [Mem.value, List.getElem?_set, hpq, if_false, hq, Option.map_some', h2, hy2]

theorem Mem.isolated_symm {m : Mem} {p q : Nat} (h : m.Isolated p q) : m.Isolated q p := by
  obtain ⟨rp, rq, hp, hq, hvp, hvq, hap⟩ := h
  exact ⟨rq, rp, hq, hp, hvq, hvp, SQLBuilderRaw.raw_apart_symm hap⟩

/-- Two isolated structs: a script that goes through these two pointers leaves
behind each pointer a struct that shows what the calls through that pointer
alone make of what it showed, and the two are still isolated. -/
theorem Mem.script_two (EXPR_EQ : Op) (grow : Nat → Nat → Nat) (p q : Nat) (hpq : p ≠ q)
    (s : List (Nat × Call)) :
    ∀ (m : Mem) (x y : SQLBuilder), m.Isolated p q → m.value p = some x → m.value q = some y →
      (∀ e ∈ s, e.1 = p ∨ e.1 = q) →
      ∃ m2, Mem.script EXPR_EQ grow m s = some m2 ∧ m2.Isolated p q ∧
        m2.value p = some (Call.runAll EXPR_EQ (callsOn p s) x) ∧
        m2.value q = some (Call.runAll EXPR_EQ (callsOn q s) y) := by
  induction s with
  | nil =>
    intro m x y hi hx hy _
    exact ⟨m, rfl, hi, hx, hy⟩
  | cons e s ih =>
    intro m x y hi hx hy hs
    obtain ⟨t, c⟩ := e
    have hrest : ∀ e ∈ s, e.1 = p ∨ e.1 = q := fun e he => hs e (List.mem_cons_of_mem _ he)
    rcases hs (t, c) (List.mem_cons_self _ _) with ht | ht
    · have ht : t = p := ht
      subst ht
      obtain ⟨m1, hcall, hi1, hx1, hy1⟩ := Mem.call_two EXPR_EQ grow m t q hpq c x y hi hx hy
      obtain ⟨m2, hrun, hi2, h2p, h2q⟩ := ih m1 _ _ hi1 hx1 hy1 hrest
      refine ⟨m2, ?_, hi2, ?_, ?_⟩
      · simp only [Mem.script, hcall, hrun]
      · rw [callsOn_cons_self]
        exact h2p
      · rw [callsOn_cons_other q t c s hpq]
        exact h2q
    · have ht : t = q := ht
      subst ht
      obtain ⟨m1, hcall, hi1, hy1, hx1⟩ :=
        Mem.call_two EXPR_EQ grow m t p (Ne.symm hpq) c y x (Mem.isolated_symm hi) hy hx
      obtain ⟨m2, hrun, hi2, h2p, h2q⟩ := ih m1 _ _ (Mem.isolated_symm hi1) hx1 hy1 hrest
      refine ⟨m2, ?_, hi2, ?_, ?_⟩
      · simp only [Mem.script, hcall, hrun]
      · rw [callsOn_cons_other p t c s (Ne.symm hpq)]
        exact h2p
      · rw [callsOn_cons_self]
        exact h2q

/-- `Clone` through a pointer to a struct in good standing: the new struct is
at a fresh address, shows the value-level clone of what the old struct shows,
and is isolated from the old struct, which shows what it showed. -/
theorem Mem.Clone_spec (grow : Nat → Nat → Nat) (m : Mem) (p : Nat) (r : SQLBuilderRaw)
    (hr : m.cells[p]? = some r) (hv : r.Valid m.store) :
    ∃ m1, m.Clone grow p = some (m1, m.cells.length) ∧ m1.Isolated p m.cells.length ∧
      m1.value p = some (r.value m.store) ∧
      m1.value m.cells.length = some (r.value m.store).Clone := by
  obtain ⟨hf, hj, hw, hm⟩ := hv
  have hpl : p < m.cells.length := (List.getElem?_eq_some_iff.mp hr).1
  have hfo := Slice.append_read_other grow m.store.strings Slice.empty r.fields
    (r.fields.read m.store.strings) hf (Slice.empty_apart _)
  have hjo := Slice.append_read_other grow m.store.joins Slice.empty r.joins
    (r.joins.read m.store.joins) hj (Slice.empty_apart _)
  have hfr := Slice.append_read grow m.store.strings Slice.empty
    (r.fields.read m.store.strings) (Slice.empty_valid _)
  have hjr := Slice.append_read grow m.store.joins Slice.empty
    (r.joins.read m.store.joins) (Slice.empty_valid _)
  simp only [Mem.Clone, hr]
  refine ⟨_, rfl, ⟨r, ?w, ?_, ?hq, ?_, ?_, ?_⟩, ?_, ?_⟩
  case hq => exact List.getElem?_concat_length _ _
  · simp only [List.getElem?_append_left hpl, hr]
  · exact ⟨Slice.append_valid_other grow _ _ _ _ hf (Slice.empty_apart _),
      Slice.append_valid_other grow _ _ _ _ hj (Slice.empty_apart _), hw, hm⟩
  · exact ⟨Slice.append_valid grow _ _ _ (Slice.empty_valid _),
      Slice.append_valid grow _ _ _ (Slice.empty_valid _), Slice.empty_valid _,
      fun a ha => by cases ha⟩
  · exact ⟨Slice.apart_symm (Slice.append_apart grow _ _ _ _ hf (Slice.empty_apart _)),
      Slice.apart_symm (Slice.append_apart grow _ _ _ _ hj (Slice.empty_apart _)),
      Or.inr (Or.inl rfl), Or.inr (Or.inl rfl)⟩
  · simp only [Mem.value, List.getElem?_append_left hpl, hr, Option.map_some',
      SQLBuilderRaw.value, hfo, hjo]
  · simp only [Mem.value, List.getElem?_concat_length, Option.map_some', SQLBuilderRaw.value,
      hfr, hjr, SQLBuilder.Clone]
    simp [Slice.read, Slice.empty]

/-- The writes of a method on a struct in good standing: the struct shows the
writes applied to what it showed and is in good standing again. -/
theorem Write.execAll_self (grow : Nat → Nat → Nat) (ws : List Write) :
    ∀ (r : SQLBuilderRaw) (st : Store), r.Valid st →
      (Write.execAll grow ws r st).1.value (Write.execAll grow ws r st).2 =
        ws.foldl (fun acc w => w.apply acc) (r.value st) ∧
      (Write.execAll grow ws r st).1.Valid (Write.execAll grow ws r st).2 := by
  induction ws with
  | nil =>
    intro r st hv
    exact ⟨rfl, hv⟩
  | cons w ws ih =>
    intro r st hv
    obtain ⟨h1, h2⟩ := ih (w.exec grow r st).1 (w.exec grow r st).2 (Write.exec_valid grow w r st hv)
    simp only [Write.execAll, List.foldl_cons]
    exact ⟨by rw [h1, Write.exec_value grow w r st hv], h2⟩

/-- `NewSQLBuilder` in memory returns a fresh address whose struct is in good
standing and shows the value `NewSQLBuilder`. -/
theorem NewSQLBuilder_in_memory (m : Mem) :
    m.NewSQLBuilder.2 = m.cells.length ∧
    m.NewSQLBuilder.1.value m.cells.length = some NewSQLBuilder ∧
    ∃ r, m.NewSQLBuilder.1.cells[m.cells.length]? = some r ∧ r.Valid m.NewSQLBuilder.1.store := by
  refine ⟨rfl, ?_, _, List.getElem?_concat_length _ _, ?_⟩
  · simp [Mem.value, Mem.NewSQLBuilder, SQLBuilderRaw.value, NewSQLBuilder, Slice.read,
      Slice.empty]
  · refine ⟨Slice.empty_valid _, Slice.empty_valid _, Slice.empty_valid _, ?_⟩
    intro a ha
    simp only [Option.some.injEq] at ha
    simp only [Mem.NewSQLBuilder, List.length_append, List.length_singleton]
    omega

/-- A call through a pointer to a struct in good standing succeeds; the struct
shows the method's result on what it showed and is in good standing again. -/
theorem Mem.call_valid (EXPR_EQ : Op) (grow : Nat → Nat → Nat) (m : Mem) (p : Nat) (c : Call)
    (r : SQLBuilderRaw) (hr : m.cells[p]? = some r) (hv : r.Valid m.store) :
    ∃ m1 r1, Mem.call EXPR_EQ grow m p c = some m1 ∧ m1.cells[p]? = some r1 ∧
      r1.Valid m1.store ∧ m1.value p = some (c.run EXPR_EQ (r.value m.store)) := by
  obtain ⟨h1, h2⟩ := Write.execAll_self grow (c.writes EXPR_EQ (r.value m.store)) r m.store hv
  have hpl : p < m.cells.length := (List.getElem?_eq_some_iff.mp hr).1
  simp only [Mem.call, hr]
  refine ⟨_, _, rfl, ?hq, h2, ?_⟩
  case hq => simp [List.getElem?_set, hpl]
  simp only [Mem.value, List.getElem?_set, hpl, if_true, Option.map_some', h1]
  rw [Call.run_eq_writes]

/-! ### C7 -/

/-- Two structs that hold the same slice value are not isolated in this memory:
after `WithField("email")` through the second pointer and `WithField("phone")`
through the first, both in place in the shared array, the second struct shows
`phone` where it had appended `email`. -/
theorem shared_array_interferes :
    ((Mem.script "expr_eq" doubling sharedMem
        [(1, Call.WithField "email"), (0, Call.WithField "phone")]).bind
      (fun m2 => m2.value 1)).map SQLBuilder.fields = some ["id", "name", "phone"] := by
  decide

/-- C7, clone isolation.  Let `p` point to a struct in good standing (its slice
values lie within allocated arrays, its `fieldConfigs` refers to an allocated
map or is nil), whatever else the memory holds and shares, and let `q` be the
pointer `Clone` returns.  `q` is a fresh address, the struct behind `p` shows
what it showed, and the struct behind `q` shows the clone.  After any script of
method calls through `p` and `q`, in any interleaving and with any growth of
full arrays, the struct behind each pointer shows what the calls through that
pointer alone make of what it showed.  So calls through `q` only leave what the
original shows as it was (predicate list, sort, limit, offset, table, fields,
joins and all), and calls through `p` only leave what the clone shows as
`Clone` made it. -/
theorem clone_isolation (EXPR_EQ : Op) (grow : Nat → Nat → Nat) (m : Mem) (p : Nat)
    (r : SQLBuilderRaw) (hr : m.cells[p]? = some r) (hv : r.Valid m.store)
    (s : List (Nat × Call)) (hs : ∀ e ∈ s, e.1 = p ∨ e.1 = m.cells.length) :
    ∃ m1 m2, m.Clone grow p = some (m1, m.cells.length) ∧ m.cells.length ≠ p ∧
      m.value p = some (r.value m.store) ∧
      m1.value p = some (r.value m.store) ∧
      m1.value m.cells.length = some (r.value m.store).Clone ∧
      Mem.script EXPR_EQ grow m1 s = some m2 ∧
      m2.value p = some (Call.runAll EXPR_EQ (callsOn p s) (r.value m.store)) ∧
      m2.value m.cells.length =
        some (Call.runAll EXPR_EQ (callsOn m.cells.length s) (r.value m.store).Clone) ∧
      ((∀ e ∈ s, e.1 = m.cells.length) → m2.value p = m.value p) ∧
      ((∀ e ∈ s, e.1 = p) → m2.value m.cells.length = m1.value m.cells.length) := by
  have hp : p < m.cells.length := (List.getElem?_eq_some_iff.mp hr).1
  have hne : p ≠ m.cells.length := Nat.ne_of_lt hp
  have hmp : m.value p = some (r.value m.store) := by
    simp only [Mem.value, hr, Option.map_some']
  obtain ⟨m1, hclone, hiso, h1p, h1q⟩ := Mem.Clone_spec grow m p r hr hv
  obtain ⟨m2, hrun, _, h2p, h2q⟩ :=
    Mem.script_two EXPR_EQ grow p m.cells.length hne s m1 _ _ hiso h1p h1q hs
  refine ⟨m1, m2, hclone, Ne.symm hne, hmp, h1p, h1q, hrun, h2p, h2q, ?_, ?_⟩
  · intro hall
    rw [h2p, hmp, callsOn_eq_nil p m.cells.length s (Ne.symm hne) hall]
    rfl
  · intro hall
    rw [h2q, h1q, callsOn_eq_nil m.cells.length p s hne hall]
    rfl

/-- Witness of C7: the builder `original` of the test at address 0, with spare
capacity behind its fields, and its clone at address 1; `Eq`, `WithField` and
`Limit` through the clone, `WithField` and `Reset` through the original, full
arrays growing by doubling. -/
theorem clone_isolation_witness :
    ((originalMem.Clone doubling 0).bind (fun x => Mem.script "expr_eq" doubling x.1
        [(1, Call.Eq "status" (Value.str "active")), (0, Call.WithField "email"),
          (1, Call.WithField "phone"), (0, Call.Reset), (1, Call.Limit 5)])).bind
      (fun m2 => m2.value 0) =
        some ((originalRaw.value originalMem.store).WithField "email").Reset ∧
    ((originalMem.Clone doubling 0).bind (fun x => Mem.script "expr_eq" doubling x.1
        [(1, Call.Eq "status" (Value.str "active")), (0, Call.WithField "email"),
          (1, Call.WithField "phone"), (0, Call.Reset), (1, Call.Limit 5)])).bind
      (fun m2 => m2.value 1) =
        some ((((originalRaw.value originalMem.store).Clone.Eq "status"
          (Value.str "active")).WithField "phone").Limit 5) := by
  obtain ⟨m1, m2, hc, _, _, _, _, hrun, h2p, h2q, _, _⟩ :=
    clone_isolation "expr_eq" doubling originalMem 0 originalRaw rfl
      ⟨⟨by decide, fun _ => ⟨by decide, by decide⟩⟩, Slice.empty_valid _,
        ⟨by decide, fun _ => ⟨by decide, by decide⟩⟩,
        fun a ha => by cases ha; decide⟩
      [(1, Call.Eq "status" (Value.str "active")), (0, Call.WithField "email"),
        (1, Call.WithField "phone"), (0, Call.Reset), (1, Call.Limit 5)]
      (by decide)
  rw [hc]
  simp only [Option.some_bind]
  rw [hrun]
  exact ⟨h2p, h2q⟩

/-! ### C8 -/

/-- C8, evaluated: `Clone` leaves `fieldConfigs` out of the new struct, so on a
clone every alias resolves to itself.  With `user_name` registered to
`users.name`, the original resolves it to `users.name` and the clone to
`user_name`; `ApplyFilter("user_name", "x")` adds a predicate on the original's
registry (here after `Reset`, which keeps it) and nothing on the clone. -/
theorem Clone_drops_fieldConfigs :
    (∀ (b : SQLBuilder) (a : String), b.Clone.mapField a = a) ∧
    (NewSQLBuilder.WithFieldConfig "user_name" "users.name" Op.EQ).mapField "user_name"
      = "users.name" ∧
    (NewSQLBuilder.WithFieldConfig "user_name" "users.name" Op.EQ).Clone.mapField "user_name"
      = "user_name" ∧
    ((NewSQLBuilder.WithFieldConfig "user_name" "users.name" Op.EQ).Reset.ApplyFilter
      "user_name" "x").whereConditions = [Sqlizer.Eq "users.name" (Value.str "x")] ∧
    ((NewSQLBuilder.WithFieldConfig "user_name" "users.name" Op.EQ).Clone.ApplyFilter
      "user_name" "x").whereConditions = [] := by
  refine ⟨fun b a => rfl, rfl, rfl, rfl, rfl⟩

/-! ### C9 -/

/-- C9, the result of `Clone`: the same table, estimate table, field list,
join list and placeholder style as the original, and an empty predicate list,
an empty sort, limit 0 and offset 0. -/
theorem Clone_result (b : SQLBuilder) :
    b.Clone.fromTable = b.fromTable ∧ b.Clone.estimateTable = b.estimateTable ∧
    b.Clone.fields = b.fields ∧ b.Clone.joins = b.joins ∧
    b.Clone.placeholder = b.placeholder ∧
    b.Clone.whereConditions = [] ∧ b.Clone.sort = { Field := "", Order := "" } ∧
    b.Clone.limit = 0 ∧ b.Clone.offset = 0 := by
  simp [SQLBuilder.Clone]

/-! ### C10 -/

/-- C10, `Reset`: the predicate list is empty, the sort is empty, limit and
offset are 0, and table, estimate table, field list, join list, alias registry
and placeholder style are those of the builder before. -/
theorem Reset_result (b : SQLBuilder) :
    b.Reset.whereConditions = [] ∧ b.Reset.sort = { Field := "", Order := "" } ∧
    b.Reset.limit = 0 ∧ b.Reset.offset = 0 ∧
    b.Reset.fromTable = b.fromTable ∧ b.Reset.estimateTable = b.estimateTable ∧
    b.Reset.fields = b.fields ∧ b.Reset.joins = b.joins ∧
    b.Reset.fieldConfigs = b.fieldConfigs ∧ b.Reset.placeholder = b.placeholder ∧
    (∀ a, b.Reset.mapField a = b.mapField a) := by
  simp [SQLBuilder.Reset, SQLBuilder.mapField]

/-! ### Helper lemmas: the renderer -/

theorem replacePositionalPlaceholders_cons_ne (pfx : String) (c : Char) (l : List Char) (i : Nat)
    (h : c ≠ '?') :
    replacePositionalPlaceholders pfx (c :: l) i = c :: replacePositionalPlaceholders pfx l i := by
  cases l with
  | nil => simp [replacePositionalPlaceholders, h]
  | cons d rest => simp [replacePositionalPlaceholders, h]

theorem SelectBuilder.toSqlRaw_SetPlaceholderFormat (sb : SelectBuilder) (f : PlaceholderFormat) :
    (sb.SetPlaceholderFormat f).toSqlRaw = sb.toSqlRaw := by
  cases sb
  simp [SelectBuilder.SetPlaceholderFormat, SelectBuilder.toSqlRaw]

theorem SelectBuilder.format_SetPlaceholderFormat (sb : SelectBuilder) (f : PlaceholderFormat) :
    (sb.SetPlaceholderFormat f).format = f := by
  cases sb
  rfl

theorem foldl_JoinClause (js : List joinConfig) :
    ∀ (f : PlaceholderFormat) (cols : List String) (src : FromPart) (joins : List String)
      (wheres : List Sqlizer) (orderBys : List String) (limit offset : String),
      js.foldl (fun sb join => SelectBuilder.JoinClause sb join.clause)
          (SelectBuilder.mk f cols src joins wheres orderBys limit offset)
        = SelectBuilder.mk f cols src (joins ++ js.map joinConfig.clause) wheres orderBys
            limit offset := by
  induction js with
  | nil => intros; simp
  | cons j js ih =>
    intro f cols src joins wheres orderBys limit offset
    rw [List.foldl_cons]
    have h1 : SelectBuilder.JoinClause (SelectBuilder.mk f cols src joins wheres orderBys limit offset)
        j.clause = SelectBuilder.mk f cols src (joins ++ [j.clause]) wheres orderBys limit offset :=
      rfl
    rw [h1, ih]
    simp

/-- The select `buildBaseSelect` hands to squirrel: the fields as columns, the
table, the join clauses in registration order, and one where part, the `And`
of all predicates, when there is a predicate. -/
theorem SQLBuilder.buildBaseSelect_eq (b : SQLBuilder) :
    b.buildBaseSelect =
      SelectBuilder.mk PlaceholderFormat.Question b.fields (FromPart.part b.fromTable)
        (b.joins.map joinConfig.clause)
        (if b.whereConditions.length > 0 then [Sqlizer.And b.whereConditions] else [])
        [] "" "" := by
  unfold SQLBuilder.buildBaseSelect
  simp only [Select, SelectBuilder.From, foldl_JoinClause, List.nil_append]
  split <;> simp [SelectBuilder.Where]

theorem SelectBuilder.format_mk (f : PlaceholderFormat) (cols : List String) (src : FromPart)
    (joins : List String) (wheres : List Sqlizer) (orderBys : List String)
    (limit offset : String) :
    (SelectBuilder.mk f cols src joins wheres orderBys limit offset).format = f := rfl

theorem finishToSql_ok (f : PlaceholderFormat) (sql : String) (args : List Value) :
    finishToSql f (sql, args, none) = (f.ReplacePlaceholders sql, args, none) := rfl

theorem finishToSql_err (f : PlaceholderFormat) (sql : String) (args : List Value) (e : String) :
    finishToSql f (sql, args, some e) = (sql, args, some e) := rfl

theorem ReplacePlaceholders_Question (sql : String) :
    PlaceholderFormat.Question.ReplacePlaceholders sql = sql := rfl

theorem count_builder_eq (sb : SelectBuilder) (f : PlaceholderFormat) :
    ((Select ["COUNT(*)"]).FromSelect sb "subquery").SetPlaceholderFormat f =
      SelectBuilder.mk f ["COUNT(*)"]
        (FromPart.aliased (sb.SetPlaceholderFormat PlaceholderFormat.Question) "subquery")
        [] [] [] "" "" := rfl

theorem count_toSqlRaw (sel : SelectBuilder) (f : PlaceholderFormat) :
    (SelectBuilder.mk f ["COUNT(*)"] (FromPart.aliased sel "subquery") [] [] [] "" "").toSqlRaw =
      match finishToSql sel.format sel.toSqlRaw with
      | (_, _, some e) => ("", [], some e)
      | (inner, innerArgs, none) =>
        ("SELECT COUNT(*) FROM (" ++ inner ++ ") AS subquery", innerArgs, none) := by
  simp only [SelectBuilder.toSqlRaw, FromPart.appendTo]
  generalize finishToSql sel.format sel.toSqlRaw = r
  rcases r with ⟨s, a, _ | e⟩
  · simp [appendToSql, appendToSqlFrom, partToSql, String.ext_iff]
  · simp [appendToSql, appendToSqlFrom, partToSql]

/-- The count statement over a select that renders: `SELECT COUNT(*) FROM (`
the select's text `) AS subquery`, under the outer placeholder format, with
the select's bind values. -/
theorem count_ToSql_ok (sb : SelectBuilder) (f : PlaceholderFormat) (inner : String)
    (args : List Value) (h : sb.toSqlRaw = (inner, args, none)) :
    (((Select ["COUNT(*)"]).FromSelect sb "subquery").SetPlaceholderFormat f).ToSql =
      (f.ReplacePlaceholders ("SELECT COUNT(*) FROM (" ++ inner ++ ") AS subquery"), args, none) := by
  rw [count_builder_eq]
  simp only [SelectBuilder.ToSql, SelectBuilder.format_mk, count_toSqlRaw,
    SelectBuilder.toSqlRaw_SetPlaceholderFormat, SelectBuilder.format_SetPlaceholderFormat, h,
    finishToSql_ok, ReplacePlaceholders_Question]

/-- The count statement over a select that fails: the same error. -/
theorem count_ToSql_err (sb : SelectBuilder) (f : PlaceholderFormat) (s : String)
    (args : List Value) (e : String) (h : sb.toSqlRaw = (s, args, some e)) :
    (((Select ["COUNT(*)"]).FromSelect sb "subquery").SetPlaceholderFormat f).ToSql =
      ("", [], some e) := by
  rw [count_builder_eq]
  simp only [SelectBuilder.ToSql, SelectBuilder.format_mk, count_toSqlRaw,
    SelectBuilder.toSqlRaw_SetPlaceholderFormat, SelectBuilder.format_SetPlaceholderFormat, h,
    finishToSql_err]

theorem ReplacePlaceholders_count_ne (f : PlaceholderFormat) (rest : String) :
    f.ReplacePlaceholders ("SELECT COUNT(*) FROM (" ++ rest) ≠ estimateSQL := by
  intro h
  have hd := congrArg String.data h
  cases f <;>
    simp [PlaceholderFormat.ReplacePlaceholders, estimateSQL, String.data_append,
      replacePositionalPlaceholders_cons_ne] at hd

/-! ### C4 -/

/-- C4, the two paths of `BuildCount`.  It returns the fixed estimate statement
`SELECT reltuples::bigint AS estimate FROM pg_class WHERE oid = $1::regclass`
with the estimate table as its one bind value and no error exactly when the
predicate list is empty and the estimate table is not the empty string.  In
every other case it returns what squirrel renders for `SELECT COUNT(*)` over the
base select taken as the subquery `subquery`; the base select holds the fields,
the table, the joins and the `And` of all predicates, and nothing of the
estimate table; the rendering is `SELECT COUNT(*) FROM (base) AS subquery` with
the base select's bind values when the base select renders, and the base
select's error otherwise. -/
theorem BuildCount_paths (b : SQLBuilder) :
    (b.BuildCount =
        ("SELECT reltuples::bigint AS estimate FROM pg_class WHERE oid = $1::regclass",
          [Value.str b.estimateTable], none) ↔
      (b.whereConditions = [] ∧ b.estimateTable ≠ "")) ∧
    (¬ (b.whereConditions = [] ∧ b.estimateTable ≠ "") →
      b.BuildCount =
        (((Select ["COUNT(*)"]).FromSelect b.buildBaseSelect "subquery").SetPlaceholderFormat
          b.placeholder).ToSql) ∧
    b.buildBaseSelect =
      SelectBuilder.mk PlaceholderFormat.Question b.fields (FromPart.part b.fromTable)
        (b.joins.map joinConfig.clause)
        (if b.whereConditions.length > 0 then [Sqlizer.And b.whereConditions] else [])
        [] "" "" ∧
    (∀ inner args, b.buildBaseSelect.toSqlRaw = (inner, args, none) →
      (((Select ["COUNT(*)"]).FromSelect b.buildBaseSelect "subquery").SetPlaceholderFormat
          b.placeholder).ToSql =
        (b.placeholder.ReplacePlaceholders ("SELECT COUNT(*) FROM (" ++ inner ++ ") AS subquery"),
          args, none)) ∧
    (∀ s args e, b.buildBaseSelect.toSqlRaw = (s, args, some e) →
      (((Select ["COUNT(*)"]).FromSelect b.buildBaseSelect "subquery").SetPlaceholderFormat
          b.placeholder).ToSql = ("", [], some e)) := by
  have hpath : ¬ (b.whereConditions = [] ∧ b.estimateTable ≠ "") →
      b.BuildCount =
        (((Select ["COUNT(*)"]).FromSelect b.buildBaseSelect "subquery").SetPlaceholderFormat
          b.placeholder).ToSql := by
    intro hn
    have hc : b.whereConditions.length > 0 ∨ b.estimateTable = "" := by
      by_cases hw : b.whereConditions = []
      · right
        by_contra he
        exact hn ⟨hw, he⟩
      · left
        exact List.length_pos.mpr hw
    simp [SQLBuilder.BuildCount, hc]
  have hest : b.BuildCount =
      ("SELECT reltuples::bigint AS estimate FROM pg_class WHERE oid = $1::regclass",
        [Value.str b.estimateTable], none) ↔
      b.BuildCount = (estimateSQL, [Value.str b.estimateTable], none) := Iff.rfl
  rw [hest]
  refine ⟨⟨?_, ?_⟩, hpath, b.buildBaseSelect_eq,
    fun inner args h => count_ToSql_ok _ _ inner args h,
    fun s args e h => count_ToSql_err _ _ s args e h⟩
  · intro heq
    by_contra hn
    rw [hpath hn] at heq
    rcases hraw : b.buildBaseSelect.toSqlRaw with ⟨s, a, _ | e⟩
    · rw [count_ToSql_ok _ _ s a hraw] at heq
      have h1 := congrArg Prod.fst heq
      simp only [String.append_assoc] at h1
      exact ReplacePlaceholders_count_ne _ _ h1
    · rw [count_ToSql_err _ _ s a e hraw] at heq
      simp at heq
  · rintro ⟨hw, he⟩
    simp [SQLBuilder.BuildCount, hw, he]

/-- Witness of C4: a builder with the estimate table `users` and no predicate
takes the estimate path; the same builder with a predicate takes the exact
path. -/
theorem BuildCount_paths_witness :
    estimateBuilder.BuildCount =
      ("SELECT reltuples::bigint AS estimate FROM pg_class WHERE oid = $1::regclass",
        [Value.str "users"], none) ∧
    (estimateBuilder.Eq "active" (Value.bool true)).BuildCount =
      ("SELECT COUNT(*) FROM (SELECT id FROM users WHERE (active = $1)) AS subquery",
        [Value.bool true], none) := by
  have h1 := (BuildCount_paths estimateBuilder).1.mpr ⟨rfl, by decide⟩
  have h2 := (BuildCount_paths (estimateBuilder.Eq "active" (Value.bool true))).2.1
    (by simp [SQLBuilder.Eq, SQLBuilder.mapField])
  refine ⟨h1, ?_⟩
  rw [h2]
  rfl

/-! ### Helper lemmas: texts without placeholders -/

theorem Nat.digitChar_ne_question (n : Nat) (h : n < 10) : Nat.digitChar n ≠ '?' := by
  interval_cases n <;> decide

theorem Nat.toDigitsCore_no_question (fuel : Nat) :
    ∀ (n : Nat) (ds : List Char), '?' ∉ ds → '?' ∉ Nat.toDigitsCore 10 fuel n ds := by
  induction fuel with
  | zero => intro n ds h; simpa [Nat.toDigitsCore] using h
  | succ fuel ih =>
    intro n ds h
    have hd : '?' ∉ Nat.digitChar (n % 10) :: ds := by
      intro hm
      rcases List.mem_cons.mp hm with h1 | h1
      · exact Nat.digitChar_ne_question _ (Nat.mod_lt _ (by decide)) h1.symm
      · exact h h1
    simp only [Nat.toDigitsCore]
    split
    · exact hd
    · exact ih _ _ hd

theorem Nat.repr_no_question (n : Nat) : '?' ∉ (Nat.repr n).data := by
  simp only [Nat.repr, Nat.toDigits, List.asString]
  exact Nat.toDigitsCore_no_question _ _ _ (by simp)

theorem replacePositionalPlaceholders_no_question (pfx : String) (t : List Char) (i : Nat)
    (h : '?' ∉ t) : replacePositionalPlaceholders pfx t i = t := by
  induction t with
  | nil => rfl
  | cons c t ih =>
    have hc : c ≠ '?' := fun hc => h (hc ▸ List.mem_cons_self _ _)
    rw [replacePositionalPlaceholders_cons_ne pfx c t i hc,
      ih (fun hm => h (List.mem_cons_of_mem _ hm))]

theorem replacePositionalPlaceholders_question_ne (pfx : String) (d : Char) (l : List Char)
    (i : Nat) (h : d ≠ '?') :
    replacePositionalPlaceholders pfx ('?' :: d :: l) i =
      pfx.data ++ (Nat.repr (i + 1)).data ++ replacePositionalPlaceholders pfx (d :: l) (i + 1) := by
  simp [replacePositionalPlaceholders, h]

/-- A text without `?` put after a statement stays as it is, and does not
change how the statement before it is rewritten. -/
theorem replacePositionalPlaceholders_append (pfx : String) (t : List Char) (h : '?' ∉ t) :
    ∀ (n : Nat) (s : List Char) (i : Nat), s.length = n →
      replacePositionalPlaceholders pfx (s ++ t) i = replacePositionalPlaceholders pfx s i ++ t := by
  intro n
  induction n using Nat.strong_induction_on with
  | _ n ih =>
    intro s i hn
    match s, hn with
    | [], _ => simp [replacePositionalPlaceholders, replacePositionalPlaceholders_no_question pfx t i h]
    | [c], _ =>
      by_cases hc : c = '?'
      · subst hc
        cases t with
        | nil => simp
        | cons d t2 =>
          have hd : d ≠ '?' := fun hd => h (hd ▸ List.mem_cons_self _ _)
          have := replacePositionalPlaceholders_question_ne pfx d t2 i hd
          simp only [List.singleton_append, this,
            replacePositionalPlaceholders_no_question pfx (d :: t2) (i + 1) h]
          simp [replacePositionalPlaceholders]
      · simp [replacePositionalPlaceholders_cons_ne pfx c _ i hc,
          replacePositionalPlaceholders_no_question pfx t i h, replacePositionalPlaceholders, hc]
    | c :: d :: rest, hn =>
      by_cases hc : c = '?'
      · subst hc
        by_cases hd : d = '?'
        · subst hd
          have hlen : rest.length < n := by simp at hn; omega
          have := ih rest.length hlen rest i rfl
          simp [replacePositionalPlaceholders, this]
        · have hlen : (d :: rest).length < n := by simp at hn; simp; omega
          have := ih (d :: rest).length hlen (d :: rest) (i + 1) rfl
          simp only [List.cons_append] at this ⊢
          rw [replacePositionalPlaceholders_question_ne pfx d _ i hd,
            replacePositionalPlaceholders_question_ne pfx d _ i hd, this]
          simp
      · have hlen : (d :: rest).length < n := by simp at hn; simp; omega
        have := ih (d :: rest).length hlen (d :: rest) i rfl
        simp only [List.cons_append] at this ⊢
        rw [replacePositionalPlaceholders_cons_ne pfx c _ i hc,
          replacePositionalPlaceholders_cons_ne pfx c _ i hc, this]
        simp

theorem NoPlaceholder.append {s t : String} (hs : NoPlaceholder s) (ht : NoPlaceholder t) :
    NoPlaceholder (s ++ t) := by
  unfold NoPlaceholder at *
  simp [String.data_append, hs, ht]

theorem NoPlaceholder.repr (n : Nat) : NoPlaceholder (Nat.repr n) :=
  Nat.repr_no_question n

/-- A placeholder format leaves a tail without `?` as it is. -/
theorem ReplacePlaceholders_append (f : PlaceholderFormat) (s t : String) (h : NoPlaceholder t) :
    f.ReplacePlaceholders (s ++ t) = f.ReplacePlaceholders s ++ t := by
  cases f
  · rfl
  all_goals
    simp only [PlaceholderFormat.ReplacePlaceholders, String.data_append]
    rw [replacePositionalPlaceholders_append _ t.data h _ s.data 0 rfl]
    apply String.ext
    simp [String.data_append]

/-! ### Helper lemmas: the shape of a rendered select -/

theorem stringsJoin_cons_cons (sep a b : String) (rest : List String) :
    stringsJoin sep (a :: b :: rest) = a ++ sep ++ stringsJoin sep (b :: rest) := rfl

/-- The loop of `appendToSql` over non-empty string parts, past index zero:
every part is written after the separator. -/
theorem appendToSqlFrom_parts (sep : String) (parts : List String) (hne : ∀ p ∈ parts, p ≠ "") :
    ∀ (i : Nat) (w p : String) (args : List Value),
      appendToSqlFrom sep (i + 1) (parts.map partToSql) (w ++ p) args =
        (w ++ stringsJoin sep (p :: parts), args, none) := by
  induction parts with
  | nil => intro i w p args; simp [appendToSqlFrom, stringsJoin]
  | cons q rest ih =>
    intro i w p args
    have hq : q ≠ "" := hne q (List.mem_cons_self _ _)
    have hrest : ∀ p ∈ rest, p ≠ "" := fun p hp => hne p (List.mem_cons_of_mem _ hp)
    have h1 := ih hrest (i + 1) (w ++ p ++ sep) q args
    simp only [List.map_cons, partToSql, appendToSqlFrom, hq, if_false, List.append_nil,
      Nat.succ_pos, if_true, gt_iff_lt, Nat.zero_lt_succ]
    simp only [partToSql] at h1
    rw [h1, stringsJoin_cons_cons]
    simp [String.append_assoc]

/-- `appendToSql` over non-empty string parts writes them joined by the
separator and adds no bind value. -/
theorem appendToSql_parts (sep : String) (p : String) (parts : List String) (hp : p ≠ "")
    (hne : ∀ q ∈ parts, q ≠ "") (w : String) (args : List Value) :
    appendToSql ((p :: parts).map partToSql) w sep args =
      (w ++ stringsJoin sep (p :: parts), args, none) := by
  have h1 := appendToSqlFrom_parts sep parts hne 0 w p args
  simp only [partToSql] at h1
  simp only [appendToSql, List.map_cons, partToSql, appendToSqlFrom, hp, if_false,
    List.append_nil, gt_iff_lt, Nat.lt_irrefl]
  exact h1

/-- The tail of `toSqlRaw`: a select renders as the same select without
order-by, limit and offset, followed by these three steps. -/
theorem SelectBuilder.toSqlRaw_tail (f : PlaceholderFormat) (cols : List String) (src : FromPart)
    (joins : List String) (wheres : List Sqlizer) (orderBys : List String)
    (limit offset : String) :
    (SelectBuilder.mk f cols src joins wheres orderBys limit offset).toSqlRaw =
      match (SelectBuilder.mk f cols src joins wheres [] "" "").toSqlRaw with
      | (_, _, some e) => ("", [], some e)
      | (sql, args, none) =>
        match (if orderBys.length > 0 then
                 appendToSql (orderBys.map partToSql) (sql ++ " ORDER BY ") ", " args
               else (sql, args, none)) with
        | (_, _, some e) => ("", [], some e)
        | (sql, args, none) =>
          ((if offset.length > 0 then
              (if limit.length > 0 then sql ++ " LIMIT " ++ limit else sql) ++ " OFFSET " ++ offset
            else (if limit.length > 0 then sql ++ " LIMIT " ++ limit else sql)), args, none) := by
  simp only [SelectBuilder.toSqlRaw]
  split
  · rfl
  · generalize appendToSql (List.map partToSql cols) "SELECT " ", " [] = r1
    rcases r1 with ⟨s1, a1, _ | e1⟩
    · simp only []
      generalize FromPart.appendTo src s1 a1 = r2
      rcases r2 with ⟨s2, a2, _ | e2⟩
      · simp only []
        generalize (if joins.length > 0 then appendToSql (List.map partToSql joins) (s2 ++ " ") " " a2
          else (s2, a2, none)) = r3
        rcases r3 with ⟨s3, a3, _ | e3⟩
        · simp only []
          generalize (if wheres.length > 0 then
            appendToSql (List.map Sqlizer.ToSql wheres) (s3 ++ " WHERE ") " AND " a3
            else (s3, a3, none)) = r4
          rcases r4 with ⟨s4, a4, _ | e4⟩
          · simp
          · simp
        · simp
      · simp
    · simp

/-! ### Helper lemmas: no call writes `sortMapping` -/

@[simp] theorem SQLBuilder.Eq_sortMapping (b : SQLBuilder) (f : String) (v : Value) :
    (b.Eq f v).sortMapping = b.sortMapping := by
  unfold SQLBuilder.Eq; split <;> rfl

@[simp] theorem SQLBuilder.EqIf_sortMapping (b : SQLBuilder) (v : Value) (f : String) :
    (b.EqIf v f).sortMapping = b.sortMapping := by
  unfold SQLBuilder.EqIf; split <;> rfl

@[simp] theorem SQLBuilder.NotEq_sortMapping (b : SQLBuilder) (f : String) (v : Value) :
    (b.NotEq f v).sortMapping = b.sortMapping := by
  unfold SQLBuilder.NotEq; split <;> rfl

@[simp] theorem SQLBuilder.Like_sortMapping (b : SQLBuilder) (f s : String) :
    (b.Like f s).sortMapping = b.sortMapping := by
  unfold SQLBuilder.Like; split <;> rfl

@[simp] theorem SQLBuilder.ILike_sortMapping (b : SQLBuilder) (f s : String) :
    (b.ILike f s).sortMapping = b.sortMapping := by
  unfold SQLBuilder.ILike; split <;> rfl

@[simp] theorem SQLBuilder.In_sortMapping (b : SQLBuilder) (f : String) (v : Value) :
    (b.In f v).sortMapping = b.sortMapping := by
  unfold SQLBuilder.In; split <;> rfl

@[simp] theorem SQLBuilder.NotIn_sortMapping (b : SQLBuilder) (f : String) (v : Value) :
    (b.NotIn f v).sortMapping = b.sortMapping := by
  unfold SQLBuilder.NotIn; split <;> rfl

@[simp] theorem SQLBuilder.Between_sortMapping (b : SQLBuilder) (f : String) (lo hi : Value) :
    (b.Between f lo hi).sortMapping = b.sortMapping := by
  unfold SQLBuilder.Between; split <;> rfl

@[simp] theorem SQLBuilder.Gt_sortMapping (b : SQLBuilder) (f : String) (v : Value) :
    (b.Gt f v).sortMapping = b.sortMapping := by
  unfold SQLBuilder.Gt; split <;> rfl

@[simp] theorem SQLBuilder.Lt_sortMapping (b : SQLBuilder) (f : String) (v : Value) :
    (b.Lt f v).sortMapping = b.sortMapping := by
  unfold SQLBuilder.Lt; split <;> rfl

@[simp] theorem SQLBuilder.Gte_sortMapping (b : SQLBuilder) (f : String) (v : Value) :
    (b.Gte f v).sortMapping = b.sortMapping := by
  unfold SQLBuilder.Gte; split <;> rfl

@[simp] theorem SQLBuilder.Lte_sortMapping (b : SQLBuilder) (f : String) (v : Value) :
    (b.Lte f v).sortMapping = b.sortMapping := by
  unfold SQLBuilder.Lte; split <;> rfl

@[simp] theorem SQLBuilder.Or_sortMapping (b : SQLBuilder) (cs : List Sqlizer) :
    (b.Or cs).sortMapping = b.sortMapping := by
  unfold SQLBuilder.Or; split <;> rfl

@[simp] theorem SQLBuilder.And_sortMapping (b : SQLBuilder) (cs : List Sqlizer) :
    (b.And cs).sortMapping = b.sortMapping := by
  unfold SQLBuilder.And; split <;> rfl

@[simp] theorem SQLBuilder.WhereIf_sortMapping (b : SQLBuilder) (g : Bool) (c : Sqlizer) :
    (b.WhereIf g c).sortMapping = b.sortMapping := by
  unfold SQLBuilder.WhereIf; split <;> rfl

@[simp] theorem SQLBuilder.ExprEq_sortMapping (b : SQLBuilder) (l r : String) (args : List Value) :
    (b.ExprEq l r args).sortMapping = b.sortMapping := by
  unfold SQLBuilder.ExprEq; split <;> rfl

@[simp] theorem SQLBuilder.SortIf_sortMapping (b : SQLBuilder) (f o : String) :
    (b.SortIf f o).sortMapping = b.sortMapping := by
  unfold SQLBuilder.SortIf; split <;> rfl

@[simp] theorem SQLBuilder.Limit_sortMapping (b : SQLBuilder) (n : Nat) :
    (b.Limit n).sortMapping = b.sortMapping := by
  unfold SQLBuilder.Limit; split <;> rfl

@[simp] theorem SQLBuilder.ApplyFilter_sortMapping (b : SQLBuilder) (f v : String) :
    (b.ApplyFilter f v).sortMapping = b.sortMapping := by
  unfold SQLBuilder.ApplyFilter
  repeat' split
  all_goals simp

@[simp] theorem SQLBuilder.ApplyExpr_sortMapping (EXPR_EQ : Op) (b : SQLBuilder) (f v : String)
    (args : List Value) : (b.ApplyExpr EXPR_EQ f v args).sortMapping = b.sortMapping := by
  unfold SQLBuilder.ApplyExpr
  repeat' split
  all_goals simp

/-- No call writes `sortMapping`. -/
theorem Call.run_sortMapping (EXPR_EQ : Op) (c : Call) (b : SQLBuilder) :
    (c.run EXPR_EQ b).sortMapping = b.sortMapping := by
  cases c <;> first
    | (simp [Call.run]; done)
    | rfl

/-- A builder made from `NewSQLBuilder` by method calls has an empty
`sortMapping`. -/
theorem Call.runAll_sortMapping (EXPR_EQ : Op) (cs : List Call) :
    ∀ b : SQLBuilder, (Call.runAll EXPR_EQ cs b).sortMapping = b.sortMapping := by
  induction cs with
  | nil => intro b; rfl
  | cons c cs ih =>
    intro b
    have h : Call.runAll EXPR_EQ (c :: cs) b = Call.runAll EXPR_EQ cs (c.run EXPR_EQ b) := rfl
    rw [h, ih, Call.run_sortMapping]

theorem String.append_blank_ne_empty (x y : String) : x ++ " " ++ y ≠ "" := by
  intro h
  have hd := congrArg String.data h
  simp [String.data_append] at hd

theorem Nat.toDigitsCore_ne_nil (fuel : Nat) :
    ∀ (n : Nat) (ds : List Char), (fuel ≠ 0 ∨ ds ≠ []) → Nat.toDigitsCore 10 fuel n ds ≠ [] := by
  induction fuel with
  | zero =>
    intro n ds h
    rcases h with h | h
    · exact absurd rfl h
    · simpa [Nat.toDigitsCore] using h
  | succ fuel ih =>
    intro n ds _
    simp only [Nat.toDigitsCore]
    split
    · simp
    · exact ih _ _ (Or.inr (by simp))

theorem Nat.repr_length_pos (n : Nat) : (Nat.repr n).length > 0 := by
  have h : (Nat.repr n).data ≠ [] := by
    simp only [Nat.repr, Nat.toDigits, List.asString]
    exact Nat.toDigitsCore_ne_nil _ _ _ (Or.inl (by simp))
  have : (Nat.repr n).length = (Nat.repr n).data.length := rfl
  rw [gt_iff_lt, this]
  exact List.length_pos.mpr h

/-- What `BuildSelect` gives squirrel to render, before the placeholder
format: the base select and the three tail steps. -/
theorem SQLBuilder.BuildSelect_eq (b : SQLBuilder) :
    b.BuildSelect =
      finishToSql b.placeholder
        (SelectBuilder.mk b.placeholder b.fields (FromPart.part b.fromTable)
          (b.joins.map joinConfig.clause)
          (if b.whereConditions.length > 0 then [Sqlizer.And b.whereConditions] else [])
          (if b.sort.Field ≠ "" then [b.sortField ++ " " ++ b.sort.Order] else [])
          (if b.limit > 0 then Nat.repr b.limit else "")
          (if b.offset > 0 then Nat.repr b.offset else "")).toSqlRaw := by
  unfold SQLBuilder.BuildSelect
  simp only [b.buildBaseSelect_eq]
  by_cases hs : b.sort.Field = "" <;> by_cases hl : b.limit > 0 <;> by_cases ho : b.offset > 0 <;>
    simp [hs, hl, ho, SelectBuilder.OrderBy, SelectBuilder.Limit, SelectBuilder.Offset,
      SelectBuilder.SetPlaceholderFormat, SelectBuilder.ToSql, SelectBuilder.format,
      SQLBuilder.sortField]

/-- The base select of a builder rendered on its own. -/
theorem SQLBuilder.baseSelectSql_eq (b : SQLBuilder) :
    b.baseSelectSql =
      finishToSql b.placeholder
        (SelectBuilder.mk b.placeholder b.fields (FromPart.part b.fromTable)
          (b.joins.map joinConfig.clause)
          (if b.whereConditions.length > 0 then [Sqlizer.And b.whereConditions] else [])
          [] "" "").toSqlRaw := by
  unfold SQLBuilder.baseSelectSql
  simp only [b.buildBaseSelect_eq]
  rfl

theorem String.append_empty_right (s : String) : s ++ "" = s := by
  apply String.ext
  simp [String.data_append]

/-- The raw text of `BuildSelect` when the base select renders: the base text
followed by the ORDER BY, LIMIT and OFFSET clauses, in this order. -/
theorem SQLBuilder.BuildSelect_raw_ok (b : SQLBuilder) (s : String) (a : List Value)
    (hraw : (SelectBuilder.mk b.placeholder b.fields (FromPart.part b.fromTable)
          (b.joins.map joinConfig.clause)
          (if b.whereConditions.length > 0 then [Sqlizer.And b.whereConditions] else [])
          [] "" "").toSqlRaw = (s, a, none)) :
    (SelectBuilder.mk b.placeholder b.fields (FromPart.part b.fromTable)
          (b.joins.map joinConfig.clause)
          (if b.whereConditions.length > 0 then [Sqlizer.And b.whereConditions] else [])
          (if b.sort.Field ≠ "" then [b.sortField ++ " " ++ b.sort.Order] else [])
          (if b.limit > 0 then Nat.repr b.limit else "")
          (if b.offset > 0 then Nat.repr b.offset else "")).toSqlRaw =
      (s ++ b.orderByClause b.sortField ++ b.limitClause ++ b.offsetClause, a, none) := by
  rw [SelectBuilder.toSqlRaw_tail, hraw]
  have hob : b.sortField ++ " " ++ b.sort.Order ≠ "" := String.append_blank_ne_empty _ _
  have hparts := appendToSql_parts ", " (b.sortField ++ " " ++ b.sort.Order) [] hob
    (by simp) (s ++ " ORDER BY ") a
  simp only [List.map_cons, List.map_nil, stringsJoin, String.append_assoc] at hparts
  by_cases hs : b.sort.Field = "" <;> by_cases hl : b.limit = 0 <;> by_cases ho : b.offset = 0 <;>
    simp [hs, hl, ho, hparts, SQLBuilder.orderByClause, SQLBuilder.limitClause,
      SQLBuilder.offsetClause, Nat.pos_of_ne_zero, Nat.repr_length_pos, String.append_assoc,
      String.append_empty_right]

/-- The raw text of `BuildSelect` when the base select fails: the same error. -/
theorem SQLBuilder.BuildSelect_raw_err (b : SQLBuilder) (s : String) (a : List Value) (e : String)
    (hraw : (SelectBuilder.mk b.placeholder b.fields (FromPart.part b.fromTable)
          (b.joins.map joinConfig.clause)
          (if b.whereConditions.length > 0 then [Sqlizer.And b.whereConditions] else [])
          [] "" "").toSqlRaw = (s, a, some e)) :
    (SelectBuilder.mk b.placeholder b.fields (FromPart.part b.fromTable)
          (b.joins.map joinConfig.clause)
          (if b.whereConditions.length > 0 then [Sqlizer.And b.whereConditions] else [])
          (if b.sort.Field ≠ "" then [b.sortField ++ " " ++ b.sort.Order] else [])
          (if b.limit > 0 then Nat.repr b.limit else "")
          (if b.offset > 0 then Nat.repr b.offset else "")).toSqlRaw =
      ("", [], some e) := by
  rw [SelectBuilder.toSqlRaw_tail, hraw]

theorem SQLBuilder.tail_NoPlaceholder (b : SQLBuilder)
    (h : NoPlaceholder b.sortField ∧ NoPlaceholder b.sort.Order) :
    NoPlaceholder (b.orderByClause b.sortField ++ b.limitClause ++ b.offsetClause) := by
  have h1 : NoPlaceholder (b.orderByClause b.sortField) := by
    unfold SQLBuilder.orderByClause
    split
    · exact ((NoPlaceholder.append (NoPlaceholder.append (by decide) h.1) (by decide)).append h.2)
    · decide
  have h2 : NoPlaceholder b.limitClause := by
    unfold SQLBuilder.limitClause
    split
    · exact NoPlaceholder.append (by decide) (NoPlaceholder.repr _)
    · decide
  have h3 : NoPlaceholder b.offsetClause := by
    unfold SQLBuilder.offsetClause
    split
    · exact NoPlaceholder.append (by decide) (NoPlaceholder.repr _)
    · decide
  exact (h1.append h2).append h3

/-- `BuildSelect` when the base select renders: the base select's SQL followed
by the three tail clauses, provided the tail holds no `?` or the style is
`Question`. -/
theorem SQLBuilder.BuildSelect_of_base_ok (b : SQLBuilder)
    (hq : b.placeholder = PlaceholderFormat.Question ∨
      (NoPlaceholder b.sortField ∧ NoPlaceholder b.sort.Order))
    (base : String) (args : List Value) (hbase : b.baseSelectSql = (base, args, none)) :
    b.BuildSelect =
      (base ++ b.orderByClause b.sortField ++ b.limitClause ++ b.offsetClause, args, none) := by
  rw [SQLBuilder.baseSelectSql_eq] at hbase
  rw [SQLBuilder.BuildSelect_eq]
  rcases hraw : (SelectBuilder.mk b.placeholder b.fields (FromPart.part b.fromTable)
        (b.joins.map joinConfig.clause)
        (if b.whereConditions.length > 0 then [Sqlizer.And b.whereConditions] else [])
        [] "" "").toSqlRaw with ⟨s, a, _ | e⟩
  · rw [hraw, finishToSql_ok] at hbase
    rw [b.BuildSelect_raw_ok s a hraw, finishToSql_ok]
    have hb1 : b.placeholder.ReplacePlaceholders s = base := congrArg Prod.fst hbase
    have hb2 : a = args := congrArg (fun r => r.2.1) hbase
    subst hb2
    rw [← hb1]
    rcases hq with hq | hq
    · rw [hq]
      rfl
    · have ht := b.tail_NoPlaceholder hq
      have := ReplacePlaceholders_append b.placeholder s _ ht
      simp only [String.append_assoc] at this ⊢
      rw [this]
  · rw [hraw, finishToSql_err] at hbase
    simp at hbase

/-- `BuildSelect` when the base select fails: the same error. -/
theorem SQLBuilder.BuildSelect_of_base_err (b : SQLBuilder) (s0 : String) (args : List Value)
    (e : String) (hbase : b.baseSelectSql = (s0, args, some e)) :
    b.BuildSelect = ("", [], some e) := by
  rw [SQLBuilder.baseSelectSql_eq] at hbase
  rw [SQLBuilder.BuildSelect_eq]
  rcases hraw : (SelectBuilder.mk b.placeholder b.fields (FromPart.part b.fromTable)
        (b.joins.map joinConfig.clause)
        (if b.whereConditions.length > 0 then [Sqlizer.And b.whereConditions] else [])
        [] "" "").toSqlRaw with ⟨s, a, _ | e2⟩
  · rw [hraw, finishToSql_ok] at hbase
    simp at hbase
  · rw [hraw, finishToSql_err] at hbase
    have he : e2 = e := by simpa using congrArg (fun r => r.2.2) hbase
    subst he
    rw [b.BuildSelect_raw_err s a e2 hraw, finishToSql_err]

/-! ### C6 -/

/-- C6 as amended, the tail clauses of `BuildSelect`.  Let the sort column be
the stored column, or its image in `sortMapping` when that map has one (no
method writes `sortMapping`, so for a builder made from `NewSQLBuilder` by
method calls it is the stored column), and let it and the stored direction hold
no `?`, or let the placeholder style be `Question`.  Then `BuildSelect`
succeeds exactly when the base select renders, and its SQL is the base select's
SQL followed by the ORDER BY clause, the LIMIT clause and the OFFSET clause in
this order, with the base select's bind values; the ORDER BY clause is
`" ORDER BY " + column + " " + direction` and is present exactly when the stored
sort column is not empty, the LIMIT clause is `" LIMIT n"` and is present
exactly when the limit `n` is not zero, the OFFSET clause is `" OFFSET m"` and is
present exactly when the offset `m` is not zero. -/
theorem BuildSelect_tail_clauses (EXPR_EQ : Op) (b : SQLBuilder)
    (hq : b.placeholder = PlaceholderFormat.Question ∨
      (NoPlaceholder b.sortField ∧ NoPlaceholder b.sort.Order)) :
    (∀ sql args, b.BuildSelect = (sql, args, none) →
      ∃ base, b.baseSelectSql = (base, args, none) ∧
        sql = base ++ b.orderByClause b.sortField ++ b.limitClause ++ b.offsetClause) ∧
    (∀ base args, b.baseSelectSql = (base, args, none) →
      b.BuildSelect =
        (base ++ b.orderByClause b.sortField ++ b.limitClause ++ b.offsetClause, args, none)) ∧
    (b.orderByClause b.sortField =
      if b.sort.Field ≠ "" then " ORDER BY " ++ b.sortField ++ " " ++ b.sort.Order else "") ∧
    (b.limitClause = if b.limit ≠ 0 then " LIMIT " ++ Nat.repr b.limit else "") ∧
    (b.offsetClause = if b.offset ≠ 0 then " OFFSET " ++ Nat.repr b.offset else "") ∧
    (b.orderByClause b.sortField ≠ "" ↔ b.sort.Field ≠ "") ∧
    (b.limitClause ≠ "" ↔ b.limit ≠ 0) ∧
    (b.offsetClause ≠ "" ↔ b.offset ≠ 0) ∧
    (GoMap.read b.sortMapping b.sort.Field = none → b.sortField = b.sort.Field) ∧
    (∀ cs : List Call,
      (Call.runAll EXPR_EQ cs NewSQLBuilder).sortField =
        (Call.runAll EXPR_EQ cs NewSQLBuilder).sort.Field) := by
  have hok := b.BuildSelect_of_base_ok hq
  have herr := b.BuildSelect_of_base_err
  refine ⟨?_, hok, rfl, rfl, rfl, ?_, ?_, ?_, ?_, ?_⟩
  · intro sql args h
    rcases hbase : b.baseSelectSql with ⟨s, a, _ | e⟩
    · rw [hok s a hbase] at h
      have h1 : s ++ b.orderByClause b.sortField ++ b.limitClause ++ b.offsetClause = sql :=
        congrArg Prod.fst h
      have h2 : a = args := congrArg (fun r => r.2.1) h
      subst h2
      exact ⟨s, rfl, h1.symm⟩
    · rw [herr s a e hbase] at h
      simp at h
  · unfold SQLBuilder.orderByClause
    split
    · simp only [String.append_assoc]
      constructor
      · intro _; assumption
      · intro _ h
        have hd := congrArg String.data h
        simp [String.data_append] at hd
    · simp_all
  · unfold SQLBuilder.limitClause
    split
    · constructor
      · intro _; assumption
      · intro _ h
        have hd := congrArg String.data h
        simp [String.data_append] at hd
    · simp_all
  · unfold SQLBuilder.offsetClause
    split
    · constructor
      · intro _; assumption
      · intro _ h
        have hd := congrArg String.data h
        simp [String.data_append] at hd
    · simp_all
  · intro h
    simp [SQLBuilder.sortField, h]
  · intro cs
    simp [SQLBuilder.sortField, Call.runAll_sortMapping, NewSQLBuilder, GoMap.read, GoMap.get]

/-- Witness of C6: the builder of the test `select with sort and pagination`. -/
theorem BuildSelect_tail_clauses_witness :
    sortedPagedBuilder.BuildSelect =
      ("SELECT id, name FROM users ORDER BY name ASC LIMIT 10 OFFSET 5", [], none) := by
  have h := (BuildSelect_tail_clauses "expr_eq" sortedPagedBuilder
    (Or.inr ⟨by decide, by decide⟩)).2.1 "SELECT id, name FROM users" [] rfl
  rw [h]
  rfl

/-- C6 as stated fails: `Sort("a?", "ASC")` under the dollar style.  `BuildSelect`
succeeds, the stored sort column is `a?`, and the SQL is the base select's SQL
followed by ` ORDER BY a$1 ASC LIMIT 7`, not by ` ORDER BY a? ASC LIMIT 7`: the
placeholder format numbers the `?` of the column. -/
theorem BuildSelect_tail_clauses_counterexample :
    questionSortBuilder.sort = { Field := "a?", Order := "ASC" } ∧
    questionSortBuilder.BuildSelect = ("SELECT id FROM t ORDER BY a$1 ASC LIMIT 7", [], none) ∧
    questionSortBuilder.baseSelectSql = ("SELECT id FROM t", [], none) ∧
    ¬ (∀ sql args, questionSortBuilder.BuildSelect = (sql, args, none) →
      ∃ base, questionSortBuilder.baseSelectSql = (base, args, none) ∧
        sql = base ++ questionSortBuilder.orderByClause questionSortBuilder.sort.Field ++
          questionSortBuilder.limitClause ++ questionSortBuilder.offsetClause) := by
  refine ⟨rfl, rfl, rfl, ?_⟩
  intro h
  obtain ⟨base, hb, hs⟩ := h "SELECT id FROM t ORDER BY a$1 ASC LIMIT 7" [] rfl
  have hb2 : base = "SELECT id FROM t" := (congrArg Prod.fst hb).symm
  subst hb2
  revert hs
  decide

/-! ### Helper lemmas: simple comparisons and numbered placeholders -/

/-- A simple comparison renders as `column operator ?` with its one bind
value. -/
theorem Sqlizer.ToSql_simple (p : Sqlizer) (h : p.IsSimple) :
    p.ToSql = (p.column ++ " " ++ p.operator ++ " ?", [p.value], none) := by
  cases p with
  | Expr _ _ => exact absurd h (by simp [Sqlizer.IsSimple])
  | And _ => exact absurd h (by simp [Sqlizer.IsSimple])
  | Or _ => exact absurd h (by simp [Sqlizer.IsSimple])
  | _ c v =>
    cases v with
    | nil => exact absurd h.2 (by simp [Value.isScalar])
    | list _ => exact absurd h.2 (by simp [Value.isScalar])
    | _ _ => rfl

theorem Sqlizer.column_NoPlaceholder (p : Sqlizer) (h : p.IsSimple) : NoPlaceholder p.column := by
  cases p with
  | Expr _ _ => exact absurd h (by simp [Sqlizer.IsSimple])
  | And _ => exact absurd h (by simp [Sqlizer.IsSimple])
  | Or _ => exact absurd h (by simp [Sqlizer.IsSimple])
  | _ c v => exact h.1

theorem Sqlizer.operator_NoPlaceholder (p : Sqlizer) : NoPlaceholder p.operator := by
  cases p <;> simp only [Sqlizer.operator] <;> decide

/-- The loop of `conj.join` over simple comparisons: every text, every bind
value, in order. -/
theorem conjParts_simple (ps : List Sqlizer) (h : ∀ p ∈ ps, p.IsSimple) :
    conjParts ps = (ps.map (fun p => p.column ++ " " ++ p.operator ++ " ?"),
      ps.map Sqlizer.value, none) := by
  induction ps with
  | nil => rfl
  | cons p ps ih =>
    have hp := Sqlizer.ToSql_simple p (h p (List.mem_cons_self _ _))
    have hps := ih (fun q hq => h q (List.mem_cons_of_mem _ hq))
    have hne : p.column ++ " " ++ p.operator ++ " ?" ≠ "" := by
      intro he
      have hd := congrArg String.data he
      simp [String.data_append] at hd
    simp only [conjParts, hp, hps, List.map_cons]
    simp [hne]

/-- The rewriting of a text without `?` followed by more text. -/
theorem replacePositionalPlaceholders_prepend (pfx : String) (u : List Char) (h : '?' ∉ u)
    (t : List Char) (i : Nat) :
    replacePositionalPlaceholders pfx (u ++ t) i = u ++ replacePositionalPlaceholders pfx t i := by
  induction u with
  | nil => rfl
  | cons c u ih =>
    have hc : c ≠ '?' := fun hc => h (hc ▸ List.mem_cons_self _ _)
    rw [List.cons_append, replacePositionalPlaceholders_cons_ne pfx c _ i hc,
      ih (fun hm => h (List.mem_cons_of_mem _ hm))]
    rfl

/-- The rewriting of one comparison `column operator ?` followed by a text
that does not start with `?`. -/
theorem replace_comparison (c o : String) (hc : NoPlaceholder c) (ho : NoPlaceholder o)
    (d : Char) (hd : d ≠ '?') (rest : List Char) (i : Nat) :
    replacePositionalPlaceholders "$" (c.data ++ ' ' :: (o.data ++ ' ' :: '?' :: d :: rest)) i =
      c.data ++ ' ' :: (o.data ++ ' ' :: '$' :: ((Nat.repr (i + 1)).data ++
        replacePositionalPlaceholders "$" (d :: rest) (i + 1))) := by
  have hu : '?' ∉ c.data ++ ' ' :: (o.data ++ [' ']) := by
    unfold NoPlaceholder at hc ho
    simp [hc, ho]
  have := replacePositionalPlaceholders_prepend "$" (c.data ++ ' ' :: (o.data ++ [' '])) hu
    ('?' :: d :: rest) i
  simp only [List.append_assoc, List.cons_append, List.nil_append] at this
  rw [this, replacePositionalPlaceholders_question_ne "$" d rest i hd]
  have e : ("$" : String).data = ['$'] := rfl
  simp [e]

/-- The rewriting of the comparisons joined by AND, closed by a parenthesis:
the `k`-th `?` becomes `$k`, counted on from the counter. -/
theorem replace_joined_simple (ps : List Sqlizer) (h : ∀ p ∈ ps, p.IsSimple) :
    ∀ (p : Sqlizer) (_ : p.IsSimple) (i : Nat),
      replacePositionalPlaceholders "$"
        ((stringsJoin " AND "
          ((p :: ps).map (fun p => p.column ++ " " ++ p.operator ++ " ?"))).data ++ [')']) i =
        (stringsJoin " AND " (numberedFrom (i + 1) (p :: ps))).data ++ [')'] := by
  have e1 : (" " : String).data = [' '] := rfl
  have e2 : (" ?" : String).data = [' ', '?'] := rfl
  have e3 : (" $" : String).data = [' ', '$'] := rfl
  have e4 : (" AND " : String).data = [' ', 'A', 'N', 'D', ' '] := rfl
  induction ps with
  | nil =>
    intro p hp i
    have hc := Sqlizer.column_NoPlaceholder p hp
    have ho := Sqlizer.operator_NoPlaceholder p
    simp only [List.map_cons, List.map_nil, stringsJoin, numberedFrom, String.data_append,
      e1, e2, e3, List.append_assoc, List.cons_append, List.nil_append]
    rw [replace_comparison p.column p.operator hc ho ')' (by decide) [] i]
    simp [replacePositionalPlaceholders]
  | cons q ps ih =>
    intro p hp i
    have hq := h q (List.mem_cons_self _ _)
    have hps := ih (fun r hr => h r (List.mem_cons_of_mem _ hr)) q hq (i + 1)
    have hc := Sqlizer.column_NoPlaceholder p hp
    have ho := Sqlizer.operator_NoPlaceholder p
    simp only [List.map_cons, stringsJoin_cons_cons, numberedFrom, String.data_append, e1, e2, e3,
      e4, List.append_assoc, List.cons_append, List.nil_append] at hps ⊢
    rw [replace_comparison p.column p.operator hc ho ' ' (by decide) _ i,
      replacePositionalPlaceholders_cons_ne "$" ' ' _ _ (by decide),
      replacePositionalPlaceholders_cons_ne "$" 'A' _ _ (by decide),
      replacePositionalPlaceholders_cons_ne "$" 'N' _ _ (by decide),
      replacePositionalPlaceholders_cons_ne "$" 'D' _ _ (by decide),
      replacePositionalPlaceholders_cons_ne "$" ' ' _ _ (by decide), hps]

/-! ### Helper lemmas: the base select over simple comparisons -/

theorem FromPart.appendTo_part (table sql : String) (args : List Value) :
    FromPart.appendTo (FromPart.part table) sql args = (sql ++ " FROM " ++ table, args, none) := by
  by_cases h : table = ""
  · subst h
    simp [FromPart.appendTo, appendToSql, appendToSqlFrom, partToSql, String.append_empty_right]
  · simp [FromPart.appendTo, appendToSql, appendToSqlFrom, partToSql, h]

theorem joinConfig.clause_ne_empty (j : joinConfig) : j.clause ≠ "" := by
  intro h
  have hd := congrArg String.data h
  simp [joinConfig.clause, String.data_append] at hd

theorem joinsText_eq (j : joinConfig) (js : List joinConfig) :
    joinsText (j :: js) = " " ++ stringsJoin " " ((j :: js).map joinConfig.clause) := by
  induction js generalizing j with
  | nil => simp [joinsText, stringsJoin, String.append_empty_right]
  | cons k js ih =>
    have := ih k
    simp only [joinsText, List.map_cons, stringsJoin_cons_cons] at this ⊢
    rw [this]
    simp [String.append_assoc]

/-- The join step of `toSqlRaw`: the join clauses, each after a blank. -/
theorem joins_step (js : List joinConfig) (sql : String) (args : List Value) :
    (if (js.map joinConfig.clause).length > 0 then
        appendToSql ((js.map joinConfig.clause).map partToSql) (sql ++ " ") " " args
      else (sql, args, none)) = (sql ++ joinsText js, args, none) := by
  cases js with
  | nil => simp [joinsText, String.append_empty_right]
  | cons j js =>
    have hne : ∀ q ∈ js.map joinConfig.clause, q ≠ "" := by
      intro q hq
      obtain ⟨k, _, rfl⟩ := List.mem_map.mp hq
      exact k.clause_ne_empty
    have h := appendToSql_parts " " j.clause (js.map joinConfig.clause) j.clause_ne_empty hne
      (sql ++ " ") args
    rw [joinsText_eq]
    simp only [List.map_cons, List.length_cons, gt_iff_lt, Nat.zero_lt_succ, if_true] at h ⊢
    rw [h]
    simp [String.append_assoc]

/-- The where step of `toSqlRaw` over simple comparisons: one parenthesised
group of the comparisons joined by AND, and their bind values. -/
theorem wheres_step (ps : List Sqlizer) (h : ∀ p ∈ ps, p.IsSimple) (sql : String) :
    (if (if ps.length > 0 then [Sqlizer.And ps] else []).length > 0 then
        appendToSql ((if ps.length > 0 then [Sqlizer.And ps] else []).map Sqlizer.ToSql)
          (sql ++ " WHERE ") " AND " []
      else (sql, [], none)) =
      (sql ++ (match ps with
        | [] => ""
        | _ :: _ => " WHERE (" ++
            stringsJoin " AND " (ps.map (fun p => p.column ++ " " ++ p.operator ++ " ?")) ++ ")"),
        ps.map Sqlizer.value, none) := by
  cases ps with
  | nil => simp [String.append_empty_right]
  | cons p ps =>
    have hand : (Sqlizer.And (p :: ps)).ToSql =
        ("(" ++ stringsJoin " AND "
          ((p :: ps).map (fun p => p.column ++ " " ++ p.operator ++ " ?")) ++ ")",
          (p :: ps).map Sqlizer.value, none) := by
      simp only [Sqlizer.ToSql, conjParts_simple (p :: ps) h]
      simp [conjFinish]
    have hne : "(" ++ stringsJoin " AND "
          ((p :: ps).map (fun p => p.column ++ " " ++ p.operator ++ " ?")) ++ ")" ≠ "" := by
      intro he
      have hd := congrArg String.data he
      simp [String.data_append] at hd
    simp only [List.length_cons, gt_iff_lt, Nat.zero_lt_succ, if_true, List.map_cons,
      List.map_nil, hand, appendToSql, appendToSqlFrom, List.length_nil, Nat.lt_irrefl, if_false,
      List.nil_append]
    have e : ∀ x : String, " WHERE " ++ ("(" ++ x) = " WHERE (" ++ x := by
      intro x
      apply String.ext
      simp [String.data_append]
    simp only [List.map_cons, String.append_assoc] at hne
    simp [hne, String.append_assoc, e]

theorem stringsJoin_NoPlaceholder (sep : String) (hsep : NoPlaceholder sep) (xs : List String)
    (h : ∀ x ∈ xs, NoPlaceholder x) : NoPlaceholder (stringsJoin sep xs) := by
  induction xs with
  | nil => show NoPlaceholder ""; decide
  | cons a xs ih =>
    cases xs with
    | nil => simpa [stringsJoin] using h a (List.mem_cons_self _ _)
    | cons b rest =>
      rw [stringsJoin_cons_cons]
      exact ((h a (List.mem_cons_self _ _)).append hsep).append
        (ih (fun x hx => h x (List.mem_cons_of_mem _ hx)))

theorem joinsText_NoPlaceholder (js : List joinConfig) (h : ∀ j ∈ js, NoPlaceholder j.clause) :
    NoPlaceholder (joinsText js) := by
  induction js with
  | nil => decide
  | cons j js ih =>
    simp only [joinsText]
    exact (NoPlaceholder.append (NoPlaceholder.append (by decide) (h j (List.mem_cons_self _ _)))
      (ih (fun k hk => h k (List.mem_cons_of_mem _ hk))))

/-- The dollar style over a head without `?` followed by the WHERE clause of
simple comparisons: the head stays, the comparisons are numbered from 1. -/
theorem Dollar_head_where (head : String) (hh : NoPlaceholder head) (ps : List Sqlizer)
    (h : ∀ p ∈ ps, p.IsSimple) :
    PlaceholderFormat.Dollar.ReplacePlaceholders
      (head ++ (match ps with
        | [] => ""
        | _ :: _ => " WHERE (" ++
            stringsJoin " AND " (ps.map (fun p => p.column ++ " " ++ p.operator ++ " ?")) ++ ")"))
      = head ++ whereClause ps := by
  cases ps with
  | nil =>
    simp only [whereClause, String.append_empty_right, PlaceholderFormat.ReplacePlaceholders]
    rw [replacePositionalPlaceholders_no_question "$" head.data 0 hh]
  | cons p ps =>
    have hp := h p (List.mem_cons_self _ _)
    have hps : ∀ q ∈ ps, q.IsSimple := fun q hq => h q (List.mem_cons_of_mem _ hq)
    have hj := replace_joined_simple ps hps p hp 0
    have hu : '?' ∉ head.data ++ (" WHERE (" : String).data := by
      unfold NoPlaceholder at hh
      simp [hh]
    have := replacePositionalPlaceholders_prepend "$" (head.data ++ (" WHERE (" : String).data) hu
      ((stringsJoin " AND "
        ((p :: ps).map (fun p => p.column ++ " " ++ p.operator ++ " ?"))).data ++ [')']) 0
    apply String.ext
    have e : (")" : String).data = [')'] := rfl
    simp only [whereClause, PlaceholderFormat.ReplacePlaceholders, String.data_append, e,
      List.append_assoc] at this ⊢
    rw [this, hj]

/-- The raw text of a base select with non-empty column names over simple
comparisons. -/
theorem toSqlRaw_simple (f : PlaceholderFormat) (f0 : String) (fs : List String) (table : String)
    (js : List joinConfig) (ps : List Sqlizer) (h0 : f0 ≠ "") (hfs : ∀ x ∈ fs, x ≠ "")
    (hp : ∀ p ∈ ps, p.IsSimple) :
    (SelectBuilder.mk f (f0 :: fs) (FromPart.part table) (js.map joinConfig.clause)
        (if ps.length > 0 then [Sqlizer.And ps] else []) [] "" "").toSqlRaw =
      ("SELECT " ++ stringsJoin ", " (f0 :: fs) ++ " FROM " ++ table ++ joinsText js ++
        (match ps with
        | [] => ""
        | _ :: _ => " WHERE (" ++
            stringsJoin " AND " (ps.map (fun p => p.column ++ " " ++ p.operator ++ " ?")) ++ ")"),
        ps.map Sqlizer.value, none) := by
  simp only [SelectBuilder.toSqlRaw, List.length_cons, Nat.succ_ne_zero, if_false,
    appendToSql_parts ", " f0 fs h0 hfs "SELECT " [], FromPart.appendTo_part, joins_step,
    wheres_step ps hp]
  simp

/-- The base select of a builder with plain names over simple comparisons,
rendered in the dollar style. -/
theorem SQLBuilder.baseSelectSql_simple (b : SQLBuilder) (hf : b.fields ≠ [])
    (hfields : ∀ f ∈ b.fields, f ≠ "" ∧ NoPlaceholder f) (htable : NoPlaceholder b.fromTable)
    (hjoins : ∀ j ∈ b.joins, NoPlaceholder j.clause)
    (hd : b.placeholder = PlaceholderFormat.Dollar)
    (hp : ∀ p ∈ b.whereConditions, p.IsSimple) :
    b.baseSelectSql =
      ("SELECT " ++ stringsJoin ", " b.fields ++ " FROM " ++ b.fromTable ++ joinsText b.joins ++
        whereClause b.whereConditions, b.whereConditions.map Sqlizer.value, none) := by
  rw [SQLBuilder.baseSelectSql_eq]
  obtain ⟨f0, fs, hfe⟩ := List.exists_cons_of_ne_nil hf
  have h0 : f0 ≠ "" := (hfields f0 (by rw [hfe]; exact List.mem_cons_self _ _)).1
  have hfs : ∀ x ∈ fs, x ≠ "" := fun x hx =>
    (hfields x (by rw [hfe]; exact List.mem_cons_of_mem _ hx)).1
  have hhead : NoPlaceholder
      ("SELECT " ++ stringsJoin ", " b.fields ++ " FROM " ++ b.fromTable ++ joinsText b.joins) :=
    ((((NoPlaceholder.append (by decide)
      (stringsJoin_NoPlaceholder ", " (by decide) b.fields (fun x hx => (hfields x hx).2))).append
      (by decide)).append htable).append (joinsText_NoPlaceholder b.joins hjoins))
  rw [hd, hfe, toSqlRaw_simple _ f0 fs _ _ _ h0 hfs hp, finishToSql_ok, ← hfe,
    Dollar_head_where _ hhead _ hp]

/-! ### C5 -/

/-- C5 as amended, deterministic placeholder numbering.  Take a builder in the
dollar style with a non-empty field list whose field names are non-empty, whose
field names, table, join clauses and sort column and direction hold no `?`, and
whose predicates, in accumulation order, are simple comparisons (one of the
eight one-key comparisons on a column without `?`, with one scalar bind value).
Then `BuildSelect` succeeds; its SQL is `SELECT`, the fields joined by `, `,
`FROM`, the table, the join clauses, then, when there are predicates, `WHERE (`
the comparisons joined by ` AND ` in accumulation order `)`, the `k`-th
comparison reading `column operator $k`, then the tail clauses; and the bind
list is the comparisons' bind values in accumulation order. -/
theorem BuildSelect_numbered (b : SQLBuilder) (hf : b.fields ≠ [])
    (hfields : ∀ f ∈ b.fields, f ≠ "" ∧ NoPlaceholder f) (htable : NoPlaceholder b.fromTable)
    (hjoins : ∀ j ∈ b.joins, NoPlaceholder j.clause)
    (hd : b.placeholder = PlaceholderFormat.Dollar)
    (hp : ∀ p ∈ b.whereConditions, p.IsSimple)
    (hsort : NoPlaceholder b.sortField ∧ NoPlaceholder b.sort.Order) :
    b.BuildSelect =
      ("SELECT " ++ stringsJoin ", " b.fields ++ " FROM " ++ b.fromTable ++ joinsText b.joins ++
        whereClause b.whereConditions ++
        b.orderByClause b.sortField ++ b.limitClause ++ b.offsetClause,
        b.whereConditions.map Sqlizer.value, none) ∧
    whereClause b.whereConditions =
      (match b.whereConditions with
      | [] => ""
      | _ :: _ => " WHERE (" ++ stringsJoin " AND " (numberedFrom 1 b.whereConditions) ++ ")") ∧
    (∀ k p, b.whereConditions[k]? = some p →
      (numberedFrom 1 b.whereConditions)[k]? =
        some (p.column ++ " " ++ p.operator ++ " $" ++ Nat.repr (k + 1))) := by
  refine ⟨?_, rfl, ?_⟩
  · exact b.BuildSelect_of_base_ok (Or.inr hsort) _ _
      (b.baseSelectSql_simple hf hfields htable hjoins hd hp)
  · have hnum : ∀ (ps : List Sqlizer) (i k : Nat) (p : Sqlizer), ps[k]? = some p →
        (numberedFrom i ps)[k]? = some (p.column ++ " " ++ p.operator ++ " $" ++ Nat.repr (k + i)) := by
      intro ps
      induction ps with
      | nil => intro i k p h; simp at h
      | cons q ps ih =>
        intro i k p h
        cases k with
        | zero =>
          simp only [List.getElem?_cons_zero, Option.some.injEq] at h
          subst h
          simp [numberedFrom]
        | succ k =>
          simp only [List.getElem?_cons_succ] at h
          have := ih (i + 1) k p h
          simp only [numberedFrom, List.getElem?_cons_succ, this]
          have e : k + (i + 1) = k + 1 + i := by omega
          rw [e]
    intro k p h
    exact hnum _ 1 k p h

/-- Witness of C5: fields `id`, `name`, table `users`, `Eq("active", true)`. -/
theorem BuildSelect_numbered_witness :
    activeUsersBuilder.BuildSelect =
      ("SELECT id, name FROM users WHERE (active = $1) LIMIT 7", [Value.bool true], none) := by
  have h := (BuildSelect_numbered activeUsersBuilder (by decide) (by decide) (by decide)
    (by decide) rfl
    (by decide)
    ⟨by decide, by decide⟩).1
  rw [h]
  rfl

/-- C5 as stated fails: a field name that holds a `?`, or an empty field name.
The first builder has a non-empty field list, the dollar style and one simple
comparison, and `BuildSelect` succeeds, but the `?` of the field name is
numbered too: the SQL does not start with `SELECT id? FROM t`, and the
comparison, the first predicate, reads `active = $2`.  The second builder has
the fields `id` and the empty string: squirrel skips the empty column, and the
SQL does not start with the fields joined by `, `. -/
theorem BuildSelect_numbered_counterexample :
    questionFieldBuilder.fields = ["id?"] ∧
    questionFieldBuilder.placeholder = PlaceholderFormat.Dollar ∧
    questionFieldBuilder.whereConditions = [Sqlizer.Eq "active" (Value.bool true)] ∧
    (Sqlizer.Eq "active" (Value.bool true)).IsSimple ∧
    questionFieldBuilder.BuildSelect =
      ("SELECT id$1 FROM t WHERE (active = $2) LIMIT 7", [Value.bool true], none) ∧
    ¬ (∃ rest, questionFieldBuilder.BuildSelect.sql = "SELECT id? FROM t" ++ rest) ∧
    questionFieldBuilder.BuildSelect.sql ≠
      "SELECT " ++ stringsJoin ", " questionFieldBuilder.fields ++ " FROM " ++
        questionFieldBuilder.fromTable ++ joinsText questionFieldBuilder.joins ++
        whereClause questionFieldBuilder.whereConditions ++
        questionFieldBuilder.orderByClause questionFieldBuilder.sortField ++
        questionFieldBuilder.limitClause ++ questionFieldBuilder.offsetClause ∧
    emptyFieldBuilder.fields = ["id", ""] ∧
    emptyFieldBuilder.BuildSelect =
      ("SELECT id FROM t WHERE (active = $1) LIMIT 7", [Value.bool true], none) ∧
    ¬ (∃ rest, emptyFieldBuilder.BuildSelect.sql =
      "SELECT " ++ stringsJoin ", " emptyFieldBuilder.fields ++ " FROM " ++
        emptyFieldBuilder.fromTable ++ rest) := by
  refine ⟨rfl, rfl, rfl, ⟨by decide, rfl⟩, rfl, ?_, by decide, rfl, rfl, ?_⟩
  · rintro ⟨rest, h⟩
    have h2 : questionFieldBuilder.BuildSelect.sql =
        "SELECT id$1 FROM t WHERE (active = $2) LIMIT 7" := rfl
    rw [h2] at h
    have h3 := congrArg (fun s => s.data.take 10) h
    simp [String.data_append] at h3
  · rintro ⟨rest, h⟩
    have h2 : emptyFieldBuilder.BuildSelect.sql =
        "SELECT id FROM t WHERE (active = $1) LIMIT 7" := rfl
    have h4 : "SELECT " ++ stringsJoin ", " emptyFieldBuilder.fields ++ " FROM " ++
        emptyFieldBuilder.fromTable = "SELECT id,  FROM t" := by decide
    rw [h2, h4] at h
    have h3 := congrArg (fun s => s.data.take 10) h
    simp [String.data_append] at h3

/-! ### Helper lemmas: the filter dispatch -/

/-- `ApplyFilter` on a registered alias with a non-empty value is the table
`filterPredicate` read at the rule's operator, on the column the sugar method
resolves the rule's column to. -/
theorem SQLBuilder.ApplyFilter_eq (b : SQLBuilder) (a v : String) (cfg : FieldConfig)
    (hv : v ≠ "") (h : GoMap.read b.fieldConfigs a = some cfg) :
    b.ApplyFilter a v =
      match filterPredicate cfg.Operator (b.mapField cfg.DBField) v with
      | some p => { b with whereConditions := b.whereConditions ++ [p] }
      | none => b := by
  unfold SQLBuilder.ApplyFilter filterPredicate
  simp only [hv, if_false, h]
  split_ifs <;>
    simp [SQLBuilder.Eq, SQLBuilder.NotEq, SQLBuilder.Like, SQLBuilder.ILike, SQLBuilder.Gt,
      SQLBuilder.Lt, SQLBuilder.Gte, SQLBuilder.Lte, hv]

theorem filterPredicate_of_mem (op : Op) (col v : String) (h : op ∈ comparisonOps) :
    ∃ p, filterPredicate op col v = some p ∧ p.column = col := by
  simp only [comparisonOps, List.mem_cons, List.mem_singleton, List.not_mem_nil, or_false] at h
  unfold filterPredicate
  rcases h with h | h | h | h | h | h | h | h <;> subst h <;>
    simp [Op.EQ, Op.NOT_EQ, Op.LIKE, Op.ILIKE, Op.GT, Op.LT, Op.GTE, Op.LTE, Sqlizer.column]

theorem filterPredicate_of_not_mem (op : Op) (col v : String) (h : op ∉ comparisonOps) :
    filterPredicate op col v = none := by
  simp only [comparisonOps, List.mem_cons, List.mem_singleton, List.not_mem_nil, or_false,
    not_or] at h
  obtain ⟨h1, h2, h3, h4, h5, h6, h7, h8⟩ := h
  simp [filterPredicate, h1, h2, h3, h4, h5, h6, h7, h8]

/-- What `ApplyFilter` does with a rule of one of the eight operators: one new
predicate, on the column that `mapField` makes of the rule's column. -/
theorem SQLBuilder.ApplyFilter_column (b : SQLBuilder) (a v : String) (cfg : FieldConfig)
    (hv : v ≠ "") (h : GoMap.read b.fieldConfigs a = some cfg)
    (hop : cfg.Operator ∈ comparisonOps) :
    ∃ p, b.ApplyFilter a v = { b with whereConditions := b.whereConditions ++ [p] } ∧
      p.column = b.mapField cfg.DBField := by
  obtain ⟨p, hp, hc⟩ := filterPredicate_of_mem cfg.Operator (b.mapField cfg.DBField) v hop
  refine ⟨p, ?_, hc⟩
  rw [b.ApplyFilter_eq a v cfg hv h, hp]

/-! ### C11 -/

/-- C11, evaluated.  `name` is registered to the column `status` and `status`
to the column `users.status`.  `ApplyFilter("name", "x")` hands the registered
column `status` to `Eq`, and `Eq` resolves it once more through `mapField`: the
one new predicate is on `users.status`, not on `status`, the column registered
for `name`. -/
theorem ApplyFilter_resolves_twice :
    GoMap.read aliasChainBuilder.fieldConfigs "name"
      = some { DBField := "status", Operator := Op.EQ } ∧
    aliasChainBuilder.whereConditions = [] ∧
    (aliasChainBuilder.ApplyFilter "name" "x").whereConditions
      = [Sqlizer.Eq "users.status" (Value.str "x")] ∧
    (aliasChainBuilder.ApplyFilter "name" "x").whereConditions.map Sqlizer.column
      ≠ ["status"] := by
  refine ⟨rfl, rfl, rfl, by decide⟩

/-! ### C12 -/

/-- C12 as amended.  For an alias registered through `WithFieldConfig(a, c, op)`
and a non-empty value `v`: when `op` is one of the eight operators `EQ`,
`NOT_EQ`, `LIKE`, `ILIKE`, `GT`, `LT`, `GTE`, `LTE`, `ApplyFilter(a, v)` appends
exactly one predicate to the predicate list and changes nothing else; for every
other operator value it returns the builder unchanged. -/
theorem ApplyFilter_registered (b : SQLBuilder) (a c v : String) (op : Op) (hv : v ≠ "") :
    (op ∈ comparisonOps →
      ∃ p, (b.WithFieldConfig a c op).ApplyFilter a v =
        { b.WithFieldConfig a c op with
          whereConditions := (b.WithFieldConfig a c op).whereConditions ++ [p] }) ∧
    (op ∉ comparisonOps →
      (b.WithFieldConfig a c op).ApplyFilter a v = b.WithFieldConfig a c op) := by
  have h := b.read_WithFieldConfig_self a c op
  constructor
  · intro hop
    obtain ⟨p, hp, _⟩ := (b.WithFieldConfig a c op).ApplyFilter_column a v _ hv h hop
    exact ⟨p, hp⟩
  · intro hop
    rw [(b.WithFieldConfig a c op).ApplyFilter_eq a v _ hv h,
      filterPredicate_of_not_mem op _ v hop]

/-- Witness of C12: the rule `(users.age, GT)` adds one predicate, the rule
`(users.age, between)` none. -/
theorem ApplyFilter_registered_witness :
    ((NewSQLBuilder.WithFieldConfig "age" "users.age" Op.GT).ApplyFilter "age" "18"
      ).whereConditions.length = 1 ∧
    (NewSQLBuilder.WithFieldConfig "age" "users.age" "between").ApplyFilter "age" "18"
      = NewSQLBuilder.WithFieldConfig "age" "users.age" "between" := by
  obtain ⟨p, hp⟩ := (ApplyFilter_registered NewSQLBuilder "age" "users.age" "18" Op.GT
    (by decide)).1 (by decide)
  refine ⟨?_, (ApplyFilter_registered NewSQLBuilder "age" "users.age" "18" "between"
    (by decide)).2 (by decide)⟩
  rw [hp]
  rfl

/-- C12 as stated fails: an operator value outside the eight cases of the
`switch`.  The alias `age` is registered through
`WithFieldConfig("age", "users.age", "between")`, the value `18` is not empty,
and `ApplyFilter("age", "18")` appends nothing. -/
theorem ApplyFilter_registered_counterexample :
    unknownOpBuilder = NewSQLBuilder.WithFieldConfig "age" "users.age" "between" ∧
    GoMap.read unknownOpBuilder.fieldConfigs "age"
      = some { DBField := "users.age", Operator := "between" } ∧
    (unknownOpBuilder.ApplyFilter "age" "18").whereConditions = unknownOpBuilder.whereConditions ∧
    (unknownOpBuilder.ApplyFilter "age" "18").whereConditions.length
      ≠ unknownOpBuilder.whereConditions.length + 1 := by
  refine ⟨rfl, rfl, rfl, by decide⟩

/-! ### C13 -/

/-- C13, the silent skip: `ApplyFilter(a, v)` and `ApplyExpr(a, v, args...)`
return the builder they were called on, every field unchanged, when `v` is the
empty string and when `a` has no entry in the field configuration.  Both return
the builder only: there is no error to signal. -/
theorem ApplyFilter_ApplyExpr_skip (EXPR_EQ : Op) (b : SQLBuilder) (a v : String)
    (args : List Value) :
    b.ApplyFilter a "" = b ∧ b.ApplyExpr EXPR_EQ a "" args = b ∧
    (GoMap.read b.fieldConfigs a = none →
      b.ApplyFilter a v = b ∧ b.ApplyExpr EXPR_EQ a v args = b) := by
  refine ⟨by simp [SQLBuilder.ApplyFilter], by simp [SQLBuilder.ApplyExpr], ?_⟩
  intro h
  constructor
  · unfold SQLBuilder.ApplyFilter
    split
    · rfl
    · simp [h]
  · unfold SQLBuilder.ApplyExpr
    split
    · rfl
    · simp [h]

/-- Witness of C13: `unknown` is not registered on `sampleBuilder`. -/
theorem ApplyFilter_ApplyExpr_skip_witness :
    sampleBuilder.ApplyFilter "unknown" "value" = sampleBuilder ∧
    sampleBuilder.ApplyExpr "expr_eq" "unknown" "value" [Value.int 1] = sampleBuilder :=
  (ApplyFilter_ApplyExpr_skip "expr_eq" sampleBuilder "unknown" "value" [Value.int 1]).2.2 rfl

/-! ### C14 -/

/-- C14, `ApplyExpr` on a raw-expression field: when the alias `a` is
registered with the column `c` and the operator `EXPR_EQ` and the template `t`
is not empty, `ApplyExpr(a, t, xs...)` appends exactly one predicate and changes
nothing else; the predicate renders as `c + " = " + t`, with `c` and `t` taken
literally, and its bind values are `xs` in the given order. -/
theorem ApplyExpr_raw (EXPR_EQ : Op) (b : SQLBuilder) (a c t : String) (xs : List Value)
    (ht : t ≠ "")
    (h : GoMap.read b.fieldConfigs a = some { DBField := c, Operator := EXPR_EQ }) :
    b.ApplyExpr EXPR_EQ a t xs =
      { b with whereConditions := b.whereConditions ++ [Sqlizer.Expr (c ++ " = " ++ t) xs] } ∧
    (Sqlizer.Expr (c ++ " = " ++ t) xs).ToSql = (c ++ " = " ++ t, xs, none) := by
  refine ⟨?_, rfl⟩
  unfold SQLBuilder.ApplyExpr
  simp only [ht, if_false, h, ne_eq, not_true_eq_false]
  unfold SQLBuilder.ExprEq
  cases xs with
  | nil => simp
  | cons x xs => simp

/-- Witness of C14: the test `apply expression`, `snils` registered to
`toINT(snils)` with the raw-expression operator. -/
theorem ApplyExpr_raw_witness :
    (((NewSQLBuilder.WithFrom "users").WithFieldConfig "snils" "toINT(snils)" "expr_eq").ApplyExpr
      "expr_eq" "snils" "toINT(?)" [Value.int 10]).whereConditions.map Sqlizer.ToSql
      = [("toINT(snils) = toINT(?)", [Value.int 10], none)] := by
  have h := (ApplyExpr_raw "expr_eq"
    ((NewSQLBuilder.WithFrom "users").WithFieldConfig "snils" "toINT(snils)" "expr_eq")
    "snils" "toINT(snils)" "toINT(?)" [Value.int 10] (by decide) rfl).1
  rw [h]
  rfl

/-! ### C15 -/

/-- C15, the fallback of `ApplyExpr`: when the alias `a` is registered with an
operator other than `EXPR_EQ`, `ApplyExpr(a, v, xs...)` returns exactly the
builder that `ApplyFilter(a, v)` returns, for every value `v`, the empty one
included, and every argument list `xs`. -/
theorem ApplyExpr_fallback (EXPR_EQ : Op) (b : SQLBuilder) (a v : String) (xs : List Value)
    (cfg : FieldConfig) (h : GoMap.read b.fieldConfigs a = some cfg)
    (hop : cfg.Operator ≠ EXPR_EQ) :
    b.ApplyExpr EXPR_EQ a v xs = b.ApplyFilter a v := by
  unfold SQLBuilder.ApplyExpr
  split
  · rename_i hv
    simp [SQLBuilder.ApplyFilter, hv]
  · simp [h, hop]

/-- Witness of C15: `name` is registered on `sampleBuilder` with `ILIKE`. -/
theorem ApplyExpr_fallback_witness :
    sampleBuilder.ApplyExpr "expr_eq" "name" "jo" [Value.int 10]
      = sampleBuilder.ApplyFilter "name" "jo" ∧
    (sampleBuilder.ApplyFilter "name" "jo").whereConditions
      = [Sqlizer.Eq "id" (Value.int 1), Sqlizer.ILike "u.name" (Value.str "%jo%")] :=
  ⟨ApplyExpr_fallback "expr_eq" sampleBuilder "name" "jo" [Value.int 10]
    { DBField := "u.name", Operator := Op.ILIKE } rfl (by decide), rfl⟩

/-! ### C16 -/

/-- C16, evaluated: the test `apply expression with no EXPR_EQ` on a fresh
builder.  `snils` is registered to `toINT(snils)` with `EQ`; `ApplyExpr("snils",
"toINT(?)", 10)` falls back to `ApplyFilter("snils", "toINT(?)")`, which drops
the argument `10` and binds the template itself: the one new predicate renders
as `toINT(snils) = ?` with the bind values `["toINT(?)"]`, not `[10]`.  Whatever
the value of `EXPR_EQ`, the bind values are not `[10]` under that text. -/
theorem ApplyExpr_on_EQ_binds_template (EXPR_EQ : Op) :
    GoMap.read snilsEqBuilder.fieldConfigs "snils"
      = some { DBField := "toINT(snils)", Operator := Op.EQ } ∧
    (snilsEqBuilder.ApplyExpr "expr_eq" "snils" "toINT(?)" [Value.int 10]).whereConditions
      = [Sqlizer.Eq "toINT(snils)" (Value.str "toINT(?)")] ∧
    (snilsEqBuilder.ApplyExpr "expr_eq" "snils" "toINT(?)"
        [Value.int 10]).whereConditions.map Sqlizer.ToSql
      = [("toINT(snils) = ?", [Value.str "toINT(?)"], none)] ∧
    (snilsEqBuilder.ApplyExpr EXPR_EQ "snils" "toINT(?)"
        [Value.int 10]).whereConditions.map Sqlizer.ToSql
      ≠ [("toINT(snils) = ?", [Value.int 10], none)] := by
  refine ⟨rfl, rfl, rfl, ?_⟩
  by_cases h : Op.EQ = EXPR_EQ
  · subst h
    intro hc
    have hs := congrArg (List.map Prod.fst) hc
    revert hs
    decide
  · have hf := ApplyExpr_fallback EXPR_EQ snilsEqBuilder "snils" "toINT(?)" [Value.int 10]
      { DBField := "toINT(snils)", Operator := Op.EQ } rfl h
    rw [hf]
    intro hc
    have h1 : (snilsEqBuilder.ApplyFilter "snils" "toINT(?)").whereConditions.map Sqlizer.ToSql
        = [("toINT(snils) = ?", [Value.str "toINT(?)"], none)] := rfl
    rw [h1] at hc
    simp at hc

/-! ### C17 -/

/-- C17, the limit sentinel law: `Limit(0)` returns the builder unchanged, so
its limit keeps its value; `Limit(n)` for `n > 0` sets the limit to `n` whatever
it was and changes no other field; `Limit(10)` then `Limit(0)` leaves the limit
at 10, `Limit(10)` then `Limit(20)` leaves it at 20. -/
theorem Limit_sentinel (b : SQLBuilder) (n : Nat) :
    b.Limit 0 = b ∧
    (n > 0 → b.Limit n = { b with limit := n }) ∧
    ((b.Limit 10).Limit 0).limit = 10 ∧
    ((b.Limit 10).Limit 20).limit = 20 := by
  refine ⟨rfl, ?_, rfl, rfl⟩
  intro hn
  have h : n ≠ 0 := Nat.pos_iff_ne_zero.mp hn
  simp [SQLBuilder.Limit, h]

/-- Witness of C17: `Limit(20)` on a builder whose limit is 10. -/
theorem Limit_sentinel_witness :
    limitedBuilder.Limit 20 = { limitedBuilder with limit := 20 } ∧
    (limitedBuilder.Limit 20).limit = 20 :=
  ⟨(Limit_sentinel limitedBuilder 20).2.1 (by decide),
    congrArg SQLBuilder.limit ((Limit_sentinel limitedBuilder 20).2.1 (by decide))⟩

/-! ### C18 -/

/-- C18 as amended.  On a builder whose limit is not zero, `Limit(n)` and
`Offset(m)` leave the limit nonzero for all `n` and `m`, zero included;
`Page(p, s)` sets the limit to `s`, so after `Page` the limit is nonzero exactly
when `s` is; `Reset` sets it to zero. -/
theorem limit_after_setters (b : SQLBuilder) (n m p s : Nat) (h : b.limit ≠ 0) :
    (b.Limit n).limit ≠ 0 ∧ (b.Offset m).limit ≠ 0 ∧
    (b.Offset m).limit = b.limit ∧ (b.Limit 0).limit = b.limit ∧
    (b.Page p s).limit = s ∧ ((b.Page p s).limit ≠ 0 ↔ s ≠ 0) ∧
    b.Reset.limit = 0 := by
  refine ⟨?_, h, rfl, rfl, rfl, Iff.rfl, rfl⟩
  unfold SQLBuilder.Limit
  split
  · exact h
  · assumption

/-- Witness of C18: the limit 10 survives `Limit(0)` and `Offset(0)`, and
`Page(3, 20)` makes it 20. -/
theorem limit_after_setters_witness :
    (limitedBuilder.Limit 0).limit ≠ 0 ∧ (limitedBuilder.Offset 0).limit ≠ 0 ∧
    (limitedBuilder.Page 3 20).limit = 20 :=
  ⟨(limit_after_setters limitedBuilder 0 0 3 20 (by decide)).1,
    (limit_after_setters limitedBuilder 0 0 3 20 (by decide)).2.1,
    (limit_after_setters limitedBuilder 0 0 3 20 (by decide)).2.2.2.2.1⟩

/-- C18 as stated fails: `Page(p, 0)`.  The builder's limit is 10; `Page(3, 0)`
assigns the page size to the limit, and the limit is 0 afterwards; `BuildSelect`
then renders no LIMIT clause. -/
theorem limit_after_setters_counterexample :
    limitedBuilder.limit = 10 ∧ (limitedBuilder.Page 3 0).limit = 0 ∧
    ¬ ((limitedBuilder.Page 3 0).limit ≠ 0) ∧
    limitedBuilder.BuildSelect = ("SELECT id FROM t LIMIT 10", [], none) ∧
    (limitedBuilder.Page 3 0).BuildSelect = ("SELECT id FROM t", [], none) := by
  refine ⟨rfl, rfl, by decide, rfl, rfl⟩

/-! ### C19 -/

/-- C19 as amended, the page law: for unsigned 64-bit `p` and `s`, `Page(p, s)`
sets the limit to `s` and the offset to `(max(p, 1) - 1) * s` reduced modulo
`2 ^ 64`, and changes no other field; the offset is the exact product whenever
the product is below `2 ^ 64`; `Page(0, s)` yields the same builder as
`Page(1, s)`; `Page(3, 20)` gives limit 20 and offset 40, `Page(0, 15)` gives
limit 15 and offset 0. -/
theorem Page_law (b : SQLBuilder) (p s : Nat) (hp : p < 2 ^ 64) (hs : s < 2 ^ 64) :
    b.Page p s = { b with limit := s, offset := ((max p 1 - 1) * s) % 2 ^ 64 } ∧
    (b.Page p s).limit < 2 ^ 64 ∧ (b.Page p s).offset < 2 ^ 64 ∧
    (max p 1 - 1 < 2 ^ 64) ∧
    ((max p 1 - 1) * s < 2 ^ 64 → (b.Page p s).offset = (max p 1 - 1) * s) ∧
    b.Page 0 s = b.Page 1 s ∧
    ((b.Page 3 20).limit = 20 ∧ (b.Page 3 20).offset = 40) ∧
    ((b.Page 0 15).limit = 15 ∧ (b.Page 0 15).offset = 0) := by
  have hpage : (if p < 1 then 1 else p) = max p 1 := by
    split
    · omega
    · omega
  have heq : b.Page p s = { b with limit := s, offset := ((max p 1 - 1) * s) % 2 ^ 64 } := by
    simp only [SQLBuilder.Page, hpage]
  refine ⟨heq, ?_, ?_, ?_, ?_, ?_, ⟨rfl, rfl⟩, ⟨rfl, rfl⟩⟩
  · rw [heq]
    exact hs
  · rw [heq]
    exact Nat.mod_lt _ (by decide)
  · omega
  · intro hlt
    rw [heq]
    exact Nat.mod_eq_of_lt hlt
  · simp [SQLBuilder.Page]

/-- Witness of C19: page 3 of size 20. -/
theorem Page_law_witness :
    (limitedBuilder.Page 3 20).offset = 40 ∧ (limitedBuilder.Page 3 20).limit = 20 := by
  have h := Page_law limitedBuilder 3 20 (by decide) (by decide)
  exact ⟨h.2.2.2.2.1 (by decide), congrArg SQLBuilder.limit h.1⟩

/-- C19 as stated fails: the product wraps.  `p = 2 ^ 63 + 1` and `s = 2` are
unsigned 64-bit values; the exact product `(p - 1) * s` is `2 ^ 64`, and
`Page(p, s)` stores the offset 0. -/
theorem Page_law_counterexample :
    2 ^ 63 + 1 < 2 ^ 64 ∧ (max (2 ^ 63 + 1) 1 - 1) * 2 = 2 ^ 64 ∧
    (limitedBuilder.Page (2 ^ 63 + 1) 2).offset = 0 ∧
    (limitedBuilder.Page (2 ^ 63 + 1) 2).offset ≠ (max (2 ^ 63 + 1) 1 - 1) * 2 := by
  refine ⟨by decide, by decide, by decide, by decide⟩

/-! ### Helper lemmas: sorting -/

/-- The base select reads the fields, the table, the joins, the predicates and
the placeholder style only. -/
theorem SQLBuilder.baseSelectSql_congr (b1 b2 : SQLBuilder) (hf : b1.fields = b2.fields)
    (ht : b1.fromTable = b2.fromTable) (hj : b1.joins = b2.joins)
    (hw : b1.whereConditions = b2.whereConditions) (hp : b1.placeholder = b2.placeholder) :
    b1.baseSelectSql = b2.baseSelectSql := by
  rw [SQLBuilder.baseSelectSql_eq, SQLBuilder.baseSelectSql_eq, hf, ht, hj, hw, hp]

theorem containsText_middle (pre x post : String) : containsText (pre ++ x ++ post) x :=
  ⟨pre, post, rfl⟩

/-- A text that occurs in `s` has all its characters in `s`. -/
theorem containsText_mem (s x : String) (h : containsText s x) (ch : Char) (hc : ch ∈ x.data) :
    ch ∈ s.data := by
  obtain ⟨pre, post, rfl⟩ := h
  simp [String.data_append, hc]

/-- `BuildSelect` of a builder sorted by the stored column `col` in the
direction `d`, when the base select renders and `sortMapping` has no entry for
`col`. -/
theorem SQLBuilder.BuildSelect_sorted (b : SQLBuilder) (col d base : String) (args : List Value)
    (hsort : b.sort = { Field := col, Order := d }) (hcol : col ≠ "")
    (hm : GoMap.read b.sortMapping col = none)
    (hq : b.placeholder = PlaceholderFormat.Question ∨ (NoPlaceholder col ∧ NoPlaceholder d))
    (hbase : b.baseSelectSql = (base, args, none)) :
    b.BuildSelect =
      (base ++ (" ORDER BY " ++ col ++ " " ++ d) ++ b.limitClause ++ b.offsetClause, args, none) := by
  have hf : b.sort.Field = col := by rw [hsort]
  have ho : b.sort.Order = d := by rw [hsort]
  have hsf : b.sortField = col := by
    simp [SQLBuilder.sortField, hf, hm]
  have hq2 : b.placeholder = PlaceholderFormat.Question ∨
      (NoPlaceholder b.sortField ∧ NoPlaceholder b.sort.Order) := by
    rw [hsf, ho]
    exact hq
  rw [b.BuildSelect_of_base_ok hq2 base args hbase, hsf]
  simp [SQLBuilder.orderByClause, hf, ho, hcol]

/-! ### C20 -/

/-- C20 as amended.  `Sort(f, d)` stores the sort `(mapField(f), d)`, `d`
verbatim, and changes nothing else; `SortIf(f, d)` equals `Sort(f, d)` when `f`
is not empty and returns the builder unchanged when `f` is empty.  When the
base select of the builder renders, the sort column and the direction hold no
`?` (or the style is `Question`) and `sortMapping` has no entry for the sort
column (as on every builder made by method calls): after
`WithFieldConfig(a, c, op)` with `c` non-empty, `Sort(a, d)` followed by
`BuildSelect` yields the base SQL, then ` ORDER BY c d`, then the LIMIT and
OFFSET clauses, so the SQL contains `"ORDER BY " + c + " " + d`; and for an
unregistered, non-empty `f`, `Sort(f, d)` followed by `BuildSelect` contains
`"ORDER BY " + f + " " + d` in the same place. -/
theorem Sort_resolves (b : SQLBuilder) (a c f d : String) (op : Op) :
    b.Sort f d = { b with sort := { Field := b.mapField f, Order := d } } ∧
    (f ≠ "" → b.SortIf f d = b.Sort f d) ∧
    b.SortIf "" d = b ∧
    (∀ base args, c ≠ "" → b.baseSelectSql = (base, args, none) →
      GoMap.read b.sortMapping c = none →
      (b.placeholder = PlaceholderFormat.Question ∨ (NoPlaceholder c ∧ NoPlaceholder d)) →
      ((b.WithFieldConfig a c op).Sort a d).BuildSelect =
        (base ++ (" ORDER BY " ++ c ++ " " ++ d) ++ b.limitClause ++ b.offsetClause, args, none) ∧
      containsText ((b.WithFieldConfig a c op).Sort a d).BuildSelect.sql
        ("ORDER BY " ++ c ++ " " ++ d)) ∧
    (∀ base args, f ≠ "" → GoMap.read b.fieldConfigs f = none →
      b.baseSelectSql = (base, args, none) →
      GoMap.read b.sortMapping f = none →
      (b.placeholder = PlaceholderFormat.Question ∨ (NoPlaceholder f ∧ NoPlaceholder d)) →
      (b.Sort f d).BuildSelect =
        (base ++ (" ORDER BY " ++ f ++ " " ++ d) ++ b.limitClause ++ b.offsetClause, args, none) ∧
      containsText (b.Sort f d).BuildSelect.sql ("ORDER BY " ++ f ++ " " ++ d)) := by
  have hcontains : ∀ (base col tail1 tail2 : String),
      containsText (base ++ (" ORDER BY " ++ col ++ " " ++ d) ++ tail1 ++ tail2)
        ("ORDER BY " ++ col ++ " " ++ d) := by
    intro base col tail1 tail2
    refine ⟨base ++ " ", tail1 ++ tail2, ?_⟩
    apply String.ext
    simp [String.data_append]
  refine ⟨rfl, ?_, rfl, ?_, ?_⟩
  · intro hf
    simp [SQLBuilder.SortIf, SQLBuilder.Sort, hf]
  · intro base args hc hbase hm hq
    have hb : ((b.WithFieldConfig a c op).Sort a d).baseSelectSql = (base, args, none) := by
      rw [← hbase]
      exact SQLBuilder.baseSelectSql_congr _ _ rfl rfl rfl rfl rfl
    have hs : ((b.WithFieldConfig a c op).Sort a d).sort = { Field := c, Order := d } := by
      simp [SQLBuilder.Sort, SQLBuilder.mapField_WithFieldConfig_self]
    have h := SQLBuilder.BuildSelect_sorted ((b.WithFieldConfig a c op).Sort a d) c d base args
      hs hc hm hq hb
    have hl : ((b.WithFieldConfig a c op).Sort a d).limitClause = b.limitClause := rfl
    have ho : ((b.WithFieldConfig a c op).Sort a d).offsetClause = b.offsetClause := rfl
    rw [hl, ho] at h
    refine ⟨h, ?_⟩
    rw [h]
    exact hcontains _ _ _ _
  · intro base args hf hreg hbase hm hq
    have hb : (b.Sort f d).baseSelectSql = (base, args, none) := by
      rw [← hbase]
      exact SQLBuilder.baseSelectSql_congr _ _ rfl rfl rfl rfl rfl
    have hs : (b.Sort f d).sort = { Field := f, Order := d } := by
      simp [SQLBuilder.Sort, SQLBuilder.mapField, hreg]
    have h := SQLBuilder.BuildSelect_sorted (b.Sort f d) f d base args hs hf hm hq hb
    have hl : (b.Sort f d).limitClause = b.limitClause := rfl
    have ho : (b.Sort f d).offsetClause = b.offsetClause := rfl
    rw [hl, ho] at h
    refine ⟨h, ?_⟩
    rw [h]
    exact hcontains _ _ _ _

/-- Witness of C20: the alias `total_sort` registered to `o.total`, then
`Sort("total_sort", "DESC")`. -/
theorem Sort_resolves_witness :
    ((ordersBuilder.WithFieldConfig "total_sort" "o.total" Op.GT).Sort "total_sort"
      "DESC").BuildSelect =
      ("SELECT o.id, o.total FROM orders o ORDER BY o.total DESC LIMIT 7", [], none) ∧
    containsText ((ordersBuilder.WithFieldConfig "total_sort" "o.total" Op.GT).Sort "total_sort"
      "DESC").BuildSelect.sql "ORDER BY o.total DESC" := by
  have h := (Sort_resolves ordersBuilder "total_sort" "o.total" "id" "DESC" Op.GT).2.2.2.1
    "SELECT o.id, o.total FROM orders o" [] (by decide) rfl rfl (Or.inr ⟨by decide, by decide⟩)
  exact ⟨h.1, h.2⟩

/-- C20 as stated fails.  First, an unregistered `f` that is the empty string:
`Sort("", "DESC")` stores the empty column, `BuildSelect` renders no ORDER BY
clause, and the SQL does not contain `"ORDER BY " + "" + " " + "DESC"`.  Second,
a registered column with a `?` under the dollar style: `ORDER BY a$1 DESC` is
rendered, and the SQL does not contain `ORDER BY a? DESC`. -/
theorem Sort_resolves_counterexample :
    GoMap.read ordersBuilder.fieldConfigs "" = none ∧
    (ordersBuilder.Sort "" "DESC").BuildSelect =
      ("SELECT o.id, o.total FROM orders o LIMIT 7", [], none) ∧
    ¬ containsText (ordersBuilder.Sort "" "DESC").BuildSelect.sql
      ("ORDER BY " ++ "" ++ " " ++ "DESC") ∧
    ((ordersBuilder.WithFieldConfig "k" "a?" Op.EQ).Sort "k" "DESC").BuildSelect =
      ("SELECT o.id, o.total FROM orders o ORDER BY a$1 DESC LIMIT 7", [], none) ∧
    ¬ containsText ((ordersBuilder.WithFieldConfig "k" "a?" Op.EQ).Sort "k" "DESC").BuildSelect.sql
      ("ORDER BY " ++ "a?" ++ " " ++ "DESC") := by
  refine ⟨rfl, rfl, ?_, rfl, ?_⟩
  · intro h
    have hm := containsText_mem _ _ h 'Y' (by decide)
    revert hm
    decide
  · intro h
    have hm := containsText_mem _ _ h '?' (by decide)
    revert hm
    decide

/-! ### Helper lemmas: groups -/

/-- The loop of `conj.join` over a list followed by one more member that
renders to a non-empty text: the member's text and bind values come last. -/
theorem conjParts_append_one (ps : List Sqlizer) (g : Sqlizer) (texts : List String)
    (args : List Value) (gt : String) (gargs : List Value)
    (hps : conjParts ps = (texts, args, none)) (hg : g.ToSql = (gt, gargs, none))
    (hne : gt ≠ "") :
    conjParts (ps ++ [g]) = (texts ++ [gt], args ++ gargs, none) := by
  induction ps generalizing texts args with
  | nil =>
    simp only [conjParts] at hps
    obtain ⟨rfl, rfl⟩ : texts = [] ∧ args = [] := by
      simp only [Prod.mk.injEq] at hps
      exact ⟨hps.1.symm, hps.2.1.symm⟩
    simp [conjParts, hg, hne]
  | cons p ps ih =>
    simp only [List.cons_append, conjParts] at hps ⊢
    rcases hp : p.ToSql with ⟨pt, pa, _ | e⟩
    · rw [hp] at hps
      simp only [] at hps ⊢
      rcases hrest : conjParts ps with ⟨rt, ra, _ | e2⟩
      · rw [hrest] at hps
        simp only [] at hps
        simp only [List.append_eq]
        rw [ih rt ra hrest]
        simp only []
        by_cases hpt : pt = ""
        · simp only [hpt, ne_eq, not_true_eq_false, if_false, Prod.mk.injEq] at hps ⊢
          obtain ⟨h1, h2, _⟩ := hps
          subst h1 h2
          simp
        · simp only [hpt, ne_eq, not_false_eq_true, if_true, Prod.mk.injEq] at hps ⊢
          obtain ⟨h1, h2, _⟩ := hps
          subst h1 h2
          simp
      · rw [hrest] at hps
        simp at hps
    · rw [hp] at hps
      simp at hps

/-! ### C22 -/

/-- C22, boolean grouping: for a non-empty list of conditions `cs`, `Or(cs...)`
appends exactly one predicate, the OR-group of `cs` in the given order, and
`And(cs...)` appends exactly one predicate, the AND-group of `cs` in the given
order; whatever the length of `cs`, the predicate list grows by one and nothing
else changes.  The group is one member of the `And` over all predicates that
`buildBaseSelect` gives to `Where`; when the predicates before it render to the
texts `texts` and the group to a non-empty text, that `And` renders as the
texts and then the group's text, joined by ` AND ` inside parentheses, with the
bind values in the same order. -/
theorem grouping_law (b : SQLBuilder) (cs : List Sqlizer) (hcs : cs ≠ []) :
    b.Or cs = { b with whereConditions := b.whereConditions ++ [Sqlizer.Or cs] } ∧
    b.And cs = { b with whereConditions := b.whereConditions ++ [Sqlizer.And cs] } ∧
    (b.Or cs).whereConditions.length = b.whereConditions.length + 1 ∧
    (b.And cs).whereConditions.length = b.whereConditions.length + 1 ∧
    (b.Or cs).buildBaseSelect =
      SelectBuilder.mk PlaceholderFormat.Question b.fields (FromPart.part b.fromTable)
        (b.joins.map joinConfig.clause)
        [Sqlizer.And (b.whereConditions ++ [Sqlizer.Or cs])] [] "" "" ∧
    (b.And cs).buildBaseSelect =
      SelectBuilder.mk PlaceholderFormat.Question b.fields (FromPart.part b.fromTable)
        (b.joins.map joinConfig.clause)
        [Sqlizer.And (b.whereConditions ++ [Sqlizer.And cs])] [] "" "" ∧
    (∀ (g : Sqlizer) (texts : List String) (args : List Value) (gt : String)
      (gargs : List Value),
      conjParts b.whereConditions = (texts, args, none) → g.ToSql = (gt, gargs, none) →
      gt ≠ "" →
      (Sqlizer.And (b.whereConditions ++ [g])).ToSql =
        ("(" ++ stringsJoin " AND " (texts ++ [gt]) ++ ")", args ++ gargs, none)) := by
  have hlen : cs.length > 0 := List.length_pos.mpr hcs
  have hor : b.Or cs = { b with whereConditions := b.whereConditions ++ [Sqlizer.Or cs] } := by
    simp [SQLBuilder.Or, hlen]
  have hand : b.And cs = { b with whereConditions := b.whereConditions ++ [Sqlizer.And cs] } := by
    simp [SQLBuilder.And, hlen]
  refine ⟨hor, hand, ?_, ?_, ?_, ?_, ?_⟩
  · rw [hor]; simp
  · rw [hand]; simp
  · rw [SQLBuilder.buildBaseSelect_eq, hor]
    simp
  · rw [SQLBuilder.buildBaseSelect_eq, hand]
    simp
  · intro g texts args gt gargs hps hg hne
    simp only [Sqlizer.ToSql, conjParts_append_one _ g texts args gt gargs hps hg hne]
    simp [conjFinish]

/-- Witness of C22: one equality, then an OR-group of two conditions. -/
theorem grouping_law_witness :
    (activeUsersBuilder.Or [Sqlizer.Eq "status" (Value.str "active"),
      Sqlizer.Eq "status" (Value.str "pending")]).whereConditions.length = 2 ∧
    (activeUsersBuilder.Or [Sqlizer.Eq "status" (Value.str "active"),
      Sqlizer.Eq "status" (Value.str "pending")]).BuildSelect =
      ("SELECT id, name FROM users WHERE (active = $1 AND (status = $2 OR status = $3)) LIMIT 7",
        [Value.bool true, Value.str "active", Value.str "pending"], none) := by
  have h := grouping_law activeUsersBuilder [Sqlizer.Eq "status" (Value.str "active"),
    Sqlizer.Eq "status" (Value.str "pending")] (by simp)
  refine ⟨?_, ?_⟩
  · rw [h.2.2.1]; rfl
  · rw [h.1]; rfl

/-! ### C23 -/

/-- C23, raw expression-equality: `ExprEq(l, r, xs...)` appends exactly one
predicate and changes nothing else; the predicate is the raw expression with the
text `l + " = " + r`, where `l` is taken literally (`mapField` is not applied,
also when `l` is a registered alias), and its bind values are `xs` in order;
with no `xs` it carries no bind values and the text still holds `r` as given. -/
theorem ExprEq_law (b : SQLBuilder) (l r : String) (xs : List Value) :
    b.ExprEq l r xs =
      { b with whereConditions := b.whereConditions ++ [Sqlizer.Expr (l ++ " = " ++ r) xs] } ∧
    (b.ExprEq l r xs).whereConditions.length = b.whereConditions.length + 1 ∧
    (Sqlizer.Expr (l ++ " = " ++ r) xs).ToSql = (l ++ " = " ++ r, xs, none) ∧
    (b.ExprEq l r []).whereConditions = b.whereConditions ++ [Sqlizer.Expr (l ++ " = " ++ r) []] ∧
    (Sqlizer.Expr (l ++ " = " ++ r) []).ToSql = (l ++ " = " ++ r, [], none) ∧
    ((sampleBuilder.ExprEq "name" "lower(?)" [Value.str "jo"]).whereConditions.map Sqlizer.ToSql =
      [("id = ?", [Value.int 1], none), ("name = lower(?)", [Value.str "jo"], none)]) := by
  have h : b.ExprEq l r xs =
      { b with whereConditions := b.whereConditions ++ [Sqlizer.Expr (l ++ " = " ++ r) xs] } := by
    unfold SQLBuilder.ExprEq
    cases xs with
    | nil => simp
    | cons x xs => simp
  refine ⟨h, ?_, rfl, rfl, rfl, rfl⟩
  rw [h]
  simp

/-! ### C24 -/

/-- C24, the constructor: `NewSQLBuilder` returns a builder with an empty field
list, an empty join list, an empty predicate list, an alias registry that is a
made map without entries, the numbered-dollar placeholder style, limit 7 and
offset 0. -/
theorem NewSQLBuilder_state :
    NewSQLBuilder.fields = [] ∧ NewSQLBuilder.joins = [] ∧
    NewSQLBuilder.whereConditions = [] ∧
    NewSQLBuilder.fieldConfigs = some [] ∧
    (∀ a, GoMap.read NewSQLBuilder.fieldConfigs a = none) ∧
    NewSQLBuilder.placeholder = PlaceholderFormat.Dollar ∧
    NewSQLBuilder.limit = 7 ∧ NewSQLBuilder.offset = 0 :=
  ⟨rfl, rfl, rfl, rfl, fun _ => rfl, rfl, rfl, rfl⟩

/-! ### Helper lemmas: what a rendered select is made of -/

/-- `appendToSql` over string parts, empty ones allowed: some text is added to
the buffer, without `?` when the parts and the separator have none, and the
bind values stay as they were. -/
theorem appendToSqlFrom_strings (sep : String) (parts : List String) :
    ∀ (i : Nat) (w : String) (args : List Value),
      ∃ X, appendToSqlFrom sep i (parts.map partToSql) w args = (w ++ X, args, none) ∧
        (NoPlaceholder sep → (∀ p ∈ parts, NoPlaceholder p) → NoPlaceholder X) := by
  induction parts with
  | nil =>
    intro i w args
    refine ⟨"", ?_, fun _ _ => by decide⟩
    simp [appendToSqlFrom, String.append_empty_right]
  | cons p ps ih =>
    intro i w args
    by_cases hp : p = ""
    · obtain ⟨X, hX, hN⟩ := ih (i + 1) w args
      refine ⟨X, ?_, fun hs hall => hN hs (fun q hq => hall q (List.mem_cons_of_mem _ hq))⟩
      simp [appendToSqlFrom, partToSql, hp, hX]
    · obtain ⟨X, hX, hN⟩ := ih (i + 1) ((if i > 0 then w ++ sep else w) ++ p) args
      by_cases hi : i > 0
      · refine ⟨sep ++ p ++ X, ?_, fun hs hall =>
          (hs.append (hall p (List.mem_cons_self _ _))).append
            (hN hs (fun q hq => hall q (List.mem_cons_of_mem _ hq)))⟩
        simp only [hi, if_true] at hX
        simp only [List.map_cons, partToSql, appendToSqlFrom, hp, if_false, hi, if_true,
          List.append_nil, hX]
        simp [String.append_assoc]
      · refine ⟨p ++ X, ?_, fun hs hall =>
          (hall p (List.mem_cons_self _ _)).append
            (hN hs (fun q hq => hall q (List.mem_cons_of_mem _ hq)))⟩
        simp only [hi, if_false] at hX
        simp only [List.map_cons, partToSql, appendToSqlFrom, hp, if_false, hi,
          List.append_nil, hX]
        simp [String.append_assoc]

/-- The loop of `conj.join` keeps bind values only together with a text. -/
theorem conjParts_no_text (cs : List Sqlizer) :
    ∀ (a : List Value), conjParts cs = ([], a, none) → a = [] := by
  induction cs with
  | nil =>
    intro a h
    simp only [conjParts, Prod.mk.injEq] at h
    exact h.2.1.symm
  | cons c cs ih =>
    intro a h
    simp only [conjParts] at h
    rcases hc : c.ToSql with ⟨ct, ca, _ | e⟩
    · rw [hc] at h
      simp only [] at h
      rcases hrest : conjParts cs with ⟨rt, ra, _ | e2⟩
      · rw [hrest] at h
        simp only [] at h
        by_cases hct : ct = ""
        · simp only [hct, ne_eq, not_true_eq_false, if_false, Prod.mk.injEq] at h
          obtain ⟨h1, h2, _⟩ := h
          subst h1 h2
          exact ih ra hrest
        · simp [hct] at h
      · rw [hrest] at h
        simp at h
    · rw [hc] at h
      simp at h

/-- An `And` that renders to the empty text has no bind values. -/
theorem And_ToSql_empty (ps : List Sqlizer) (a : List Value)
    (h : (Sqlizer.And ps).ToSql = ("", a, none)) : a = [] := by
  simp only [Sqlizer.ToSql, conjFinish] at h
  split at h
  · simp [sqlTrue] at h
  · rcases hparts : conjParts ps with ⟨texts, args, _ | e⟩
    · rw [hparts] at h
      simp only [] at h
      split at h
      · exfalso
        have h1 := congrArg (fun r => r.1.data) h
        simp [String.data_append] at h1
      · rename_i hlen
        have ht : texts = [] := by
          cases texts with
          | nil => rfl
          | cons x xs => simp at hlen
        subst ht
        have := conjParts_no_text ps args hparts
        subst this
        simp only [Prod.mk.injEq] at h
        exact h.2.1.symm
    · rw [hparts] at h
      simp at h

/-- The where step of `toSqlRaw` as `buildBaseSelect` sets it up, when it
succeeds: with predicates the buffer gains ` WHERE ` and some text, without
predicates nothing; the bind values are those of the predicates. -/
theorem wheres_step_ok (ps : List Sqlizer) (sql s : String) (a : List Value)
    (h : (if (if ps.length > 0 then [Sqlizer.And ps] else []).length > 0 then
        appendToSql ((if ps.length > 0 then [Sqlizer.And ps] else []).map Sqlizer.ToSql)
          (sql ++ " WHERE ") " AND " []
      else (sql, [], none)) = (s, a, none)) :
    (ps.length > 0 → ∃ w, s = sql ++ (" WHERE " ++ w)) ∧ (ps.length = 0 → s = sql) ∧
    a = (if ps.length > 0 then (Sqlizer.And ps).ToSql.args else []) := by
  by_cases hps : ps.length > 0
  · simp only [hps, if_true, List.length_cons, List.length_nil, gt_iff_lt, Nat.zero_lt_succ,
      List.map_cons, List.map_nil] at h ⊢
    rcases hand : (Sqlizer.And ps).ToSql with ⟨t, ta, _ | e⟩
    · rw [hand] at h
      simp only [appendToSql, appendToSqlFrom, Nat.lt_irrefl, if_false,
        List.nil_append] at h
      by_cases ht : t = ""
      · subst ht
        have hta := And_ToSql_empty ps ta hand
        subst hta
        simp only [if_true, Prod.mk.injEq] at h
        obtain ⟨h1, h2, _⟩ := h
        refine ⟨fun _ => ⟨"", ?_⟩, fun h0 => absurd h0 (by omega), ?_⟩
        · rw [← h1]
          simp [String.append_empty_right]
        · simp [SqlResult.args, ← h2]
      · simp only [ht, if_false, Prod.mk.injEq] at h
        obtain ⟨h1, h2, _⟩ := h
        refine ⟨fun _ => ⟨t, ?_⟩, fun h0 => absurd h0 (by omega), ?_⟩
        · rw [← h1]
          simp [String.append_assoc]
        · simp [SqlResult.args, ← h2]
    · rw [hand] at h
      simp [appendToSql, appendToSqlFrom] at h
  · have h0 : ps.length = 0 := by omega
    simp only [h0, gt_iff_lt, Nat.lt_irrefl, if_false, List.length_nil, Prod.mk.injEq] at h
    obtain ⟨h1, h2, _⟩ := h
    refine ⟨fun hc => absurd hc hps, fun _ => h1.symm, ?_⟩
    simp only [h0, gt_iff_lt, Nat.lt_irrefl, if_false]
    exact h2.symm

/-- `appendToSql` over string parts writes after the buffer what it writes
after the empty buffer. -/
theorem appendToSqlFrom_text (sep : String) (parts : List String) :
    ∀ (i : Nat) (w : String) (args : List Value),
      appendToSqlFrom sep i (parts.map partToSql) w args =
        (w ++ (appendToSqlFrom sep i (parts.map partToSql) "" []).1, args, none) := by
  induction parts with
  | nil =>
    intro i w args
    simp [appendToSqlFrom, String.append_empty_right]
  | cons p ps ih =>
    intro i w args
    by_cases hp : p = ""
    · simp only [List.map_cons, partToSql, appendToSqlFrom, hp, if_true]
      exact ih (i + 1) w args
    · simp only [List.map_cons, partToSql, appendToSqlFrom, hp, if_false, List.append_nil]
      rw [ih (i + 1) ((if i > 0 then w ++ sep else w) ++ p) args,
        ih (i + 1) ((if i > 0 then "" ++ sep else "") ++ p) []]
      by_cases hi : i > 0 <;> simp [hi, String.append_assoc]

/-- The column list holds no `?` when the fields hold none. -/
theorem columnsText_NoPlaceholder (fields : List String) (h : ∀ c ∈ fields, NoPlaceholder c) :
    NoPlaceholder (columnsText fields) := by
  obtain ⟨X, hX, hN⟩ := appendToSqlFrom_strings ", " fields 0 "" []
  have hX2 : columnsText fields = X := by
    simp [columnsText, appendToSql, hX]
  rw [hX2]
  exact hN (by decide) h

/-- The column list of non-empty fields is the fields joined by `, `. -/
theorem columnsText_join (f0 : String) (fs : List String) (h0 : f0 ≠ "")
    (hfs : ∀ x ∈ fs, x ≠ "") : columnsText (f0 :: fs) = stringsJoin ", " (f0 :: fs) := by
  have h := appendToSql_parts ", " f0 fs h0 hfs "" []
  unfold columnsText
  rw [h]
  apply String.ext
  simp [String.data_append]

/-- The base select before the placeholder format, when it renders: `SELECT`,
the column list, `FROM` and the table, the join clauses in order, then the
WHERE part, which starts with ` WHERE ` when there are predicates and is empty
otherwise; the bind values are those of the predicates. -/
theorem base_toSqlRaw_ok (f : PlaceholderFormat) (cols : List String) (table : String)
    (js : List joinConfig) (ps : List Sqlizer) (s : String) (a : List Value)
    (h : (SelectBuilder.mk f cols (FromPart.part table) (js.map joinConfig.clause)
        (if ps.length > 0 then [Sqlizer.And ps] else []) [] "" "").toSqlRaw = (s, a, none)) :
    ∃ W, s = "SELECT " ++ columnsText cols ++ " FROM " ++ table ++ joinsText js ++ W ∧
      (ps.length > 0 → ∃ w, W = " WHERE " ++ w) ∧ (ps.length = 0 → W = "") ∧
      a = (if ps.length > 0 then (Sqlizer.And ps).ToSql.args else []) := by
  unfold SelectBuilder.toSqlRaw at h
  by_cases hc : cols.length = 0
  · simp [hc] at h
  · simp only [hc, if_false, appendToSql, appendToSqlFrom_text ", " cols 0 "SELECT " [],
      FromPart.appendTo_part] at h
    have hj := joins_step js ("SELECT " ++ (appendToSqlFrom ", " 0 (cols.map partToSql) "" []).1 ++
      " FROM " ++ table) []
    simp only [appendToSql] at hj
    simp only [hj] at h
    rcases hw : (if (if ps.length > 0 then [Sqlizer.And ps] else []).length > 0 then
        appendToSql ((if ps.length > 0 then [Sqlizer.And ps] else []).map Sqlizer.ToSql)
          ("SELECT " ++ (appendToSqlFrom ", " 0 (cols.map partToSql) "" []).1 ++
            " FROM " ++ table ++ joinsText js ++ " WHERE ") " AND " []
      else ("SELECT " ++ (appendToSqlFrom ", " 0 (cols.map partToSql) "" []).1 ++
            " FROM " ++ table ++ joinsText js, [], none)) with ⟨ws, wa, _ | e⟩
    · have hw2 := hw
      simp only [appendToSql] at hw2
      rw [hw2] at h
      simp only [List.length_nil, gt_iff_lt, Nat.lt_irrefl, if_false, String.length,
        Prod.mk.injEq] at h
      obtain ⟨hs1, hs0, ha⟩ := wheres_step_ok ps _ ws wa hw
      obtain ⟨h1, h2, _⟩ := h
      subst h1 h2
      by_cases hps : ps.length > 0
      · obtain ⟨w, hw3⟩ := hs1 hps
        refine ⟨" WHERE " ++ w, ?_, fun _ => ⟨w, rfl⟩, fun h0 => absurd h0 (by omega), ha⟩
        rw [hw3]
        simp [columnsText, appendToSql, String.append_assoc]
      · have h0 : ps.length = 0 := by omega
        refine ⟨"", ?_, fun hc2 => absurd hc2 hps, fun _ => rfl, ha⟩
        rw [hs0 h0]
        simp [columnsText, appendToSql, String.append_empty_right]
    · have hw2 := hw
      simp only [appendToSql] at hw2
      rw [hw2] at h
      simp at h

/-- A text without `?` in front of a text passes the placeholder format as it
is; under the question style every text does. -/
theorem ReplacePlaceholders_prepend (f : PlaceholderFormat) (u t : String)
    (h : f = PlaceholderFormat.Question ∨ NoPlaceholder u) :
    f.ReplacePlaceholders (u ++ t) = u ++ f.ReplacePlaceholders t := by
  cases f
  · rfl
  all_goals
    rcases h with h | h
    · cases h
    · simp only [PlaceholderFormat.ReplacePlaceholders, String.data_append]
      rw [replacePositionalPlaceholders_prepend _ u.data h t.data 0]
      apply String.ext
      simp [String.data_append]

/-- A successful `BuildSelect` comes from a base select that rendered: its SQL
is the placeholder format applied to the base text and the tail clauses, its
bind values are those of the base select. -/
theorem SQLBuilder.BuildSelect_ok_raw (b : SQLBuilder) (sql : String) (a : List Value)
    (h : b.BuildSelect = (sql, a, none)) :
    ∃ s, (SelectBuilder.mk b.placeholder b.fields (FromPart.part b.fromTable)
          (b.joins.map joinConfig.clause)
          (if b.whereConditions.length > 0 then [Sqlizer.And b.whereConditions] else [])
          [] "" "").toSqlRaw = (s, a, none) ∧
      sql = b.placeholder.ReplacePlaceholders
        (s ++ b.orderByClause b.sortField ++ b.limitClause ++ b.offsetClause) := by
  rw [SQLBuilder.BuildSelect_eq] at h
  rcases hraw : (SelectBuilder.mk b.placeholder b.fields (FromPart.part b.fromTable)
          (b.joins.map joinConfig.clause)
          (if b.whereConditions.length > 0 then [Sqlizer.And b.whereConditions] else [])
          [] "" "").toSqlRaw with ⟨s, a0, _ | e⟩
  · rw [b.BuildSelect_raw_ok s a0 hraw, finishToSql_ok] at h
    simp only [Prod.mk.injEq] at h
    obtain ⟨h1, h2, _⟩ := h
    subst h2
    exact ⟨s, rfl, h1.symm⟩
  · rw [b.BuildSelect_raw_err s a0 e hraw, finishToSql_err] at h
    simp at h

/-- The shape of a successful `BuildSelect`: `SELECT`, the column list, `FROM`
and the table, the join clauses in order, then the rest, which starts with
` WHERE ` when there are predicates; the bind values are the predicates'. -/
theorem SQLBuilder.BuildSelect_shape (b : SQLBuilder) (sql : String) (a : List Value)
    (h : b.BuildSelect = (sql, a, none))
    (hq : b.placeholder = PlaceholderFormat.Question ∨
      ((∀ c ∈ b.fields, NoPlaceholder c) ∧ NoPlaceholder b.fromTable ∧
        ∀ j ∈ b.joins, NoPlaceholder j.clause)) :
    (∃ rest, sql = "SELECT " ++ columnsText b.fields ++ " FROM " ++ b.fromTable ++
        joinsText b.joins ++ rest ∧
      (b.whereConditions ≠ [] → ∃ w, rest = " WHERE " ++ w)) ∧
    a = b.predicateArgs := by
  obtain ⟨s, hraw, hsql⟩ := b.BuildSelect_ok_raw sql a h
  obtain ⟨W, hs, hW1, _, ha⟩ := base_toSqlRaw_ok _ _ _ _ _ s a hraw
  refine ⟨?_, ha⟩
  have hpre : b.placeholder = PlaceholderFormat.Question ∨
      NoPlaceholder ("SELECT " ++ columnsText b.fields ++ " FROM " ++ b.fromTable ++
        joinsText b.joins) := by
    rcases hq with hq | ⟨hc, ht, hj⟩
    · exact Or.inl hq
    · exact Or.inr ((((NoPlaceholder.append (by decide) (columnsText_NoPlaceholder _ hc)).append
        (by decide)).append ht).append (joinsText_NoPlaceholder _ hj))
  subst hs
  by_cases hw : b.whereConditions = []
  · refine ⟨b.placeholder.ReplacePlaceholders
      (W ++ b.orderByClause b.sortField ++ b.limitClause ++ b.offsetClause), ?_,
      fun hne => absurd hw hne⟩
    rw [hsql, ← ReplacePlaceholders_prepend _ _ _ hpre]
    simp only [String.append_assoc]
  · have hlen : b.whereConditions.length > 0 := by
      cases hwc : b.whereConditions with
      | nil => exact absurd hwc hw
      | cons x xs => simp
    obtain ⟨w, hw2⟩ := hW1 hlen
    subst hw2
    have hpre2 : b.placeholder = PlaceholderFormat.Question ∨ NoPlaceholder " WHERE " :=
      Or.inr (by decide)
    refine ⟨" WHERE " ++ b.placeholder.ReplacePlaceholders
      (w ++ b.orderByClause b.sortField ++ b.limitClause ++ b.offsetClause), ?_,
      fun _ => ⟨_, rfl⟩⟩
    rw [hsql, ← ReplacePlaceholders_prepend _ _ _ hpre2, ← ReplacePlaceholders_prepend _ _ _ hpre]
    simp only [String.append_assoc]

/-- `BuildCount` reads the table, the estimate table, the fields, the join
clauses, the predicates and the placeholder style, nothing else. -/
theorem SQLBuilder.BuildCount_congr (b1 b2 : SQLBuilder) (ht : b1.fromTable = b2.fromTable)
    (he : b1.estimateTable = b2.estimateTable) (hf : b1.fields = b2.fields)
    (hj : b1.joins.map joinConfig.clause = b2.joins.map joinConfig.clause)
    (hw : b1.whereConditions = b2.whereConditions) (hp : b1.placeholder = b2.placeholder) :
    b1.BuildCount = b2.BuildCount := by
  unfold SQLBuilder.BuildCount
  rw [SQLBuilder.buildBaseSelect_eq, SQLBuilder.buildBaseSelect_eq, ht, he, hf, hj, hw, hp]

/-- `BuildSelect` reads the join clauses of the joins, not the joins. -/
theorem SQLBuilder.BuildSelect_congr (b1 b2 : SQLBuilder) (ht : b1.fromTable = b2.fromTable)
    (hf : b1.fields = b2.fields)
    (hj : b1.joins.map joinConfig.clause = b2.joins.map joinConfig.clause)
    (hw : b1.whereConditions = b2.whereConditions) (hp : b1.placeholder = b2.placeholder)
    (hs : b1.sort = b2.sort) (hm : b1.sortMapping = b2.sortMapping)
    (hl : b1.limit = b2.limit) (ho : b1.offset = b2.offset) :
    b1.BuildSelect = b2.BuildSelect := by
  rw [SQLBuilder.BuildSelect_eq, SQLBuilder.BuildSelect_eq]
  unfold SQLBuilder.sortField
  rw [ht, hf, hj, hw, hp, hs, hm, hl, ho]

/-- Joins that agree without their bind arguments have the same clauses. -/
theorem clause_of_withoutArgs (js1 js2 : List joinConfig)
    (h : js1.map joinConfig.withoutArgs = js2.map joinConfig.withoutArgs) :
    js1.map joinConfig.clause = js2.map joinConfig.clause := by
  have e : ∀ js : List joinConfig,
      js.map joinConfig.clause = (js.map joinConfig.withoutArgs).map joinConfig.clause := by
    intro js
    simp [List.map_map, Function.comp_def, joinConfig.clause, joinConfig.withoutArgs]
  rw [e js1, e js2, h]

/-- A successful `BuildCount` on the exact path binds the predicates' values. -/
theorem SQLBuilder.BuildCount_exact_args (b : SQLBuilder)
    (hpath : b.whereConditions.length > 0 ∨ b.estimateTable = "") (sql : String)
    (a : List Value) (h : b.BuildCount = (sql, a, none)) : a = b.predicateArgs := by
  unfold SQLBuilder.BuildCount at h
  simp only [hpath, if_true] at h
  rw [SQLBuilder.buildBaseSelect_eq] at h
  rcases hraw : (SelectBuilder.mk PlaceholderFormat.Question b.fields (FromPart.part b.fromTable)
      (b.joins.map joinConfig.clause)
      (if b.whereConditions.length > 0 then [Sqlizer.And b.whereConditions] else [])
      [] "" "").toSqlRaw with ⟨s, a0, _ | e⟩
  · rw [count_ToSql_ok _ _ s a0 hraw] at h
    obtain ⟨W, _, _, _, ha⟩ := base_toSqlRaw_ok _ _ _ _ _ s a0 hraw
    simp only [Prod.mk.injEq] at h
    rw [← h.2.1]
    exact ha
  · rw [count_ToSql_err _ _ s a0 e hraw] at h
    simp at h

/-- The join text of a list of joins with one more join at the end. -/
theorem joinsText_append_one (js : List joinConfig) (j : joinConfig) :
    joinsText (js ++ [j]) = joinsText js ++ (" " ++ j.clause) := by
  induction js with
  | nil =>
    simp only [List.nil_append, joinsText]
    apply String.ext
    simp [String.data_append]
  | cons x xs ih =>
    show joinsText (x :: (xs ++ [j])) = _
    simp only [joinsText, ih, String.append_assoc]

/-! ### C21: the join registry and its rendering -/

/-- C21 as amended.  `WithJoin(kind, target, cond, args...)` appends exactly one
join `(kind, target, cond)` at the end of the join list and keeps the existing
joins in order; `WithInnerJoin`, `WithLeftJoin`, `WithRightJoin` and
`WithFullJoin` are `WithJoin` with kind `JOIN`, `LEFT JOIN`, `RIGHT JOIN` and
`FULL JOIN`.  The join text of a builder is, for each join in registration
order, a blank and `kind + " " + target + " ON " + cond`.  For every builder
whose `BuildSelect` succeeds, and whose placeholder style is the question style
or whose fields, table and join clauses hold no `?`, the SQL is `SELECT`, the
column list, ` FROM ` and the table, then the join text, then the rest, and the
rest starts with ` WHERE ` when the builder has predicates. -/
theorem joins_law (b : SQLBuilder) (joinType table condition : String) (args : List Value) :
    (b.WithJoin joinType table condition args).joins =
      b.joins ++
        [{ JoinType := joinType, Table := table, Condition := condition, Args := args }] ∧
    b.WithInnerJoin table condition args = b.WithJoin "JOIN" table condition args ∧
    b.WithLeftJoin table condition args = b.WithJoin "LEFT JOIN" table condition args ∧
    b.WithRightJoin table condition args = b.WithJoin "RIGHT JOIN" table condition args ∧
    b.WithFullJoin table condition args = b.WithJoin "FULL JOIN" table condition args ∧
    joinsText [] = "" ∧
    joinsText (b.WithJoin joinType table condition args).joins =
      joinsText b.joins ++ (" " ++ (joinType ++ " " ++ table ++ " ON " ++ condition)) ∧
    (∀ sql a, b.BuildSelect = (sql, a, none) →
      (b.placeholder = PlaceholderFormat.Question ∨
        ((∀ c ∈ b.fields, NoPlaceholder c) ∧ NoPlaceholder b.fromTable ∧
          ∀ j ∈ b.joins, NoPlaceholder (j.JoinType ++ " " ++ j.Table ++ " ON " ++ j.Condition))) →
      ∃ rest, sql = "SELECT " ++ columnsText b.fields ++ " FROM " ++ b.fromTable ++
          joinsText b.joins ++ rest ∧
        (b.whereConditions ≠ [] → ∃ w, rest = " WHERE " ++ w)) := by
  refine ⟨rfl, rfl, rfl, rfl, rfl, rfl, ?_, ?_⟩
  · exact joinsText_append_one b.joins _
  · intro sql a hok hq
    exact (b.BuildSelect_shape sql a hok hq).1

set_option maxRecDepth 8000 in
/-- Witness of C21: the builder of the test `multiple joins` with two fields,
under the dollar style.  The SQL carries ` JOIN orders ON ...` and then
` LEFT JOIN profiles ON ...` right after `FROM users`. -/
theorem joins_law_witness :
    twoJoinsBuilder.BuildSelect =
      ("SELECT users.id, orders.total FROM users JOIN orders ON users.id = orders.user_id " ++
        "LEFT JOIN profiles ON users.id = profiles.user_id LIMIT 7", [], none) ∧
    joinsText twoJoinsBuilder.joins =
      " JOIN orders ON users.id = orders.user_id LEFT JOIN profiles ON users.id = profiles.user_id" ∧
    containsText
      ("SELECT users.id, orders.total FROM users JOIN orders ON users.id = orders.user_id " ++
        "LEFT JOIN profiles ON users.id = profiles.user_id LIMIT 7")
      (" FROM " ++ twoJoinsBuilder.fromTable ++ joinsText twoJoinsBuilder.joins) := by
  refine ⟨rfl, rfl, ?_⟩
  obtain ⟨rest, hr, _⟩ := (joins_law twoJoinsBuilder "" "" "" []).2.2.2.2.2.2.2
    ("SELECT users.id, orders.total FROM users JOIN orders ON users.id = orders.user_id " ++
        "LEFT JOIN profiles ON users.id = profiles.user_id LIMIT 7") [] rfl
    (Or.inr ⟨by decide, by decide, by decide⟩)
  refine ⟨"SELECT " ++ columnsText twoJoinsBuilder.fields, rest, ?_⟩
  rw [hr]
  simp only [String.append_assoc]

/-- C21 as stated fails.  A join whose condition holds a `?`, under the default
dollar style: `BuildSelect` succeeds and its SQL holds `o.kind = $1`, so the
text `kind + " " + target + " ON " + cond` of the join is not in it.  A builder
with a join and no field: `BuildSelect` returns the error of a select without
columns and the empty SQL. -/
theorem joins_law_counterexample :
    joinArgBuilder.joins.map joinConfig.clause =
      ["JOIN orders o ON o.user_id = u.id AND o.kind = ?"] ∧
    joinArgBuilder.BuildSelect =
      ("SELECT u.id FROM users u JOIN orders o ON o.user_id = u.id AND o.kind = $1 LIMIT 7",
        [], none) ∧
    ¬ containsText
      "SELECT u.id FROM users u JOIN orders o ON o.user_id = u.id AND o.kind = $1 LIMIT 7"
      ("JOIN" ++ " " ++ "orders o" ++ " ON " ++ "o.user_id = u.id AND o.kind = ?") ∧
    joinNoFieldBuilder.joins.map joinConfig.clause = ["JOIN orders ON users.id = orders.user_id"] ∧
    joinNoFieldBuilder.BuildSelect =
      ("", [], some "select statements must have at least one result column") := by
  refine ⟨by decide, rfl, ?_, by decide, rfl⟩
  intro h
  have hm := containsText_mem _ _ h '?' (by decide)
  revert hm
  decide

/-! ### C25: the count ignores sorting and pagination -/

/-- C25.  Two builders that agree on table, estimate table, fields, joins,
predicates and placeholder style, whatever their sort, limit and offset:
`BuildCount` returns the same SQL text, the same bind list and the same error
status.  In particular `Sort`, `SortIf`, `Limit`, `Offset` and `Page` leave the
result of `BuildCount` as it was. -/
theorem BuildCount_ignores_sort_and_page (b1 b2 : SQLBuilder)
    (ht : b1.fromTable = b2.fromTable) (he : b1.estimateTable = b2.estimateTable)
    (hf : b1.fields = b2.fields) (hj : b1.joins = b2.joins)
    (hw : b1.whereConditions = b2.whereConditions) (hp : b1.placeholder = b2.placeholder) :
    b1.BuildCount = b2.BuildCount ∧
    b1.BuildCount.sql = b2.BuildCount.sql ∧ b1.BuildCount.args = b2.BuildCount.args ∧
    b1.BuildCount.err = b2.BuildCount.err ∧
    (∀ field order, (b1.Sort field order).BuildCount = b1.BuildCount) ∧
    (∀ field order, (b1.SortIf field order).BuildCount = b1.BuildCount) ∧
    (∀ n, (b1.Limit n).BuildCount = b1.BuildCount) ∧
    (∀ n, (b1.Offset n).BuildCount = b1.BuildCount) ∧
    (∀ page pageSize, (b1.Page page pageSize).BuildCount = b1.BuildCount) := by
  have h := SQLBuilder.BuildCount_congr b1 b2 ht he hf (by rw [hj]) hw hp
  refine ⟨h, by rw [h], by rw [h], by rw [h], ?_, ?_, ?_, ?_, ?_⟩
  · intro field order
    exact SQLBuilder.BuildCount_congr _ _ rfl rfl rfl rfl rfl rfl
  · intro field order
    unfold SQLBuilder.SortIf
    split
    · exact SQLBuilder.BuildCount_congr _ _ rfl rfl rfl rfl rfl rfl
    · rfl
  · intro n
    unfold SQLBuilder.Limit
    split
    · rfl
    · exact SQLBuilder.BuildCount_congr _ _ rfl rfl rfl rfl rfl rfl
  · intro n
    exact SQLBuilder.BuildCount_congr _ _ rfl rfl rfl rfl rfl rfl
  · intro page pageSize
    exact SQLBuilder.BuildCount_congr _ _ rfl rfl rfl rfl rfl rfl

/-- Witness of C25: the builder of the round trip against the same builder
sorted by `name` and on page 3 of size 20; the count statement is the same. -/
theorem BuildCount_ignores_sort_and_page_witness :
    ((activeUsersBuilder.Sort "name" "DESC").Page 3 20).sort ≠ activeUsersBuilder.sort ∧
    ((activeUsersBuilder.Sort "name" "DESC").Page 3 20).BuildCount =
      activeUsersBuilder.BuildCount ∧
    activeUsersBuilder.BuildCount =
      ("SELECT COUNT(*) FROM (SELECT id, name FROM users WHERE (active = $1)) AS subquery",
        [Value.bool true], none) :=
  ⟨by decide,
    (BuildCount_ignores_sort_and_page ((activeUsersBuilder.Sort "name" "DESC").Page 3 20)
      activeUsersBuilder rfl rfl rfl rfl rfl rfl).1, rfl⟩

/-! ### C26: the bind arguments of joins -/

/-- C26 as amended.  Two builders that differ only in the bind arguments stored
with their joins: `BuildSelect` and `BuildCount` return the same result, SQL
text and bind list.  The bind list of a successful `BuildSelect`, and of a
successful `BuildCount` on the exact path, is the bind list of the predicates,
which for simple comparisons is their values in order; on the estimate path (an
estimate table and no predicate) `BuildCount` binds the estimate table. -/
theorem join_args_unused (b1 b2 : SQLBuilder)
    (ht : b1.fromTable = b2.fromTable) (he : b1.estimateTable = b2.estimateTable)
    (hf : b1.fields = b2.fields)
    (hj : b1.joins.map joinConfig.withoutArgs = b2.joins.map joinConfig.withoutArgs)
    (hm : b1.sortMapping = b2.sortMapping) (hp : b1.placeholder = b2.placeholder)
    (hw : b1.whereConditions = b2.whereConditions) (hs : b1.sort = b2.sort)
    (hl : b1.limit = b2.limit) (ho : b1.offset = b2.offset) :
    b1.BuildSelect = b2.BuildSelect ∧ b1.BuildCount = b2.BuildCount ∧
    (∀ sql a, b1.BuildSelect = (sql, a, none) → a = b1.predicateArgs) ∧
    (∀ sql a, (b1.whereConditions.length > 0 ∨ b1.estimateTable = "") →
      b1.BuildCount = (sql, a, none) → a = b1.predicateArgs) ∧
    (¬ (b1.whereConditions.length > 0 ∨ b1.estimateTable = "") →
      b1.BuildCount = (estimateSQL, [Value.str b1.estimateTable], none)) ∧
    ((∀ p ∈ b1.whereConditions, p.IsSimple) →
      b1.predicateArgs = b1.whereConditions.map Sqlizer.value) := by
  have hc := clause_of_withoutArgs _ _ hj
  refine ⟨SQLBuilder.BuildSelect_congr b1 b2 ht hf hc hw hp hs hm hl ho,
    SQLBuilder.BuildCount_congr b1 b2 ht he hf hc hw hp, ?_, ?_, ?_, ?_⟩
  · intro sql a h
    rw [SQLBuilder.BuildSelect_eq] at h
    rcases hraw : (SelectBuilder.mk b1.placeholder b1.fields (FromPart.part b1.fromTable)
          (b1.joins.map joinConfig.clause)
          (if b1.whereConditions.length > 0 then [Sqlizer.And b1.whereConditions] else [])
          [] "" "").toSqlRaw with ⟨s, a0, _ | e⟩
    · rw [b1.BuildSelect_raw_ok s a0 hraw, finishToSql_ok] at h
      obtain ⟨W, _, _, _, ha⟩ := base_toSqlRaw_ok _ _ _ _ _ s a0 hraw
      simp only [Prod.mk.injEq] at h
      rw [← h.2.1]
      exact ha
    · rw [b1.BuildSelect_raw_err s a0 e hraw, finishToSql_err] at h
      simp at h
  · intro sql a hpath h
    exact b1.BuildCount_exact_args hpath sql a h
  · intro hpath
    unfold SQLBuilder.BuildCount
    simp only [hpath, if_false]
  · intro hsimple
    unfold SQLBuilder.predicateArgs
    split
    · rename_i hlen
      simp only [Sqlizer.ToSql, conjParts_simple _ hsimple, conjFinish, SqlResult.args]
      have h0 : b1.whereConditions.length ≠ 0 := by omega
      have h1 : 0 < (b1.whereConditions.map
          (fun p => p.column ++ " " ++ p.operator ++ " ?")).length := by
        simpa using hlen
      simp only [h0, if_false, gt_iff_lt, h1, if_true]
    · rename_i hlen
      have h0 : b1.whereConditions = [] := by
        cases hwc : b1.whereConditions with
        | nil => rfl
        | cons x xs => simp [hwc] at hlen
      simp [h0]

/-- Witness of C26: the join with the condition `... o.kind = ?` stored with the
bind argument 5 and stored with none; both builders give the same statements,
and the bind list of the select is empty. -/
theorem join_args_unused_witness :
    joinArgBuilder.BuildSelect =
      (((NewSQLBuilder.WithFrom "users u").WithField "u.id").WithJoin "JOIN" "orders o"
        "o.user_id = u.id AND o.kind = ?" []).BuildSelect ∧
    joinArgBuilder.BuildCount =
      (((NewSQLBuilder.WithFrom "users u").WithField "u.id").WithJoin "JOIN" "orders o"
        "o.user_id = u.id AND o.kind = ?" []).BuildCount ∧
    joinArgBuilder.BuildSelect.args = [] :=
  ⟨(join_args_unused joinArgBuilder
      (((NewSQLBuilder.WithFrom "users u").WithField "u.id").WithJoin "JOIN" "orders o"
        "o.user_id = u.id AND o.kind = ?" []) rfl rfl rfl rfl rfl rfl rfl rfl rfl rfl).1,
    (join_args_unused joinArgBuilder
      (((NewSQLBuilder.WithFrom "users u").WithField "u.id").WithJoin "JOIN" "orders o"
        "o.user_id = u.id AND o.kind = ?" []) rfl rfl rfl rfl rfl rfl rfl rfl rfl rfl).2.1,
    rfl⟩

/-- C26 as stated fails on the estimate path of `BuildCount`.  The builder has
an estimate table, no join and no predicate; `BuildCount` succeeds, and its bind
list holds the estimate table `users`, which is not a predicate bind value: the
predicates' bind list is empty. -/
theorem join_args_unused_counterexample :
    estimateBuilder.whereConditions.length = 0 ∧ estimateBuilder.joins.length = 0 ∧
    estimateBuilder.BuildCount =
      ("SELECT reltuples::bigint AS estimate FROM pg_class WHERE oid = $1::regclass",
        [Value.str "users"], none) ∧
    estimateBuilder.predicateArgs = [] ∧
    estimateBuilder.BuildCount.args ≠ estimateBuilder.predicateArgs := by
  refine ⟨rfl, rfl, rfl, rfl, ?_⟩
  intro h
  have hl := congrArg List.length h
  revert hl
  decide
